import Mathlib

/-!
# rocSPARSE triangular solve (csrsv): analysis, level order and solve

A shallow embedding of `library/src/level2/rocsparse_csrsv.hpp` and of the block
sum reduction of `library/src/level1/doti_device.h`.  Host code is
translated statement by statement; `rocsparse_int` values are `Int`, C arrays are
lists read and written through bounds-checked accessors, and a result of `none`
stands for an access outside an array (undefined behaviour in the C++ source).
-/

namespace RocSparse

/-! ## Arrays -/

/-- Read of the C array `xs` at the signed index `i`; `none` when `i` is outside
the array. -/
def readAt {α : Type} (xs : List α) (i : Int) : Option α :=
  if 0 ≤ i ∧ i < (xs.length : Int) then xs[i.toNat]? else none

/-- Write of `v` to the C array `xs` at the signed index `i`; `none` when `i` is
outside the array. -/
def writeAt {α : Type} (xs : List α) (i : Int) (v : α) : Option (List α) :=
  if 0 ≤ i ∧ i < (xs.length : Int) then some (xs.set i.toNat v) else none

/-! ## Host side of `rocsparse_csrtr_analysis`: the row map (lines 335-346) -/

/-- The two arrays the row-map loop updates: `counter` (one running count per
level) and `info->h_row_map`. -/
structure RowMapState where
  counter : List Int
  h_row_map : List Int
deriving DecidableEq, Repr

/-- One iteration of the loop `for(rocsparse_int i = 0; i < m; ++i)` at lines
338-346:
`level = done_array[i] - 1; prev_level = level - 1;`
`depth_offset = (level == 0) ? 0 : rows_per_level[prev_level];`
`h_row_map[depth_offset + counter[level]] = i; ++counter[level];` -/
def row_map_step (done_array rows_per_level : List Int) (st : RowMapState) (i : Nat) :
    Option RowMapState := do
  let d ← readAt done_array (i : Int)
  let level := d - 1
  let prev_level := level - 1
  let depth_offset ← (if level = 0 then some 0 else readAt rows_per_level prev_level)
  let c ← readAt st.counter level
  let h_row_map ← writeAt st.h_row_map (depth_offset + c) (i : Int)
  let counter ← writeAt st.counter level (c + 1)
  some { counter := counter, h_row_map := h_row_map }

/-- The state before the loop: `counter(info->max_depth, 0)` and the `m + 1`
entries of `h_row_map` zeroed by `memset` (line 208). -/
def row_map_init (m : Nat) (max_depth : Int) : RowMapState :=
  { counter := List.replicate max_depth.toNat 0, h_row_map := List.replicate (m + 1) 0 }

/-- The whole loop at lines 335-346, run for the rows `0 .. m - 1`. -/
def create_row_map (m : Nat) (max_depth : Int) (done_array rows_per_level : List Int) :
    Option RowMapState :=
  (List.range m).foldlM (row_map_step done_array rows_per_level) (row_map_init m max_depth)

/-! ## What the analysis kernel and the scan leave for the row-map loop -/

/-- Modelled from the spec: `hipcub::DeviceScan::InclusiveSum`, the inclusive
prefix sum ("an inclusive-prefix-sum pass turns raw per-level row counts into
cumulative `rows_per_level` offsets"); `acc` is the sum of the entries already
passed. -/
def inclusiveSumFrom : Int → List Int → List Int
  | _, [] => []
  | acc, x :: xs => (acc + x) :: inclusiveSumFrom (acc + x) xs

/-- Modelled from the spec: the inclusive scan of a whole array. -/
def InclusiveSum (xs : List Int) : List Int := inclusiveSumFrom 0 xs

/-- The per-level row counts: entry `l` is the number of rows whose `done` value
is `l + 1`, for the levels `0 .. max_depth - 1`. -/
def levelCounts (done_array : List Int) (max_depth : Int) : List Int :=
  (List.range max_depth.toNat).map (fun (l : Nat) => ((done_array.count ((l : Int) + 1) : Nat) : Int))

/-- The largest `done` value (0 for no rows). -/
def maxDone (done_array : List Int) : Int := done_array.foldl max 0

/-! ## The position the counting sort gives to a row -/

/-- Number of rows whose `done` value is below `d`, that is, rows of a lower
level than the rows with `done` value `d`. -/
def levelOffset (done_array : List Int) (d : Int) : Nat :=
  done_array.countP (fun x => decide (x < d))

/-- Number of rows before row `i` whose `done` value is `d`. -/
def rankInLevel (done_array : List Int) (i : Nat) (d : Int) : Nat :=
  (done_array.take i).count d

/-- Position of row `i` in level order: the rows of lower levels come first,
then the rows of its own level with a smaller index. -/
def rowPos (done_array : List Int) (i : Nat) : Nat :=
  levelOffset done_array (done_array.getD i 0) + rankInLevel done_array i (done_array.getD i 0)

/-- The `counter` array after the rows `0 .. n - 1` have been placed: entry `l` is
the number of those rows whose `done` value is `l + 1`. -/
def counterAfter (done_array : List Int) (max_depth : Int) (n : Nat) : List Int :=
  (List.range max_depth.toNat).map
    (fun (l : Nat) => (((done_array.take n).count ((l : Int) + 1) : Nat) : Int))

/-- The row map after the rows `0 .. n - 1` have been placed, each at its
`rowPos`. -/
def rowMapAfter (done_array : List Int) (m n : Nat) : List Int :=
  (List.range n).foldl (fun h i => h.set (rowPos done_array i) (i : Int)) (List.replicate (m + 1) 0)


/-! ## Status codes, enumerations, handle and descriptor -/

/-- The result codes of the library (`rocsparse_status`). -/
inductive rocsparse_status
  | success
  | invalid_handle
  | not_implemented
  | invalid_pointer
  | invalid_size
  | memory_error
  | internal_error
  | invalid_value
  | arch_mismatch
  | zero_pivot
deriving DecidableEq, Repr

/-! The enumerations are kept as the integers a caller can pass, so that values
outside the enumeration can be expressed. Their declarations are in
`rocsparse-types.h`, which is not part of the sources at hand; only the fact that
the named values are distinct is used. -/

def rocsparse_index_base_zero : Int := 0
def rocsparse_index_base_one : Int := 1
def rocsparse_matrix_type_general : Int := 0
def rocsparse_fill_mode_lower : Int := 0
def rocsparse_fill_mode_upper : Int := 1
def rocsparse_diag_type_non_unit : Int := 0
def rocsparse_diag_type_unit : Int := 1
def rocsparse_analysis_policy_reuse : Int := 0
def rocsparse_analysis_policy_force : Int := 1
def rocsparse_solve_policy_auto : Int := 0
def rocsparse_pointer_mode_host : Int := 0
def rocsparse_pointer_mode_device : Int := 1
def rocsparse_operation_none : Int := 111
def rocsparse_operation_transpose : Int := 112
def rocsparse_operation_conjugate_transpose : Int := 113

/-- The value of `std::numeric_limits<rocsparse_int>::max()` for the 32-bit
`rocsparse_int`: the "no zero pivot" sentinel. -/
def rocsparse_int_max : Int := 2147483647

/-- The fields of `_rocsparse_mat_descr` the csrsv routines read. -/
structure rocsparse_mat_descr where
  type : Int
  fill_mode : Int
  diag_type : Int
  base : Int
deriving DecidableEq, Repr

/-- The fields of `_rocsparse_handle` the csrsv routines read. -/
structure rocsparse_handle where
  wavefront_size : Int
  pointer_mode : Int
deriving DecidableEq, Repr

/-! ## Analysis objects and the matrix info -/

/-- The fields of `_rocsparse_csrtr_info` written by `rocsparse_csrtr_analysis`.
A buffer that has not been allocated (a null pointer) is `none`. -/
structure rocsparse_csrtr_info where
  csr_diag_ind : Option (List Int)
  zero_pivot : Option Int
  d_row_map : Option (List Int)
  h_row_map : Option (List Int)
  max_depth : Int
  total_spin : Nat
  max_nnz : Int
  rows_per_level : List Int
  m : Int
  nnz : Int
  descr : Option rocsparse_mat_descr
  csr_row_ptr : Option (List Int)
  csr_col_ind : Option (List Int)
deriving DecidableEq, Repr

/-- A cell of the store of analysis objects: the object and the number of
handles that share it. -/
structure SharedInfo where
  refs : Nat
  obj : rocsparse_csrtr_info
deriving DecidableEq, Repr

/-- The store of analysis objects. A handle is an index into the store; a cell
that is `none` has been freed. -/
abbrev InfoStore := List (Option SharedInfo)

/-- The three analysis slots of `_rocsparse_mat_info` the csrsv routines use; a
null handle is `none`. -/
structure rocsparse_mat_info where
  csrsv_upper_info : Option Nat
  csrsv_lower_info : Option Nat
  csrilu0_info : Option Nat
deriving DecidableEq, Repr

/-- The object behind a handle, when the handle refers to a live object. -/
def InfoStore.lookup (store : InfoStore) (h : Option Nat) : Option rocsparse_csrtr_info :=
  match h with
  | none => none
  | some a =>
    match store[a]? with
    | some (some cell) => some cell.obj
    | _ => none

/-- Replaces the object behind a live handle, keeping its holders. -/
def InfoStore.update (store : InfoStore) (a : Nat) (obj : rocsparse_csrtr_info) : InfoStore :=
  match store[a]? with
  | some (some cell) => store.set a (some { cell with obj := obj })
  | _ => store

/-- Modelled from the spec: the analysis object as `rocsparse_create_csrtr_info`
leaves it ("created empty"): no buffer allocated, all counters zero. -/
def empty_csrtr_info : rocsparse_csrtr_info :=
  { csr_diag_ind := none, zero_pivot := none, d_row_map := none, h_row_map := none,
    max_depth := 0, total_spin := 0, max_nnz := 0, rows_per_level := [], m := 0, nnz := 0,
    descr := none, csr_row_ptr := none, csr_col_ind := none }

/-- Modelled from the spec: `rocsparse_create_csrtr_info`, which is not part of
the sources at hand. It allocates a new, empty analysis object with one holder
and returns its handle; the handle is one that no earlier object has had. -/
def rocsparse_create_csrtr_info (store : InfoStore) : rocsparse_status × InfoStore × Option Nat :=
  (rocsparse_status.success, store ++ [some { refs := 1, obj := empty_csrtr_info }],
    some store.length)

/-- Modelled from the spec: `rocsparse_destroy_csrtr_info`, which is not part of
the sources at hand. A null handle is accepted and nothing happens. Otherwise the
caller releases its hold on the object: an analysis object is "shared by both,
freed only when both release it, realized by a shared/reference-counted handle",
so the object is freed (with its device buffers) when the last holder releases it.
A handle that refers to no live object is a use after free: `none`. No statement
of the sources at hand adds a holder: an object has the one holder it is created
with, and the alias of line 519 copies the handle only. -/
def rocsparse_destroy_csrtr_info (store : InfoStore) (h : Option Nat) :
    Option (rocsparse_status × InfoStore) :=
  match h with
  | none => some (rocsparse_status.success, store)
  | some a =>
    match store[a]? with
    | some (some cell) =>
      if cell.refs ≤ 1 then some (rocsparse_status.success, store.set a none)
      else some (rocsparse_status.success, store.set a (some { cell with refs := cell.refs - 1 }))
    | _ => none

/-! ## The scratch buffer -/

/-- The regions of the scratch buffer (`temp_buffer`) seen as typed arrays:
`max_depth` at byte 0, `total_spin` at 256, `max_nnz` at 512, the `done` array at
768 and the `rows_per_level` array behind it. -/
structure Scratch where
  max_depth : Int
  total_spin : Nat
  max_nnz : Int
  done_array : List Int
  rows_per_level : List Int
deriving DecidableEq, Repr

/-- Number of `rocsparse_int` entries of each per-row region:
`((m - 1) / 256 + 1) * 256`, with the truncating division of C. -/
def paddedRows (m : Int) : Int := (Int.tdiv (m - 1) 256 + 1) * 256

/-! ## CSR rows -/

/-- Modelled from the spec: how the kernels of `csrsv_device.h` read a row of the
CSR matrix ("`col_ind` in `[row_ptr[i], row_ptr[i+1])`", the index base "applied
uniformly to all indices"). The stored entries of row `row` as pairs (position in
`csr_col_ind` and `csr_val`, zero-based column): the positions
`csr_row_ptr[row] - idx_base .. csr_row_ptr[row + 1] - idx_base - 1`. -/
def csr_row_entries (csr_row_ptr csr_col_ind : List Int) (idx_base : Int) (row : Int) :
    Option (List (Int × Int)) := do
  let row_begin ← (readAt csr_row_ptr row).map (fun v => v - idx_base)
  let row_end ← (readAt csr_row_ptr (row + 1)).map (fun v => v - idx_base)
  (List.range (row_end - row_begin).toNat).mapM (fun (t : Nat) => do
    let c ← readAt csr_col_ind (row_begin + (t : Int))
    some (row_begin + (t : Int), c - idx_base))

/-- Modelled from the spec: whether column `col` is a dependency of row `row` in
the kernels of `csrsv_device.h`: "column < row for lower, column > row for
upper". -/
def isDependency (fill_mode : Int) (row col : Int) : Bool :=
  if fill_mode = rocsparse_fill_mode_upper then decide (row < col) else decide (col < row)

/-! ## The analysis kernel -/

/-- The device memory the per-row workers of the analysis kernel update. -/
structure AnalysisMem where
  csr_diag_ind : List Int
  done_array : List Int
  zero_pivot : Int
  max_nnz : Int
deriving DecidableEq, Repr

/-- Modelled from the spec: what the worker of a row does with one stored entry.
For a dependency column it waits "until row j is marked done" (a `done` value of
0 is never left by a worker that runs after this one, hence `none`) and raises
the running maximum of the `done` values; the diagonal entry is located. The
accumulator is (largest `done` value of a dependency, position of the diagonal). -/
def analysis_entry (fill_mode : Int) (done_array : List Int) (row : Int)
    (acc : Int × Option Int) (e : Int × Int) : Option (Int × Option Int) :=
  if isDependency fill_mode row e.2 then
    (readAt done_array e.2).bind (fun d => if d = 0 then none else some (max acc.1 d, acc.2))
  else if e.2 = row then some (acc.1, some e.1)
  else some acc

/-- Modelled from the spec: the worker of one row of `csrsv_analysis_kernel`
(`csrsv_device.h` is not part of the sources at hand). The level of the row is
"1 + max(level[j] for required j) (0 if no dependencies)" and `done[row]` receives
level + 1, which is the largest `done` value of a dependency plus one. The
position of the diagonal entry is recorded in `csr_diag_ind`, "absence is recorded
as a sentinel" (-1), and an absent diagonal is a structural zero pivot, recorded in
`zero_pivot` unless a row has been recorded already. -/
def analysis_row (fill_mode : Int) (csr_row_ptr csr_col_ind : List Int) (idx_base : Int)
    (mem : AnalysisMem) (row : Nat) : Option AnalysisMem := do
  let es ← csr_row_entries csr_row_ptr csr_col_ind idx_base (row : Int)
  let r ← es.foldlM (analysis_entry fill_mode mem.done_array (row : Int)) (0, none)
  let done_array ← writeAt mem.done_array (row : Int) (r.1 + 1)
  let csr_diag_ind ← writeAt mem.csr_diag_ind (row : Int) (r.2.getD (-1))
  some { csr_diag_ind := csr_diag_ind,
         done_array := done_array,
         zero_pivot := if r.2.isNone ∧ mem.zero_pivot = rocsparse_int_max then (row : Int)
                       else mem.zero_pivot,
         max_nnz := max mem.max_nnz (es.length : Int) }

/-- Modelled from the spec: the order in which the workers of the rows of
`csrsv_analysis_kernel` complete: a row after the rows it waits for, that is, by
increasing row for the lower and by decreasing row for the upper triangle. -/
def analysis_order (fill_mode : Int) (m : Nat) : List Nat :=
  if fill_mode = rocsparse_fill_mode_upper then (List.range m).reverse else List.range m

/-- Modelled from the spec: `csrsv_analysis_kernel`, run on `m` rows, started
with the zeroed `done` array, the uninitialised `csr_diag_ind` (shown as zeros)
and the `zero_pivot` the host has written. -/
def csrsv_analysis_kernel (fill_mode : Int) (m : Int) (csr_row_ptr csr_col_ind : List Int)
    (zero_pivot : Int) (idx_base : Int) : Option AnalysisMem :=
  (analysis_order fill_mode m.toNat).foldlM
    (analysis_row fill_mode csr_row_ptr csr_col_ind idx_base)
    { csr_diag_ind := List.replicate m.toNat 0, done_array := List.replicate m.toNat 0,
      zero_pivot := zero_pivot, max_nnz := 0 }

/-! ## The launch grid -/

/-- The value an `int` (32 bits, two's complement) holds for the mathematical
integer `v`: arithmetic in `int` wraps modulo `2 ^ 32`. -/
def int32_wrap (v : Int) : Int := (v + 2147483648) % 4294967296 - 2147483648

/-- Conversion of an `int` to the `uint32_t` of the members of `dim3`. -/
def uint32_of_int (v : Int) : Nat := (v % 4294967296).toNat

/-- The number of blocks of the launch, line 217:
`dim3 csrsv_blocks((handle->wavefront_size * m - 1) / CSRILU0_DIM + 1)` with
`CSRILU0_DIM` 1024 (line 216), the expression being computed in `int` with the
truncating division of C. An overflow of the product, undefined in C++, is taken to
wrap, as the hardware does. -/
def csrsv_blocks (wavefront_size m : Int) : Nat :=
  uint32_of_int
    (int32_wrap (Int.tdiv (int32_wrap (int32_wrap (wavefront_size * m) - 1)) 1024 + 1))

/-- The number of wavefronts of the launch: `csrsv_blocks` blocks of
`csrsv_threads` = 1024 threads (line 218), `wavefront_size` threads to a wavefront.
Each wavefront is the worker of one row. -/
def csrsv_wavefronts (wavefront_size m : Int) : Nat :=
  csrsv_blocks wavefront_size m * 1024 / wavefront_size.toNat

/-- The launch of `csrsv_analysis_kernel` on a grid of `workers` wavefronts: the
workers with an index below `m` run, in the order of `analysis_order`; a row
beyond the grid has no worker. -/
def csrsv_analysis_launch (workers : Nat) (fill_mode : Int) (m : Int)
    (csr_row_ptr csr_col_ind : List Int) (zero_pivot : Int) (idx_base : Int) :
    Option AnalysisMem :=
  ((analysis_order fill_mode m.toNat).take workers).foldlM
    (analysis_row fill_mode csr_row_ptr csr_col_ind idx_base)
    { csr_diag_ind := List.replicate m.toNat 0, done_array := List.replicate m.toNat 0,
      zero_pivot := zero_pivot, max_nnz := 0 }

/-- Modelled from the spec: the scratch buffer when the analysis kernel has
finished. The `done` region holds level + 1 of every row, the per-level counters
hold the number of rows of each level ("atomically increments a per-level row
counter"), `max_depth` is the largest level plus one, the number of levels, and
`total_spin`, the number of busy-wait iterations, depends on the scheduling of the
workers and is given from outside. -/
def scratch_after_kernel (m : Int) (total_spin : Nat) (mem : AnalysisMem) : Scratch :=
  { max_depth := maxDone mem.done_array,
    total_spin := total_spin,
    max_nnz := mem.max_nnz,
    done_array := mem.done_array ++ List.replicate ((paddedRows m).toNat - m.toNat) 0,
    rows_per_level := levelCounts mem.done_array (paddedRows m) }

/-- The scratch buffer after `hipMemsetAsync(ptr, 0, buffer_size)` (line 170). -/
def scratch_zero (m : Int) : Scratch :=
  { max_depth := 0, total_spin := 0, max_nnz := 0,
    done_array := List.replicate (paddedRows m).toNat 0,
    rows_per_level := List.replicate (paddedRows m).toNat 0 }

/-! ## `rocsparse_csrtr_analysis` and `rocsparse_csrsv_analysis_template` -/

/-- The result of an analysis routine on one analysis object. -/
structure CsrtrResult where
  status : rocsparse_status
  info : rocsparse_csrtr_info
  temp_buffer : Scratch
deriving DecidableEq, Repr

/-- `rocsparse_csrtr_analysis` (lines 149-363). The calls into the device runtime
(`hipMalloc`, `hipMemcpy`, `hipMemsetAsync`, the scan) are taken to succeed;
`total_spin` is the number of busy-wait iterations the kernel observes. The kernel
is launched on the grid of lines 217-218, which need not reach every row. `none`
is an access outside an array. -/
def rocsparse_csrtr_analysis (total_spin : Nat) (handle : rocsparse_handle) (trans : Int)
    (m nnz : Int) (descr : rocsparse_mat_descr) (csr_row_ptr csr_col_ind : List Int)
    (info : rocsparse_csrtr_info) : Option CsrtrResult :=
  let _ := trans
  -- lines 162-193: the buffer is set to zero and split into its regions
  let buf0 := scratch_zero m
  -- lines 195-213: buffers of the analysis object, `zero_pivot` set to the maximum
  let info1 : rocsparse_csrtr_info :=
    { info with csr_diag_ind := some (List.replicate m.toNat 0),
                zero_pivot := some rocsparse_int_max,
                d_row_map := some (List.replicate (m.toNat + 1) 0),
                h_row_map := some (List.replicate (m.toNat + 1) 0) }
  -- lines 215-306: kernel launch on `csrsv_blocks` blocks of 1024 threads
  if handle.wavefront_size = 32 ∨ handle.wavefront_size = 64 then
    let launched : Option (rocsparse_csrtr_info × Scratch) :=
      if descr.fill_mode = rocsparse_fill_mode_upper ∨ descr.fill_mode = rocsparse_fill_mode_lower
      then
        (csrsv_analysis_launch (csrsv_wavefronts handle.wavefront_size m) descr.fill_mode m
            csr_row_ptr csr_col_ind rocsparse_int_max descr.base).map
          (fun mem => ({ info1 with csr_diag_ind := some mem.csr_diag_ind,
                                    zero_pivot := some mem.zero_pivot },
                       scratch_after_kernel m total_spin mem))
      else some (info1, buf0)
    launched.bind (fun (info2, buf1) =>
      -- lines 308-314: post processing
      let info3 : rocsparse_csrtr_info :=
        { info2 with max_depth := buf1.max_depth, total_spin := buf1.total_spin,
                     max_nnz := buf1.max_nnz }
      -- lines 316-321: inclusive sum over the first `max_depth` counters
      if info3.max_depth.toNat ≤ buf1.rows_per_level.length then
        let buf2 : Scratch :=
          { buf1 with rows_per_level :=
              InclusiveSum (buf1.rows_per_level.take info3.max_depth.toNat)
                ++ buf1.rows_per_level.drop info3.max_depth.toNat }
        -- lines 323-333: meta data moved to the host
        let rows_per_level := buf2.rows_per_level.take info3.max_depth.toNat
        let done_array := buf2.done_array.take m.toNat
        -- lines 335-346: the row map
        (create_row_map m.toNat info3.max_depth done_array rows_per_level).map (fun st =>
          -- lines 348-362
          { status := rocsparse_status.success,
            info := { info3 with rows_per_level := rows_per_level,
                                 h_row_map := some st.h_row_map,
                                 d_row_map := some st.h_row_map,
                                 m := m, nnz := nnz, descr := some descr,
                                 csr_row_ptr := some csr_row_ptr,
                                 csr_col_ind := some csr_col_ind },
            temp_buffer := buf2 })
      else none)
  else
    some { status := rocsparse_status.arch_mismatch, info := info1, temp_buffer := buf0 }

/-- The state an analysis call leaves: the status, the matrix info (when the
caller passed one), the store of analysis objects and the scratch buffer. -/
structure AnalysisResult where
  status : rocsparse_status
  info : Option rocsparse_mat_info
  store : InfoStore
  temp_buffer : Option Scratch
deriving DecidableEq, Repr

/-- The part of `rocsparse_csrsv_analysis_template` shared by the two fill modes:
"Clear csrsv info", "Create csrsv info", "Perform analysis" (lines 473-488 and
528-543) on the slot written by `set`. -/
def rebuild_analysis (total_spin : Nat) (handle : rocsparse_handle) (trans : Int) (m nnz : Int)
    (descr : rocsparse_mat_descr) (csr_row_ptr csr_col_ind : List Int)
    (info : rocsparse_mat_info) (slot : Option Nat)
    (set : rocsparse_mat_info → Option Nat → rocsparse_mat_info)
    (store : InfoStore) (temp_buffer : Scratch) : Option AnalysisResult :=
  (rocsparse_destroy_csrtr_info store slot).bind (fun (s1, store1) =>
    if s1 ≠ rocsparse_status.success then
      some { status := s1, info := some info, store := store1, temp_buffer := some temp_buffer }
    else
      let (s2, store2, created) := rocsparse_create_csrtr_info store1
      let info2 := set info created
      if s2 ≠ rocsparse_status.success then
        some { status := s2, info := some info2, store := store2,
               temp_buffer := some temp_buffer }
      else
        (store2.lookup created).bind (fun obj =>
          (rocsparse_csrtr_analysis total_spin handle trans m nnz descr csr_row_ptr csr_col_ind
              obj).map
            (fun r =>
              { status := r.status, info := some info2,
                store := store2.update (created.getD 0) r.info,
                temp_buffer := some r.temp_buffer })))

/-- `rocsparse_csrsv_analysis_template` (lines 365-547). Null pointers are `none`;
`store` holds the analysis objects the handles of `info` refer to. The call of
`log_trace` (lines 393-406) has no effect on the result and is left out. -/
def rocsparse_csrsv_analysis_template (total_spin : Nat) (handle : Option rocsparse_handle)
    (trans : Int) (m nnz : Int) (descr : Option rocsparse_mat_descr)
    (csr_val : Option (List Rat)) (csr_row_ptr csr_col_ind : Option (List Int))
    (info : Option rocsparse_mat_info) (store : InfoStore) (analysis solve : Int)
    (temp_buffer : Option Scratch) : Option AnalysisResult :=
  let ret (s : rocsparse_status) : Option AnalysisResult :=
    some { status := s, info := info, store := store, temp_buffer := temp_buffer }
  match handle, descr, info with
  | none, _, _ => ret rocsparse_status.invalid_handle
  | some _, none, _ => ret rocsparse_status.invalid_pointer
  | some _, some _, none => ret rocsparse_status.invalid_pointer
  | some handle, some descr, some minfo =>
    -- Check index base
    if descr.base ≠ rocsparse_index_base_zero ∧ descr.base ≠ rocsparse_index_base_one then
      ret rocsparse_status.invalid_value
    -- Check matrix type
    else if descr.type ≠ rocsparse_matrix_type_general then
      ret rocsparse_status.not_implemented
    -- Check analysis policy
    else if analysis ≠ rocsparse_analysis_policy_reuse
        ∧ analysis ≠ rocsparse_analysis_policy_force then
      ret rocsparse_status.invalid_value
    -- Check solve policy
    else if solve ≠ rocsparse_solve_policy_auto then
      ret rocsparse_status.invalid_value
    -- Check sizes
    else if m < 0 then ret rocsparse_status.invalid_size
    else if nnz < 0 then ret rocsparse_status.invalid_size
    else
      -- Check pointer arguments
      match csr_row_ptr, csr_col_ind, csr_val, temp_buffer with
      | none, _, _, _ => ret rocsparse_status.invalid_pointer
      | some _, none, _, _ => ret rocsparse_status.invalid_pointer
      | some _, some _, none, _ => ret rocsparse_status.invalid_pointer
      | some _, some _, some _, none => ret rocsparse_status.invalid_pointer
      | some row_ptr, some col_ind, some _, some buf =>
        -- Quick return if possible
        if m = 0 ∨ nnz = 0 then ret rocsparse_status.success
        -- Switch between lower and upper triangular analysis
        else if descr.fill_mode = rocsparse_fill_mode_upper then
          rebuild_analysis total_spin handle trans m nnz descr row_ptr col_ind minfo
            minfo.csrsv_upper_info (fun i h => { i with csrsv_upper_info := h }) store buf
        else
          -- Differentiate the analysis policies
          if analysis = rocsparse_analysis_policy_reuse ∧ minfo.csrsv_lower_info ≠ none then
            -- If csrsv meta data is already available, do nothing
            ret rocsparse_status.success
          else if analysis = rocsparse_analysis_policy_reuse ∧ minfo.csrilu0_info ≠ none then
            -- csrilu0 meta data has been found, use it
            some { status := rocsparse_status.success,
                   info := some { minfo with csrsv_lower_info := minfo.csrilu0_info },
                   store := store,
                   temp_buffer := temp_buffer }
          else
            rebuild_analysis total_spin handle trans m nnz descr row_ptr col_ind minfo
              minfo.csrsv_lower_info (fun i h => { i with csrsv_lower_info := h }) store buf

/-! ## The solve kernel -/

/-- The device memory the per-row workers of the solve kernel update. -/
structure SolveMem where
  y : List Rat
  done_array : List Int
  zero_pivot : Int
deriving DecidableEq, Repr

/-- Modelled from the spec: what the worker of a row does with one stored entry.
For a dependency column `j` it must "busy-wait on `done[j]`" (a flag that is
still 0 when the worker runs is never set by a worker that runs before this one,
hence `none`) and subtracts `L[i][j] * y[j]` from the running sum; the diagonal
value is picked up; entries of the other triangle are ignored. The accumulator
is (running sum, diagonal value). -/
def solve_entry (fill_mode : Int) (csr_val : List Rat) (mem : SolveMem) (row : Int)
    (acc : Rat × Option Rat) (e : Int × Int) : Option (Rat × Option Rat) :=
  if isDependency fill_mode row e.2 then
    (readAt mem.done_array e.2).bind (fun d =>
      if d = 0 then none
      else (readAt csr_val e.1).bind (fun v =>
        (readAt mem.y e.2).map (fun yj => (acc.1 - v * yj, acc.2))))
  else if e.2 = row then (readAt csr_val e.1).map (fun v => (acc.1, some v))
  else some acc

/-- Modelled from the spec: the worker with index `idx` of `csrsv_device`
(`csrsv_device.h` is not part of the sources at hand). Its row is
`map[idx + offset]`; it computes `y[i] = alpha * x[i] - sum(L[i][j] * y[j])`,
divides "by the diagonal value (or treat as identity division if diagonal type is
unit)", and "if the diagonal is a true numerical zero" records the row in
`zero_pivot` ("first offender wins") and leaves `y[i]` unscaled; then the row is
published as done. A row without a stored diagonal is left unscaled. -/
def csrsv_device_row (alpha : Rat) (csr_row_ptr csr_col_ind : List Int) (csr_val x : List Rat)
    (map : List Int) (offset : Int) (idx_base fill_mode diag_type : Int)
    (mem : SolveMem) (idx : Nat) : Option SolveMem := do
  let row ← readAt map ((idx : Int) + offset)
  let es ← csr_row_entries csr_row_ptr csr_col_ind idx_base row
  let xi ← readAt x row
  let r ← es.foldlM (solve_entry fill_mode csr_val mem row) (alpha * xi, none)
  let zero : Bool := decide (diag_type ≠ rocsparse_diag_type_unit ∧ r.2 = some 0)
  let scaled : Rat :=
    if diag_type = rocsparse_diag_type_unit then r.1
    else match r.2 with
      | none => r.1
      | some d => if d = 0 then r.1 else r.1 / d
  let y ← writeAt mem.y row scaled
  let done_array ← writeAt mem.done_array row 1
  some { y := y, done_array := done_array,
         zero_pivot := if zero = true ∧ mem.zero_pivot = rocsparse_int_max then row
                       else mem.zero_pivot }

/-- Modelled from the spec: the kernel body `csrsv_device` for `m` rows. The
workers are run one after the other by increasing index, the order in which they
are dispatched. -/
def csrsv_device (m : Int) (alpha : Rat) (csr_row_ptr csr_col_ind : List Int)
    (csr_val x : List Rat) (mem : SolveMem) (map : List Int) (offset : Int)
    (idx_base fill_mode diag_type : Int) : Option SolveMem :=
  (List.range m.toNat).foldlM
    (csrsv_device_row alpha csr_row_ptr csr_col_ind csr_val x map offset idx_base fill_mode
      diag_type) mem

/-- The kernel `csrsv_host_pointer` (lines 549-580): `alpha` is passed by value. -/
def csrsv_host_pointer (m : Int) (alpha : Rat) (csr_row_ptr csr_col_ind : List Int)
    (csr_val x : List Rat) (mem : SolveMem) (map : List Int) (offset : Int)
    (idx_base fill_mode diag_type : Int) : Option SolveMem :=
  csrsv_device m alpha csr_row_ptr csr_col_ind csr_val x mem map offset idx_base fill_mode
    diag_type

/-- The kernel `csrsv_device_pointer` (lines 582-613): `alpha` is a pointer, read
as `*alpha`; a null pointer is `none`, reading through it is undefined. -/
def csrsv_device_pointer (m : Int) (alpha : Option Rat) (csr_row_ptr csr_col_ind : List Int)
    (csr_val x : List Rat) (mem : SolveMem) (map : List Int) (offset : Int)
    (idx_base fill_mode diag_type : Int) : Option SolveMem :=
  alpha.bind (fun a =>
    csrsv_device m a csr_row_ptr csr_col_ind csr_val x mem map offset idx_base fill_mode
      diag_type)

/-! ## `rocsparse_csrsv_solve_template` -/

/-- The state a solve call leaves: the status, the vector `y`, the scratch buffer
and the store of analysis objects (which holds `zero_pivot`). -/
structure SolveResult where
  status : rocsparse_status
  y : Option (List Rat)
  temp_buffer : Option Scratch
  store : InfoStore
deriving DecidableEq, Repr

/-- `rocsparse_csrsv_solve_template` (lines 615-1131). Null pointers are `none`;
`alpha` points to a scalar on the host or on the device, according to the pointer
mode of the handle. The calls into the device runtime are taken to succeed;
`none` is an access outside an array or through a null or dangling pointer. The
logging calls (lines 645-688) are left out: logging is outside the specified
behaviour. In host pointer mode they are handed `*alpha` before `alpha` is
compared with null; the embedding takes that expression to read nothing. The
launch grid of line 1021 is the 32-bit expression of the analysis (line 217,
`csrsv_blocks`); it is not applied here: the kernel runs a worker for each of the
`m` rows, which is what the launch provides when `wavefront_size * m ≤ 2^31`.
Results on what the kernel computes are therefore stated for analysis followed
by solve, where `rocsparse_csrtr_analysis` applies the grid. -/
def rocsparse_csrsv_solve_template (handle : Option rocsparse_handle) (trans : Int)
    (m nnz : Int) (alpha : Option Rat) (descr : Option rocsparse_mat_descr)
    (csr_val : Option (List Rat)) (csr_row_ptr csr_col_ind : Option (List Int))
    (info : Option rocsparse_mat_info) (store : InfoStore)
    (x y : Option (List Rat)) (policy : Int) (temp_buffer : Option Scratch) :
    Option SolveResult :=
  let _ := trans
  let _ := policy
  let ret (s : rocsparse_status) : Option SolveResult :=
    some { status := s, y := y, temp_buffer := temp_buffer, store := store }
  match handle, descr, info with
  | none, _, _ => ret rocsparse_status.invalid_handle
  | some _, none, _ => ret rocsparse_status.invalid_pointer
  | some _, some _, none => ret rocsparse_status.invalid_pointer
  | some handle, some descr, some minfo =>
    -- Check index base
    if descr.base ≠ rocsparse_index_base_zero ∧ descr.base ≠ rocsparse_index_base_one then
      ret rocsparse_status.invalid_value
    else if descr.type ≠ rocsparse_matrix_type_general then
      ret rocsparse_status.not_implemented
    -- Check sizes
    else if m < 0 then ret rocsparse_status.invalid_size
    else if nnz < 0 then ret rocsparse_status.invalid_size
    else
      -- Check pointer arguments
      match csr_val, csr_row_ptr, csr_col_ind, alpha, x, y, temp_buffer with
      | none, _, _, _, _, _, _ => ret rocsparse_status.invalid_pointer
      | some _, none, _, _, _, _, _ => ret rocsparse_status.invalid_pointer
      | some _, some _, none, _, _, _, _ => ret rocsparse_status.invalid_pointer
      | some _, some _, some _, none, _, _, _ => ret rocsparse_status.invalid_pointer
      | some _, some _, some _, some _, none, _, _ => ret rocsparse_status.invalid_pointer
      | some _, some _, some _, some _, some _, none, _ => ret rocsparse_status.invalid_pointer
      | some _, some _, some _, some _, some _, some _, none =>
        ret rocsparse_status.invalid_pointer
      | some val, some row_ptr, some col_ind, some a, some xv, some yv, some buf =>
        -- Quick return if possible
        if m = 0 ∨ nnz = 0 then ret rocsparse_status.success
        -- lines 750-761: the first `m` entries of the done array are set to zero
        else if buf.done_array.length < m.toNat then none
        else
          let d_done_array := List.replicate m.toNat 0 ++ buf.done_array.drop m.toNat
          -- lines 763-765
          let csrsv := if descr.fill_mode = rocsparse_fill_mode_upper then minfo.csrsv_upper_info
                       else minfo.csrsv_lower_info
          -- lines 767-773: if diag type is unit, re-initialize zero pivot
          let reset : Option InfoStore :=
            if descr.diag_type = rocsparse_diag_type_unit then
              (store.lookup csrsv).bind (fun obj =>
                obj.zero_pivot.map (fun _ =>
                  store.update (csrsv.getD 0) { obj with zero_pivot := some rocsparse_int_max }))
            else some store
          reset.bind (fun store1 =>
            -- lines 1020-1127: kernel launch
            if handle.wavefront_size = 32 ∨ handle.wavefront_size = 64 then
              (store1.lookup csrsv).bind (fun obj =>
                obj.d_row_map.bind (fun map =>
                  obj.zero_pivot.bind (fun zp =>
                    let mem : SolveMem := { y := yv, done_array := d_done_array, zero_pivot := zp }
                    let run : Option SolveMem :=
                      if handle.pointer_mode = rocsparse_pointer_mode_device then
                        csrsv_device_pointer m (some a) row_ptr col_ind val xv mem map 0
                          descr.base descr.fill_mode descr.diag_type
                      else
                        csrsv_host_pointer m a row_ptr col_ind val xv mem map 0
                          descr.base descr.fill_mode descr.diag_type
                    run.map (fun out =>
                      { status := rocsparse_status.success,
                        y := some out.y,
                        temp_buffer := some { buf with done_array := out.done_array },
                        store := store1.update (csrsv.getD 0)
                                   { obj with zero_pivot := some out.zero_pivot } }))))
            else
              some { status := rocsparse_status.arch_mismatch, y := y,
                     temp_buffer := some { buf with done_array := d_done_array },
                     store := store1 })

/-! ## `rocsparse_csrsv_buffer_size_template` -/

/-- The number of values of `size_t` (64 bits). -/
def size_t_range : Nat := 18446744073709551616

/-- Conversion of a `rocsparse_int` value to `size_t`. -/
def size_t_of_int (v : Int) : Nat := (v % (size_t_range : Int)).toNat

/-- The value of `sizeof(rocsparse_int)`. -/
def sizeof_rocsparse_int : Nat := 4

/-- The value of `sizeof(unsigned long long)`. -/
def sizeof_unsigned_long_long : Nat := 8

/-- The value of the `size_t` expression
`sizeof(rocsparse_int) * ((m - 1) / 256 + 1) * 256` (lines 134, 137, 166, 186 and
190), with the truncating division of C in `rocsparse_int` and the products in
`size_t`. -/
def padded_bytes (m : Int) : Nat :=
  ((sizeof_rocsparse_int * size_t_of_int (Int.tdiv (m - 1) 256 + 1)) % size_t_range * 256)
    % size_t_range

/-- The outcome of the size query
`hipcub::DeviceScan::InclusiveSum(nullptr, hipcub_size, ptr, ptr, n)` as seen
through `RETURN_IF_HIP_ERROR`: the number of bytes written to `hipcub_size`, or the
status the macro returns. The scan primitive is not part of the repository and is
a parameter of the embedding. -/
inductive ScanSizeQuery
  | ok (bytes : Nat)
  | failed (status : rocsparse_status)
deriving DecidableEq, Repr

/-- `rocsparse_csrsv_buffer_size_template` (lines 38-147). Null pointers are
`none`; `buffer_size` points to a `size_t`, the second component of the result is
what it points to afterwards. `scan_size n` is the outcome of the size query of
the scan primitive for `n` elements. The call of `log_trace` (lines 64-75) has no
effect on the result and is left out. -/
def rocsparse_csrsv_buffer_size_template (scan_size : Int → ScanSizeQuery)
    (handle : Option rocsparse_handle) (trans : Int) (m nnz : Int)
    (descr : Option rocsparse_mat_descr) (csr_val : Option (List Rat))
    (csr_row_ptr csr_col_ind : Option (List Int)) (info : Option rocsparse_mat_info)
    (buffer_size : Option Nat) : rocsparse_status × Option Nat :=
  let _ := trans
  match handle, descr, info with
  | none, _, _ => (rocsparse_status.invalid_handle, buffer_size)
  | some _, none, _ => (rocsparse_status.invalid_pointer, buffer_size)
  | some _, some _, none => (rocsparse_status.invalid_pointer, buffer_size)
  | some _, some descr, some _ =>
    -- Check index base
    if descr.base ≠ rocsparse_index_base_zero ∧ descr.base ≠ rocsparse_index_base_one then
      (rocsparse_status.invalid_value, buffer_size)
    else if descr.type ≠ rocsparse_matrix_type_general then
      (rocsparse_status.not_implemented, buffer_size)
    -- Check sizes
    else if m < 0 then (rocsparse_status.invalid_size, buffer_size)
    else if nnz < 0 then (rocsparse_status.invalid_size, buffer_size)
    else
      -- Check pointer arguments
      match csr_row_ptr, csr_col_ind, csr_val, buffer_size with
      | none, _, _, _ => (rocsparse_status.invalid_pointer, buffer_size)
      | some _, none, _, _ => (rocsparse_status.invalid_pointer, buffer_size)
      | some _, some _, none, _ => (rocsparse_status.invalid_pointer, buffer_size)
      | some _, some _, some _, none => (rocsparse_status.invalid_pointer, buffer_size)
      | some _, some _, some _, some _ =>
        -- Quick return if possible
        if m = 0 ∨ nnz = 0 then
          -- Do not return 0 as buffer size
          (rocsparse_status.success, some 4)
        else
          -- rocsparse_int max depth
          let s1 : Nat := 256
          -- unsigned long long total_spin
          let s2 : Nat := (s1 + 256) % size_t_range
          -- rocsparse_int max_nnz
          let s3 : Nat := (s2 + 256) % size_t_range
          -- rocsparse_int done_array[m]
          let s4 : Nat := (s3 + padded_bytes m) % size_t_range
          -- rocsparse_int rows_per_level[m]
          let s5 : Nat := (s4 + padded_bytes m) % size_t_range
          match scan_size m with
          | ScanSizeQuery.failed status => (status, some s5)
          | ScanSizeQuery.ok hipcub_size =>
            -- hipcub buffer
            (rocsparse_status.success, some ((s5 + hipcub_size % size_t_range) % size_t_range))

/-! ## The layout of the scratch buffer -/

/-- The byte offsets into `temp_buffer` that `rocsparse_csrtr_analysis` computes
(lines 162-193), and the number of bytes it sets to zero (lines 166-170). -/
structure AnalysisLayout where
  memset_bytes : Nat
  d_max_depth : Nat
  d_total_spin : Nat
  d_max_nnz : Nat
  d_done_array : Nat
  d_rows_per_level : Nat
  hipcub_buffer : Nat
deriving DecidableEq, Repr

/-- The pointer arithmetic of `rocsparse_csrtr_analysis`, lines 162-193:
`ptr` starts at offset 0 of the buffer and is advanced past each region. -/
def csrtr_analysis_layout (m : Int) : AnalysisLayout :=
  -- Initialize temporary buffer
  let buffer_size : Nat :=
    ((256 + 256 + 256 + padded_bytes m) % size_t_range + padded_bytes m) % size_t_range
  let ptr0 : Nat := 0
  -- max_depth
  let d_max_depth := ptr0
  let ptr1 := ptr0 + 256
  -- total_spin
  let d_total_spin := ptr1
  let ptr2 := ptr1 + 256
  -- max_nnz
  let d_max_nnz := ptr2
  let ptr3 := ptr2 + 256
  -- done array
  let d_done_array := ptr3
  let ptr4 := ptr3 + padded_bytes m
  -- rows_per_level
  let d_rows_per_level := ptr4
  let ptr5 := ptr4 + padded_bytes m
  -- hipcub buffer
  { memset_bytes := buffer_size, d_max_depth := d_max_depth, d_total_spin := d_total_spin,
    d_max_nnz := d_max_nnz, d_done_array := d_done_array, d_rows_per_level := d_rows_per_level,
    hipcub_buffer := ptr5 }

/-- The byte offset of the done array and the number of bytes set to zero in
`rocsparse_csrsv_solve_template` (lines 750-761): `ptr += 256` three times, then
`hipMemsetAsync(d_done_array, 0, sizeof(rocsparse_int) * m, stream)`. -/
structure SolveLayout where
  d_done_array : Nat
  memset_bytes : Nat
deriving DecidableEq, Repr

/-- The pointer arithmetic of `rocsparse_csrsv_solve_template`, lines 750-761. -/
def csrsv_solve_layout (m : Int) : SolveLayout :=
  let ptr0 : Nat := 0
  let ptr1 := ptr0 + 256
  let ptr2 := ptr1 + 256
  let ptr3 := ptr2 + 256
  { d_done_array := ptr3,
    memset_bytes := (sizeof_rocsparse_int * size_t_of_int m) % size_t_range }

/-! ## The slot of a fill mode -/

/-- The slot of the matrix info that belongs to the fill mode of the descriptor:
the upper slot for `rocsparse_fill_mode_upper`, the lower slot otherwise. -/
def analysis_slot (descr : rocsparse_mat_descr) (minfo : rocsparse_mat_info) : Option Nat :=
  if descr.fill_mode = rocsparse_fill_mode_upper then minfo.csrsv_upper_info
  else minfo.csrsv_lower_info

/-- The matrix info with the slot of the fill mode of the descriptor replaced. -/
def set_analysis_slot (descr : rocsparse_mat_descr) (minfo : rocsparse_mat_info)
    (h : Option Nat) : rocsparse_mat_info :=
  if descr.fill_mode = rocsparse_fill_mode_upper then { minfo with csrsv_upper_info := h }
  else { minfo with csrsv_lower_info := h }

/-! ## Example data -/

/-- The lower triangular matrix `[[2,0,0,0],[1,3,0,0],[0,1,4,0],[0,0,1,5]]` in CSR
form with index base 0: row pointers. -/
def ex_row_ptr : List Int := [0, 1, 3, 5, 7]

/-- Column indices of the example matrix. -/
def ex_col_ind : List Int := [0, 0, 1, 1, 2, 2, 3]

/-- Values of the example matrix. -/
def ex_val : List Rat := [2, 1, 3, 1, 4, 1, 5]

/-- A handle of a device with wavefronts of 64 lanes, in host pointer mode. -/
def ex_handle : rocsparse_handle :=
  { wavefront_size := 64, pointer_mode := rocsparse_pointer_mode_host }

/-- A descriptor of a general matrix, lower fill mode, non-unit diagonal, base 0. -/
def ex_descr_lower : rocsparse_mat_descr :=
  { type := rocsparse_matrix_type_general, fill_mode := rocsparse_fill_mode_lower,
    diag_type := rocsparse_diag_type_non_unit, base := rocsparse_index_base_zero }

/-- A descriptor as `ex_descr_lower`, with upper fill mode. -/
def ex_descr_upper : rocsparse_mat_descr :=
  { ex_descr_lower with fill_mode := rocsparse_fill_mode_upper }

/-- A matrix info without any analysis. -/
def ex_info_empty : rocsparse_mat_info :=
  { csrsv_upper_info := none, csrsv_lower_info := none, csrilu0_info := none }

/-- A scratch buffer of the size needed for four rows. -/
def ex_scratch : Scratch := scratch_zero 4

/-- An analysis object as left by an earlier analysis of a one-row matrix. -/
def ex_old_info : rocsparse_csrtr_info :=
  { empty_csrtr_info with csr_diag_ind := some [0], zero_pivot := some rocsparse_int_max,
                          d_row_map := some [0, 0], h_row_map := some [0, 0], max_depth := 1,
                          max_nnz := 1, rows_per_level := [1], m := 1, nnz := 1 }

/-- A store that holds `ex_old_info` with one holder. -/
def ex_store_old : InfoStore := [some { refs := 1, obj := ex_old_info }]

/-- A matrix info whose lower slot holds the handle 0. -/
def ex_info_lower : rocsparse_mat_info := { ex_info_empty with csrsv_lower_info := some 0 }

/-- A matrix info whose upper slot holds the handle 0. -/
def ex_info_upper : rocsparse_mat_info := { ex_info_empty with csrsv_upper_info := some 0 }

/-- A matrix info whose csrilu0 slot holds the handle 0. -/
def ex_info_ilu0 : rocsparse_mat_info := { ex_info_empty with csrilu0_info := some 0 }

/-- The upper triangular matrix `[[2,1,0,0],[0,3,1,0],[0,0,4,1],[0,0,0,5]]` in CSR
form with index base 0: row pointers. -/
def ex_upper_row_ptr : List Int := [0, 2, 4, 6, 7]

/-- Column indices of the upper triangular example matrix. -/
def ex_upper_col_ind : List Int := [0, 1, 1, 2, 2, 3, 3]

/-- Values of the upper triangular example matrix. -/
def ex_upper_val : List Rat := [2, 1, 3, 1, 4, 1, 5]

/-- The lower triangular matrix `[[2,0,0,0],[1,3,0,0],[0,1,0,0],[0,0,1,5]]` stored
without the diagonal entry of row 2: row pointers (index base 0). -/
def ex_missing_row_ptr : List Int := [0, 1, 3, 4, 6]

/-- Column indices of the matrix without the diagonal entry of row 2. -/
def ex_missing_col_ind : List Int := [0, 0, 1, 1, 2, 3]

/-- Values of the matrix without the diagonal entry of row 2. -/
def ex_missing_val : List Rat := [2, 1, 3, 1, 1, 5]

/-- A scan primitive whose size query asks for 767 bytes whatever the number of
elements. -/
def ex_scan_size : Int → ScanSizeQuery := fun _ => ScanSizeQuery.ok 767

/-! ## Well-formed triangular matrices -/

/-- The stored columns of a row all lie in `lo .. hi`; `False` for a row that
could not be read. -/
def rowWithin (lo hi : Int) : Option (List (Int × Int)) → Prop
  | none => False
  | some es => ∀ e ∈ es, lo ≤ e.2 ∧ e.2 ≤ hi

instance rowWithin_decidable (lo hi : Int) (r : Option (List (Int × Int))) :
    Decidable (rowWithin lo hi r) :=
  match r with
  | none => isFalse (fun h => h)
  | some es => inferInstanceAs (Decidable (∀ e ∈ es, lo ≤ e.2 ∧ e.2 ≤ hi))

/-- The CSR arrays describe a lower triangular matrix with `m` rows: every row
can be read and the zero-based columns of row `i` lie in `0 .. i`. -/
def LowerTriangular (m : Nat) (csr_row_ptr csr_col_ind : List Int) (idx_base : Int) : Prop :=
  ∀ i, i < m → rowWithin 0 (i : Int) (csr_row_entries csr_row_ptr csr_col_ind idx_base (i : Int))

instance LowerTriangular_decidable (m : Nat) (csr_row_ptr csr_col_ind : List Int)
    (idx_base : Int) : Decidable (LowerTriangular m csr_row_ptr csr_col_ind idx_base) :=
  inferInstanceAs (Decidable (∀ i, i < m →
    rowWithin 0 (i : Int) (csr_row_entries csr_row_ptr csr_col_ind idx_base (i : Int))))

/-- Whether row `i` has a stored diagonal entry. -/
def rowHasDiag (csr_row_ptr csr_col_ind : List Int) (idx_base : Int) (i : Nat) : Bool :=
  match csr_row_entries csr_row_ptr csr_col_ind idx_base (i : Int) with
  | some es => es.any (fun e => decide (e.2 = (i : Int)))
  | none => false

/-- The values stored on the diagonal of row `i` (one value for a well-formed
matrix that stores its diagonal). -/
def diagValues (csr_row_ptr csr_col_ind : List Int) (csr_val : List Rat) (idx_base : Int)
    (i : Nat) : List Rat :=
  match csr_row_entries csr_row_ptr csr_col_ind idx_base (i : Int) with
  | some es => (es.filter (fun e => decide (e.2 = (i : Int)))).filterMap (fun e => readAt csr_val e.1)
  | none => []

/-- The state of the analysis kernel when the workers of the rows `0 .. n - 1` of
a lower triangular matrix have finished, `zp0` being the initial `zero_pivot`:
the arrays have `m` entries, the `done` value of a finished row `j` lies in
`1 .. j + 1` and exceeds that of every row `j` depends on, and `zero_pivot` is
still `zp0` when all finished rows have a diagonal and is the first row without
one otherwise. -/
def AnalysisInv (m : Nat) (csr_row_ptr csr_col_ind : List Int) (idx_base zp0 : Int) (n : Nat)
    (mem : AnalysisMem) : Prop :=
  mem.done_array.length = m ∧ mem.csr_diag_ind.length = m ∧
  (∀ j, j < n → 1 ≤ mem.done_array.getD j 0 ∧ mem.done_array.getD j 0 ≤ (j : Int) + 1) ∧
  (∀ j, j < n → ∀ es, csr_row_entries csr_row_ptr csr_col_ind idx_base (j : Int) = some es →
    ∀ e ∈ es, e.2 < (j : Int) → mem.done_array.getD e.2.toNat 0 < mem.done_array.getD j 0) ∧
  ((∀ j, j < n → rowHasDiag csr_row_ptr csr_col_ind idx_base j = true) → mem.zero_pivot = zp0) ∧
  (∀ k, k < n → rowHasDiag csr_row_ptr csr_col_ind idx_base k = false →
    (∀ j, j < k → rowHasDiag csr_row_ptr csr_col_ind idx_base j = true) →
    zp0 = rocsparse_int_max → mem.zero_pivot = (k : Int))

/-- The term of a stored entry in a row of the product with `y`:
`value * y[column]`. -/
def entryTerm (csr_val y : List Rat) (e : Int × Int) : Rat :=
  (readAt csr_val e.1).getD 0 * (readAt y e.2).getD 0

/-- Row `i` of the product of the stored matrix with the vector `y`:
the sum of `value * y[column]` over the stored entries of the row. -/
def rowProduct (csr_row_ptr csr_col_ind : List Int) (csr_val : List Rat) (idx_base : Int)
    (y : List Rat) (i : Nat) : Rat :=
  match csr_row_entries csr_row_ptr csr_col_ind idx_base (i : Int) with
  | some es => (es.map (entryTerm csr_val y)).sum
  | none => 0

/-- The sum the solve worker of row `row` subtracts: the terms of the entries
left of the diagonal. -/
def depSum (csr_val y : List Rat) (row : Int) (es : List (Int × Int)) : Rat :=
  ((es.filter (fun e => decide (e.2 < row))).map (entryTerm csr_val y)).sum

/-- The values of the diagonal entries among `es`, in stored order. -/
def diagOf (csr_val : List Rat) (row : Int) (es : List (Int × Int)) : List Rat :=
  (es.filter (fun e => decide (e.2 = row))).filterMap (fun e => readAt csr_val e.1)

/-- The state of the solve kernel when the workers `0 .. n - 1` have finished, for
a row map in the level order of the `done` values `D` of the analysis: a row whose
worker has finished is flagged done, and when its diagonal is stored once and
non-zero the row of the product with `y` equals `alpha * x`; `zero_pivot` is still
the initial `zp0` when that was a recorded row or when no finished row has a
missing or zero diagonal. -/
def SolveInv (m : Nat) (csr_row_ptr csr_col_ind : List Int) (csr_val : List Rat)
    (idx_base : Int) (alpha : Rat) (x : List Rat) (D : List Int) (zp0 : Int) (L n : Nat)
    (mem : SolveMem) : Prop :=
  mem.y.length = m ∧ mem.done_array.length = L ∧
  (∀ i, i < m → rowPos D i < n → mem.done_array.getD i 0 ≠ 0) ∧
  (∀ i, i < m → rowPos D i < n →
    (∃ d, diagValues csr_row_ptr csr_col_ind csr_val idx_base i = [d] ∧ d ≠ 0) →
    rowProduct csr_row_ptr csr_col_ind csr_val idx_base mem.y i
      = alpha * (readAt x (i : Int)).getD 0) ∧
  (zp0 ≠ rocsparse_int_max → mem.zero_pivot = zp0) ∧
  ((∀ i, i < m → rowPos D i < n →
      ∃ d, diagValues csr_row_ptr csr_col_ind csr_val idx_base i = [d] ∧ d ≠ 0) →
    mem.zero_pivot = zp0)

/-- Row `i` stores its diagonal entry, once, with a non-zero value. -/
def DiagonalStored (csr_row_ptr csr_col_ind : List Int) (csr_val : List Rat) (idx_base : Int)
    (i : Nat) : Prop :=
  ∃ d, diagValues csr_row_ptr csr_col_ind csr_val idx_base i = [d] ∧ d ≠ 0

/-! ## `rocsparse_sum_reduce` (`library/src/level1/doti_device.h`, lines 30-46) -/

/-- Whether thread `tid` passes the guard `tid < s && tid + s < n` of the step
with stride `s`. -/
def sum_reduce_active (n s tid : Nat) : Prop := tid < s ∧ tid + s < n

instance sum_reduce_active_decidable (n s tid : Nat) : Decidable (sum_reduce_active n s tid) :=
  inferInstanceAs (Decidable (tid < s ∧ tid + s < n))

/-- The statement `if(tid < s && tid + s < n) { x[tid] += x[tid + s]; }` as thread
`tid` executes it on the shared array `x`, in exact arithmetic; `none` is an access
outside the array. -/
def sum_reduce_thread (n s : Nat) (x : List Rat) (tid : Nat) : Option (List Rat) :=
  if sum_reduce_active n s tid then
    match x[tid]?, x[tid + s]? with
    | some a, some b => some (x.set tid (a + b))
    | _, _ => none
  else some x

/-- The elements of `x` thread `tid` reads in the step with stride `s`. -/
def sum_reduce_reads (n s tid : Nat) : List Nat :=
  if sum_reduce_active n s tid then [tid, tid + s] else []

/-- The elements of `x` thread `tid` writes in the step with stride `s`. -/
def sum_reduce_writes (n s tid : Nat) : List Nat :=
  if sum_reduce_active n s tid then [tid] else []

/-- One line of `rocsparse_sum_reduce<n>`:
`if(n > s) { if(tid < s && tid + s < n) { x[tid] += x[tid + s]; } __syncthreads(); }`.
The barrier makes every thread finish the statement before any thread goes on;
`sched` is the order in which the threads of the block get to execute it. -/
def sum_reduce_step (n s : Nat) (sched : List Nat) (x : List Rat) : Option (List Rat) :=
  if n > s then sched.foldlM (sum_reduce_thread n s) x else some x

/-- `rocsparse_sum_reduce<n>` run by the threads of one block on the shared array
`x`: the ten lines for the strides 512, 256, ..., 1, each ended by a barrier.
`sched s` is the order of the threads in the step with stride `s`. -/
def rocsparse_sum_reduce (n : Nat) (sched : Nat → List Nat) (x : List Rat) :
    Option (List Rat) := do
  let x ← sum_reduce_step n 512 (sched 512) x
  let x ← sum_reduce_step n 256 (sched 256) x
  let x ← sum_reduce_step n 128 (sched 128) x
  let x ← sum_reduce_step n 64 (sched 64) x
  let x ← sum_reduce_step n 32 (sched 32) x
  let x ← sum_reduce_step n 16 (sched 16) x
  let x ← sum_reduce_step n 8 (sched 8) x
  let x ← sum_reduce_step n 4 (sched 4) x
  let x ← sum_reduce_step n 2 (sched 2) x
  let x ← sum_reduce_step n 1 (sched 1) x
  some x

/-! ## The state a solve starts its kernel on -/

/-- The device memory the claim "per-solve reset" describes: `y` as passed, the
first `m` entries of the `done` array set to zero and the other entries kept,
`zero_pivot` set to the maximum `rocsparse_int` for the diagonal type unit and kept
otherwise. -/
def solve_reset_mem (m : Int) (diag_type : Int) (y : List Rat) (buf : Scratch) (zp : Int) :
    SolveMem :=
  { y := y,
    done_array := List.replicate m.toNat 0 ++ buf.done_array.drop m.toNat,
    zero_pivot := if diag_type = rocsparse_diag_type_unit then rocsparse_int_max else zp }

/-- A descriptor of a lower triangular matrix with unit diagonal, index base 0. -/
def ex_descr_unit : rocsparse_mat_descr :=
  { ex_descr_lower with diag_type := rocsparse_diag_type_unit }

/-- An analysis object of one row in which an earlier solve has recorded row 0 as
zero pivot. -/
def ex_pivot_info : rocsparse_csrtr_info := { ex_old_info with zero_pivot := some 0 }

/-- A store that holds `ex_pivot_info` with one holder. -/
def ex_store_pivot : InfoStore := [some { refs := 1, obj := ex_pivot_info }]

/-- A scratch buffer as an earlier solve leaves it: `done` flags set. -/
def ex_scratch_used : Scratch :=
  { max_depth := 1, total_spin := 0, max_nnz := 1, done_array := [1, 1, 1],
    rows_per_level := [1] }

/-! ## A matrix with more rows than the launch grid reaches -/

/-- Row pointers of a matrix with `m` rows and one stored entry in every row, index
base 0: `0, 1, ..., m`. -/
def diag_row_ptr (m : Nat) : List Int := (List.range (m + 1)).map (fun (i : Nat) => (i : Int))

/-- Column indices of a diagonal matrix with `m` rows, index base 0:
`0, 1, ..., m - 1`. -/
def diag_col_ind (m : Nat) : List Int := (List.range m).map (fun (i : Nat) => (i : Int))

/-- Values of the diagonal matrix `2 I` with `m` rows. -/
def diag_val (m : Nat) : List Rat := List.replicate m 2

/-- The number of rows of the large example: `2 ^ 26`. -/
def ex_large_rows : Nat := 67108864

/-- The number of rows of the large example as a `rocsparse_int`. -/
def ex_large_m : Int := 67108864

/-- Row pointers of the large example. -/
def ex_large_row_ptr : List Int := diag_row_ptr ex_large_rows

/-- Column indices of the large diagonal matrix `2 I`. -/
def ex_large_col_ind : List Int := diag_col_ind ex_large_rows

/-- Values of the large example. -/
def ex_large_val : List Rat := diag_val ex_large_rows

/-- Column indices of the large lower triangular matrix that has the diagonal entry
2 in every row but row 100, whose only stored entry is in column 0. -/
def ex_large_missing_col_ind : List Int := (diag_col_ind ex_large_rows).set 100 0

/-! ## Lemmas on arrays -/

theorem readAt_natCast {α : Type} (xs : List α) (k : Nat) (h : k < xs.length) :
    readAt xs (k : Int) = some (xs.get ⟨k, h⟩) := by
  unfold readAt
  have h1 : (0 : Int) ≤ (k : Int) ∧ (k : Int) < (xs.length : Int) := ⟨by omega, by omega⟩
  rw [if_pos h1]
  simp [List.getElem?_eq_getElem h]

theorem writeAt_natCast {α : Type} (xs : List α) (k : Nat) (v : α) (h : k < xs.length) :
    writeAt xs (k : Int) v = some (xs.set k v) := by
  unfold writeAt
  have h1 : (0 : Int) ≤ (k : Int) ∧ (k : Int) < (xs.length : Int) := ⟨by omega, by omega⟩
  rw [if_pos h1]
  simp

/-! ## Lemmas on the inclusive scan -/

theorem inclusiveSumFrom_length (acc : Int) (xs : List Int) :
    (inclusiveSumFrom acc xs).length = xs.length := by
  induction xs generalizing acc with
  | nil => rfl
  | cons x xs ih => simp [inclusiveSumFrom, ih]

theorem inclusiveSumFrom_getElem? (acc : Int) (xs : List Int) (k : Nat) (h : k < xs.length) :
    (inclusiveSumFrom acc xs)[k]? = some (acc + (xs.take (k + 1)).sum) := by
  induction xs generalizing acc k with
  | nil => simp at h
  | cons x xs ih =>
    cases k with
    | zero => simp [inclusiveSumFrom]
    | succ k =>
      have hk : k < xs.length := by simpa using h
      simp only [inclusiveSumFrom, List.getElem?_cons_succ, List.take_succ_cons, List.sum_cons]
      rw [ih (acc + x) k hk]
      congr 1
      ring

/-! ## Lemmas on the per-level counts -/

theorem countP_window_succ (D : List Int) (n : Nat) :
    D.countP (fun x => decide (1 ≤ x ∧ x ≤ ((n + 1 : Nat) : Int)))
      = D.countP (fun x => decide (1 ≤ x ∧ x ≤ (n : Int))) + D.count ((n : Int) + 1) := by
  induction D with
  | nil => simp
  | cons a D ih =>
    rw [List.countP_cons, List.countP_cons, List.count_cons, ih]
    by_cases h1 : a = (n : Int) + 1
    · subst h1
      have h3 : ¬ (1 ≤ (n : Int) + 1 ∧ (n : Int) + 1 ≤ (n : Int)) := by omega
      have h4 : (1 ≤ (n : Int) + 1 ∧ (n : Int) + 1 ≤ ((n + 1 : Nat) : Int)) := by
        push_cast
        omega
      simp only [h3, h4, decide_True, decide_False, if_true, if_false, beq_self_eq_true]
      simp
      omega
    · have h2 : (a == (n : Int) + 1) = false := by simpa using h1
      by_cases h3 : 1 ≤ a ∧ a ≤ (n : Int)
      · have h4 : 1 ≤ a ∧ a ≤ ((n + 1 : Nat) : Int) := ⟨h3.1, by push_cast; omega⟩
        simp only [h3, h4, h2, decide_True, and_self, if_true]
        simp
        omega
      · have h4 : ¬ (1 ≤ a ∧ a ≤ ((n + 1 : Nat) : Int)) := by
          push_cast
          omega
        simp only [h3, h4, h2, decide_False]
        simp

theorem sum_levelCounts_range (D : List Int) (n : Nat) :
    ((List.range n).map (fun (l : Nat) => ((D.count ((l : Int) + 1) : Nat) : Int))).sum
      = ((D.countP (fun x => decide (1 ≤ x ∧ x ≤ (n : Int))) : Nat) : Int) := by
  induction n with
  | zero =>
    have h : D.countP (fun x => decide (1 ≤ x ∧ x ≤ ((0 : Nat) : Int))) = 0 := by
      rw [List.countP_eq_zero]
      intro a _
      have : ¬ (1 ≤ a ∧ a ≤ ((0 : Nat) : Int)) := by
        push_cast
        omega
      simp only [this, decide_False]
      simp
    rw [h]
    simp
  | succ n ih =>
    rw [List.range_succ, List.map_append, List.sum_append, ih, countP_window_succ]
    simp

theorem countP_window_eq_levelOffset (D : List Int) (hpos : ∀ d ∈ D, 1 ≤ d) (n : Nat) :
    D.countP (fun x => decide (1 ≤ x ∧ x ≤ (n : Int))) = levelOffset D ((n : Int) + 1) := by
  unfold levelOffset
  apply List.countP_congr
  intro a ha
  have := hpos a ha
  simp only [decide_eq_true_eq]
  omega

/-- Entry `k` of the scanned per-level counts is the number of rows of the levels
`0 .. k`. -/
theorem rows_per_level_getElem? (D : List Int) (M : Int) (hpos : ∀ d ∈ D, 1 ≤ d)
    (k : Nat) (hk : k < M.toNat) :
    (InclusiveSum (levelCounts D M))[k]? = some ((levelOffset D ((k : Int) + 2) : Nat) : Int) := by
  unfold InclusiveSum
  have hlen : k < (levelCounts D M).length := by simp [levelCounts, hk]
  rw [inclusiveSumFrom_getElem? 0 _ k hlen]
  have htake : (levelCounts D M).take (k + 1)
      = (List.range (k + 1)).map (fun (l : Nat) => ((D.count ((l : Int) + 1) : Nat) : Int)) := by
    unfold levelCounts
    rw [← List.map_take, List.take_range]
    congr 2
    omega
  rw [htake, sum_levelCounts_range, countP_window_eq_levelOffset D hpos]
  simp
  ring_nf

/-! ## Lemmas on `rowPos` -/

theorem getD_eq_getElem (D : List Int) (i : Nat) (h : i < D.length) : D.getD i 0 = D[i] := by
  simp [List.getD, List.getElem?_eq_getElem h]

theorem take_succ_eq (D : List Int) (i : Nat) (h : i < D.length) :
    D.take (i + 1) = D.take i ++ [D[i]] := by
  rw [List.take_succ, List.getElem?_eq_getElem h]
  rfl

theorem count_take_succ (D : List Int) (i : Nat) (h : i < D.length) (d : Int) :
    (D.take (i + 1)).count d = (D.take i).count d + (if D[i] = d then 1 else 0) := by
  rw [take_succ_eq D i h, List.count_append, List.count_singleton]
  simp only [beq_iff_eq]

theorem count_take_mono (D : List Int) (d : Int) {i j : Nat} (h : i ≤ j) :
    (D.take i).count d ≤ (D.take j).count d := by
  apply List.Sublist.count_le
  exact (List.take_sublist_take_left D h)

theorem count_take_le (D : List Int) (d : Int) (i : Nat) :
    (D.take i).count d ≤ D.count d :=
  List.Sublist.count_le (List.take_sublist i D) d

theorem rankInLevel_lt_count (D : List Int) (i : Nat) (h : i < D.length) :
    rankInLevel D i D[i] < D.count D[i] := by
  unfold rankInLevel
  have h1 := count_take_succ D i h D[i]
  have h2 := count_take_le D D[i] (i + 1)
  simp at h1
  omega

theorem levelOffset_add_count_le (D : List Int) {d e : Int} (h : d < e) :
    levelOffset D d + D.count d ≤ levelOffset D e := by
  unfold levelOffset
  induction D with
  | nil => simp
  | cons a D ih =>
    rw [List.countP_cons, List.countP_cons, List.count_cons]
    by_cases h1 : a = d
    · subst h1
      have h2 : ¬ (a < a) := by omega
      simp only [h2, h, decide_True, decide_False, if_true, beq_self_eq_true]
      simp
      omega
    · have h2 : (a == d) = false := by simpa using h1
      by_cases h3 : a < d
      · have h4 : a < e := by omega
        simp only [h2, h3, h4, decide_True, if_true]
        simp
        omega
      · simp only [h2, h3, decide_False]
        simp
        split <;> omega

theorem levelOffset_add_count_le_length (D : List Int) (d : Int) :
    levelOffset D d + D.count d ≤ D.length := by
  have h1 := levelOffset_add_count_le D (show d < d + 1 by omega)
  have h2 : levelOffset D (d + 1) ≤ D.length := by
    unfold levelOffset
    exact List.countP_le_length _
  omega

/-- A row's position lies among the `m` positions of the row map. -/
theorem rowPos_lt_length (D : List Int) (i : Nat) (h : i < D.length) :
    rowPos D i < D.length := by
  unfold rowPos
  rw [getD_eq_getElem D i h]
  have h1 := rankInLevel_lt_count D i h
  have h2 := levelOffset_add_count_le_length D D[i]
  omega

/-- Level order: a row of a lower level has a smaller position. -/
theorem rowPos_lt_of_done_lt (D : List Int) (i j : Nat) (hi : i < D.length) (hj : j < D.length)
    (h : D[j] < D[i]) : rowPos D j < rowPos D i := by
  unfold rowPos
  rw [getD_eq_getElem D i hi, getD_eq_getElem D j hj]
  have h1 := rankInLevel_lt_count D j hj
  have h2 := levelOffset_add_count_le D h
  omega

/-- Stability: within a level, a row of smaller index has a smaller position. -/
theorem rowPos_lt_of_index_lt (D : List Int) (i j : Nat) (hi : i < D.length) (hji : j < i)
    (h : D[j]? = D[i]?) : rowPos D j < rowPos D i := by
  have hj : j < D.length := by omega
  rw [List.getElem?_eq_getElem hi, List.getElem?_eq_getElem hj] at h
  have h : D[j] = D[i] := by simpa using h
  unfold rowPos rankInLevel
  rw [getD_eq_getElem D i hi, getD_eq_getElem D j hj, h]
  have h1 := count_take_succ D j hj D[i]
  have h2 := count_take_mono D D[i] (show j + 1 ≤ i by omega)
  simp [h] at h1
  omega

/-- Distinct rows have distinct positions. -/
theorem rowPos_injective (D : List Int) (i j : Nat) (hi : i < D.length) (hj : j < D.length)
    (h : rowPos D i = rowPos D j) : i = j := by
  by_contra hne
  rcases lt_trichotomy D[i] D[j] with h1 | h1 | h1
  · have := rowPos_lt_of_done_lt D j i hj hi h1
    omega
  · rcases Nat.lt_or_gt_of_ne hne with h2 | h2
    · have := rowPos_lt_of_index_lt D j i hj h2 (by simp [List.getElem?_eq_getElem, hi, hj, h1])
      omega
    · have := rowPos_lt_of_index_lt D i j hi h2 (by simp [List.getElem?_eq_getElem, hi, hj, h1])
      omega
  · have := rowPos_lt_of_done_lt D i j hi hj h1
    omega

/-! ## The row-map loop computes `rowPos` -/

theorem readAt_of_toNat {α : Type} (xs : List α) (e : Int) (h0 : 0 ≤ e) (h : e.toNat < xs.length) :
    readAt xs e = some (xs.get ⟨e.toNat, h⟩) := by
  unfold readAt
  rw [if_pos ⟨h0, by omega⟩]
  simp [List.getElem?_eq_getElem h]

theorem writeAt_of_toNat {α : Type} (xs : List α) (e : Int) (v : α) (h0 : 0 ≤ e)
    (h : e.toNat < xs.length) : writeAt xs e v = some (xs.set e.toNat v) := by
  unfold writeAt
  rw [if_pos ⟨h0, by omega⟩]

theorem rowMapAfter_length (D : List Int) (m n : Nat) : (rowMapAfter D m n).length = m + 1 := by
  induction n with
  | zero => simp [rowMapAfter]
  | succ n ih =>
    unfold rowMapAfter at ih ⊢
    rw [List.range_succ, List.foldl_append]
    simpa using ih

theorem rowMapAfter_succ (D : List Int) (m n : Nat) :
    rowMapAfter D m (n + 1) = (rowMapAfter D m n).set (rowPos D n) (n : Int) := by
  unfold rowMapAfter
  rw [List.range_succ, List.foldl_append]
  rfl

theorem counterAfter_length (D : List Int) (M : Int) (n : Nat) :
    (counterAfter D M n).length = M.toNat := by
  simp [counterAfter]

theorem counterAfter_getElem? (D : List Int) (M : Int) (n l : Nat) (h : l < M.toNat) :
    (counterAfter D M n)[l]? = some ((((D.take n).count ((l : Int) + 1) : Nat) : Int)) := by
  simp [counterAfter, h]

theorem counterAfter_succ (D : List Int) (M : Int) (n : Nat) (hn : n < D.length)
    (h1 : 1 ≤ D[n]) :
    (counterAfter D M n).set (D[n] - 1).toNat ((((D.take n).count D[n] : Nat) : Int) + 1)
      = counterAfter D M (n + 1) := by
  apply List.ext_getElem?
  intro l
  by_cases hl : l < M.toNat
  · rw [counterAfter_getElem? D M (n + 1) l hl, count_take_succ D n hn]
    by_cases hd : (D[n] - 1).toNat = l
    · have hd2 : D[n] = (l : Int) + 1 := by omega
      rw [hd, List.getElem?_set_self (by rw [counterAfter_length]; exact hl)]
      rw [← hd2]
      simp
    · have hd2 : ¬ D[n] = (l : Int) + 1 := by omega
      rw [List.getElem?_set_ne hd, counterAfter_getElem? D M n l hl]
      simp [hd2]
  · rw [List.getElem?_eq_none (by rw [List.length_set, counterAfter_length]; omega),
      List.getElem?_eq_none (by rw [counterAfter_length]; omega)]

/-- One iteration of the loop, started in the state reached after `n` rows, places
row `n` at `rowPos` and counts it. -/
theorem row_map_step_spec (D : List Int) (M : Int) (m n : Nat) (hm : D.length = m) (hn : n < m)
    (hpos : ∀ d ∈ D, 1 ≤ d) (hmax : ∀ d ∈ D, d ≤ M) :
    row_map_step D (InclusiveSum (levelCounts D M))
        { counter := counterAfter D M n, h_row_map := rowMapAfter D m n } n
      = some { counter := counterAfter D M (n + 1), h_row_map := rowMapAfter D m (n + 1) } := by
  have hn' : n < D.length := by omega
  have hmem : D[n] ∈ D := List.getElem_mem hn'
  have h1 : 1 ≤ D[n] := hpos _ hmem
  have h2 : D[n] ≤ M := hmax _ hmem
  have hoff : (if D[n] - 1 = 0 then some 0
      else readAt (InclusiveSum (levelCounts D M)) (D[n] - 1 - 1))
      = some ((levelOffset D D[n] : Nat) : Int) := by
    by_cases hz : D[n] - 1 = 0
    · rw [if_pos hz]
      have hd : D[n] = 1 := by omega
      have h0 : levelOffset D D[n] = 0 := by
        unfold levelOffset
        rw [List.countP_eq_zero]
        intro a ha
        have := hpos a ha
        simp only [decide_eq_true_eq]
        omega
      rw [h0]
      rfl
    · rw [if_neg hz]
      have hk : (D[n] - 1 - 1).toNat < M.toNat := by omega
      have hlen : (D[n] - 1 - 1).toNat < (InclusiveSum (levelCounts D M)).length := by
        simp [InclusiveSum, inclusiveSumFrom_length, levelCounts]
        omega
      rw [readAt_of_toNat _ _ (by omega) hlen]
      have := rows_per_level_getElem? D M hpos _ hk
      rw [List.getElem?_eq_getElem hlen] at this
      have this2 : (InclusiveSum (levelCounts D M)).get ⟨(D[n] - 1 - 1).toNat, hlen⟩
          = ((levelOffset D (((D[n] - 1 - 1).toNat : Int) + 2) : Nat) : Int) := by
        simpa using this
      rw [this2]
      have he : (((D[n] - 1 - 1).toNat : Int) + 2) = D[n] := by omega
      rw [he]
  have hl : (D[n] - 1).toNat < M.toNat := by omega
  have hc : readAt (counterAfter D M n) (D[n] - 1)
      = some ((((D.take n).count D[n] : Nat) : Int)) := by
    rw [readAt_of_toNat _ _ (by omega) (by rw [counterAfter_length]; exact hl)]
    have := counterAfter_getElem? D M n _ hl
    rw [List.getElem?_eq_getElem (by rw [counterAfter_length]; exact hl)] at this
    have he : (((D[n] - 1).toNat : Int) + 1) = D[n] := by omega
    rw [he] at this
    simpa using this
  have hp : ((levelOffset D D[n] : Nat) : Int) + (((D.take n).count D[n] : Nat) : Int)
      = ((rowPos D n : Nat) : Int) := by
    unfold rowPos rankInLevel
    rw [getD_eq_getElem D n hn']
    push_cast
    rfl
  have hplt : rowPos D n < (rowMapAfter D m n).length := by
    rw [rowMapAfter_length]
    have := rowPos_lt_length D n hn'
    omega
  unfold row_map_step
  rw [readAt_natCast D n hn']
  simp only [Option.bind_eq_bind, Option.some_bind, List.get_eq_getElem]
  rw [hoff]
  simp only [Option.some_bind]
  rw [hc]
  simp only [Option.some_bind]
  rw [hp, writeAt_natCast _ _ _ hplt]
  simp only [Option.some_bind]
  rw [writeAt_of_toNat _ _ _ (by omega) (by rw [counterAfter_length]; exact hl)]
  simp only [Option.some_bind]
  rw [counterAfter_succ D M n hn' h1, rowMapAfter_succ]

/-- The loop, run over the first `n` rows. -/
theorem foldlM_row_map_step (D : List Int) (M : Int) (m n : Nat) (hm : D.length = m) (hn : n ≤ m)
    (hpos : ∀ d ∈ D, 1 ≤ d) (hmax : ∀ d ∈ D, d ≤ M) :
    (List.range n).foldlM (row_map_step D (InclusiveSum (levelCounts D M))) (row_map_init m M)
      = some { counter := counterAfter D M n, h_row_map := rowMapAfter D m n } := by
  induction n with
  | zero =>
    simp [row_map_init, counterAfter, rowMapAfter]
  | succ n ih =>
    rw [List.range_succ, List.foldlM_append, ih (by omega)]
    simp only [Option.bind_eq_bind, Option.some_bind, List.foldlM_cons, List.foldlM_nil]
    rw [row_map_step_spec D M m n hm (by omega) hpos hmax]
    rfl

/-- Every `done` value is at most the largest one. -/
theorem le_maxDone (D : List Int) : ∀ d ∈ D, d ≤ maxDone D := by
  have key : ∀ (l : List Int) (a : Int), a ≤ l.foldl max a ∧ ∀ d ∈ l, d ≤ l.foldl max a := by
    intro l
    induction l with
    | nil => intro a; simp
    | cons x l ih =>
      intro a
      have h := ih (max a x)
      simp only [List.foldl_cons, List.mem_cons]
      refine ⟨le_trans (le_max_left a x) h.1, ?_⟩
      intro d hd
      rcases hd with hd | hd
      · subst hd
        exact le_trans (le_max_right a d) h.1
      · exact h.2 d hd
  exact (key D 0).2

/-- The row map after `n` rows holds row `i < n` at its position. -/
theorem rowMapAfter_getElem? (D : List Int) (m n i : Nat) (hm : D.length = m) (hn : n ≤ m)
    (hi : i < n) : (rowMapAfter D m n)[rowPos D i]? = some (i : Int) := by
  induction n with
  | zero => omega
  | succ n ih =>
    rw [rowMapAfter_succ]
    by_cases hin : i = n
    · subst hin
      rw [List.getElem?_set_self]
      rw [rowMapAfter_length]
      have := rowPos_lt_length D i (by omega)
      omega
    · have hne : rowPos D n ≠ rowPos D i := by
        intro h
        have := rowPos_injective D n i (by omega) (by omega) h
        omega
      rw [List.getElem?_set_ne hne]
      exact ih (by omega) (by omega)

/-- The entry after the last row keeps its initial zero. -/
theorem rowMapAfter_last (D : List Int) (m n : Nat) (hm : D.length = m) (hn : n ≤ m) :
    (rowMapAfter D m n)[m]? = some 0 := by
  induction n with
  | zero => simp [rowMapAfter]
  | succ n ih =>
    rw [rowMapAfter_succ]
    have hne : rowPos D n ≠ m := by
      have := rowPos_lt_length D n (by omega)
      omega
    rw [List.getElem?_set_ne hne]
    exact ih (by omega)

/-- Every position below `m` is the position of some row. -/
theorem rowPos_surjective (D : List Int) (p : Nat) (hp : p < D.length) :
    ∃ i, i < D.length ∧ rowPos D i = p := by
  let f : Fin D.length → Fin D.length := fun i => ⟨rowPos D i.1, rowPos_lt_length D i.1 i.2⟩
  have hinj : Function.Injective f := by
    intro a b hab
    have h : rowPos D a.1 = rowPos D b.1 := congrArg Fin.val hab
    exact Fin.ext (rowPos_injective D a.1 b.1 a.2 b.2 h)
  have hsurj : Function.Surjective f := Finite.injective_iff_surjective.mp hinj
  obtain ⟨i, hi⟩ := hsurj ⟨p, hp⟩
  exact ⟨i.1, i.2, congrArg Fin.val hi⟩

/-- The loop succeeds on the outputs of the analysis kernel and the scan, and its
result is the row map that holds every row at `rowPos`. -/
theorem create_row_map_eq (m : Nat) (M : Int) (D rpl : List Int) (hlen : D.length = m)
    (hdone : ∀ d ∈ D, 1 ≤ d) (hmax : ∀ d ∈ D, d ≤ M)
    (hrpl : rpl = InclusiveSum (levelCounts D M)) :
    create_row_map m M D rpl
      = some { counter := counterAfter D M m, h_row_map := rowMapAfter D m m } := by
  subst hrpl
  unfold create_row_map
  exact foldlM_row_map_step D M m m hlen (le_refl m) hdone hmax

/-- In the final row map, the position that holds row `i` is `rowPos`. -/
theorem rowMapAfter_position (D : List Int) (m p i : Nat) (hlen : D.length = m) (hp : p < m)
    (h : (rowMapAfter D m m)[p]? = some (i : Int)) : p = rowPos D i := by
  obtain ⟨i', hi', hpos⟩ := rowPos_surjective D p (by omega)
  have h2 := rowMapAfter_getElem? D m m i' hlen (le_refl m) (by omega)
  rw [hpos, h] at h2
  have h3 : (i : Int) = (i' : Int) := by simpa using h2
  have h4 : i = i' := by exact_mod_cast h3
  rw [h4, hpos]


/-! ## Lemmas on the analysis entry point -/

/-- The slot of the matrix info an analysis call with the given fill mode works
on. -/
theorem template_nonquick (total_spin : Nat) (handle : rocsparse_handle) (trans m nnz : Int)
    (descr : rocsparse_mat_descr) (csr_val : List Rat) (csr_row_ptr csr_col_ind : List Int)
    (minfo : rocsparse_mat_info) (store : InfoStore) (analysis : Int) (buf : Scratch)
    (hbase : descr.base = rocsparse_index_base_zero ∨ descr.base = rocsparse_index_base_one)
    (htype : descr.type = rocsparse_matrix_type_general)
    (hpol : analysis = rocsparse_analysis_policy_reuse ∨ analysis = rocsparse_analysis_policy_force)
    (hm : 0 < m) (hnnz : 0 < nnz) :
    rocsparse_csrsv_analysis_template total_spin (some handle) trans m nnz (some descr)
        (some csr_val) (some csr_row_ptr) (some csr_col_ind) (some minfo) store analysis
        rocsparse_solve_policy_auto (some buf)
      = if descr.fill_mode = rocsparse_fill_mode_upper then
          rebuild_analysis total_spin handle trans m nnz descr csr_row_ptr csr_col_ind minfo
            minfo.csrsv_upper_info (fun i h => { i with csrsv_upper_info := h }) store buf
        else if analysis = rocsparse_analysis_policy_reuse ∧ minfo.csrsv_lower_info ≠ none then
          some { status := rocsparse_status.success, info := some minfo, store := store,
                 temp_buffer := some buf }
        else if analysis = rocsparse_analysis_policy_reuse ∧ minfo.csrilu0_info ≠ none then
          some { status := rocsparse_status.success,
                 info := some { minfo with csrsv_lower_info := minfo.csrilu0_info },
                 store := store,
                 temp_buffer := some buf }
        else
          rebuild_analysis total_spin handle trans m nnz descr csr_row_ptr csr_col_ind minfo
            minfo.csrsv_lower_info (fun i h => { i with csrsv_lower_info := h }) store buf := by
  have h1 : ¬ (descr.base ≠ rocsparse_index_base_zero ∧ descr.base ≠ rocsparse_index_base_one) := by
    rcases hbase with h | h <;> simp [h]
  have h2 : ¬ (analysis ≠ rocsparse_analysis_policy_reuse
      ∧ analysis ≠ rocsparse_analysis_policy_force) := by
    rcases hpol with h | h <;> simp [h]
  have h3 : ¬ m < 0 := by omega
  have h4 : ¬ nnz < 0 := by omega
  have h5 : ¬ (m = 0 ∨ nnz = 0) := by omega
  simp only [rocsparse_csrsv_analysis_template, h1, h2, h3, h4, h5, htype, if_false,
    ne_eq, not_true_eq_false]

/-- What `rocsparse_destroy_csrtr_info` does to the store when it returns. -/
theorem destroy_csrtr_info_spec (store store1 : InfoStore) (slot : Option Nat)
    (s : rocsparse_status) (h : rocsparse_destroy_csrtr_info store slot = some (s, store1)) :
    s = rocsparse_status.success ∧ store1.length = store.length ∧
      (∀ a, slot = some a → ∃ cell, store[a]? = some (some cell) ∧
        store1 = store.set a (if cell.refs ≤ 1 then none
                              else some { cell with refs := cell.refs - 1 })) ∧
      (slot = none → store1 = store) := by
  unfold rocsparse_destroy_csrtr_info at h
  cases slot with
  | none =>
    simp only [Option.some.injEq, Prod.mk.injEq] at h
    refine ⟨h.1.symm, by rw [h.2], ?_, fun _ => h.2.symm⟩
    intro a ha
    cases ha
  | some a =>
    simp only at h
    cases hc : store[a]? with
    | none => simp [hc] at h
    | some c =>
      cases c with
      | none => simp [hc] at h
      | some cell =>
        simp only [hc] at h
        by_cases hr : cell.refs ≤ 1
        · simp only [hr, if_true, Option.some.injEq, Prod.mk.injEq] at h
          refine ⟨h.1.symm, by rw [← h.2]; simp, ?_, by intro h0; cases h0⟩
          intro b hb
          cases hb
          exact ⟨cell, hc, by simp [hr, h.2]⟩
        · simp only [hr, if_false, Option.some.injEq, Prod.mk.injEq] at h
          refine ⟨h.1.symm, by rw [← h.2]; simp, ?_, by intro h0; cases h0⟩
          intro b hb
          cases hb
          exact ⟨cell, hc, by simp [hr, h.2]⟩

/-- What the sequence "clear, create, perform analysis" leaves when it returns:
the slot holds the handle `store.length`, and the store is the one left by the
destroy call followed by one new cell with the result of the analysis. -/
theorem rebuild_analysis_spec (total_spin : Nat) (handle : rocsparse_handle) (trans m nnz : Int)
    (descr : rocsparse_mat_descr) (csr_row_ptr csr_col_ind : List Int)
    (minfo : rocsparse_mat_info) (slot : Option Nat)
    (set : rocsparse_mat_info → Option Nat → rocsparse_mat_info) (store : InfoStore)
    (buf : Scratch) (r : AnalysisResult)
    (h : rebuild_analysis total_spin handle trans m nnz descr csr_row_ptr csr_col_ind minfo slot
      set store buf = some r) :
    ∃ store1 cr,
      rocsparse_destroy_csrtr_info store slot = some (rocsparse_status.success, store1) ∧
      rocsparse_csrtr_analysis total_spin handle trans m nnz descr csr_row_ptr csr_col_ind
        empty_csrtr_info = some cr ∧
      r = { status := cr.status, info := some (set minfo (some store.length)),
            store := store1 ++ [some { refs := 1, obj := cr.info }],
            temp_buffer := some cr.temp_buffer } := by
  unfold rebuild_analysis at h
  cases hd : rocsparse_destroy_csrtr_info store slot with
  | none => simp [hd] at h
  | some p =>
    obtain ⟨s1, store1⟩ := p
    obtain ⟨hs1, hlen, _, _⟩ := destroy_csrtr_info_spec store store1 slot s1 hd
    subst hs1
    have hlook : InfoStore.lookup
        (store1 ++ [some { refs := 1, obj := empty_csrtr_info }]) (some store1.length)
        = some empty_csrtr_info := by
      simp [InfoStore.lookup]
    have hupd : ∀ o, InfoStore.update
        (store1 ++ [some { refs := 1, obj := empty_csrtr_info }]) store1.length o
        = store1 ++ [some { refs := 1, obj := o }] := by
      intro o
      simp [InfoStore.update]
    simp only [hd, Option.some_bind, rocsparse_create_csrtr_info, ne_eq, not_true_eq_false,
      if_false, hlook, Option.getD_some, hupd] at h
    cases hc : rocsparse_csrtr_analysis total_spin handle trans m nnz descr csr_row_ptr
        csr_col_ind empty_csrtr_info with
    | none => simp [hc] at h
    | some cr =>
      simp only [hc, Option.map_some', Option.some.injEq] at h
      refine ⟨store1, cr, rfl, rfl, ?_⟩
      rw [← h, hlen]

/-! ## Lemmas on folds in `Option` -/

/-- A fold in `Option` whose steps all succeed and keep an invariant of the
processed elements succeeds and ends in the invariant. -/
theorem foldlM_option_inv {α β : Type} (f : β → α → Option β) (Inv : List α → β → Prop)
    (es : List α)
    (hstep : ∀ pre e b, e ∈ es → Inv pre b → ∃ b', f b e = some b' ∧ Inv (pre ++ [e]) b')
    (pre : List α) (b0 : β) (h0 : Inv pre b0) :
    ∃ b', es.foldlM f b0 = some b' ∧ Inv (pre ++ es) b' := by
  induction es generalizing pre b0 with
  | nil => exact ⟨b0, rfl, by simpa using h0⟩
  | cons e es ih =>
    obtain ⟨b1, hb1, hinv1⟩ := hstep pre e b0 (List.mem_cons_self e es) h0
    obtain ⟨b', hb', hinv'⟩ := ih (fun pre e' b he' hi => hstep pre e' b (List.mem_cons_of_mem e he') hi)
      (pre ++ [e]) b1 hinv1
    refine ⟨b', ?_, by simpa using hinv'⟩
    rw [List.foldlM_cons, hb1]
    exact hb'

/-- The elements a successful `mapM` in `Option` returns are images of the
elements of the list. -/
theorem mapM_option_mem {α β : Type} (f : α → Option β) (l : List α) (l' : List β)
    (h : l.mapM f = some l') : ∀ e ∈ l', ∃ t ∈ l, f t = some e := by
  induction l generalizing l' with
  | nil =>
    simp only [List.mapM_nil] at h
    cases h
    intro e he
    cases he
  | cons a l ih =>
    rw [List.mapM_cons] at h
    cases hfa : f a with
    | none => simp [hfa] at h
    | some b =>
      cases hl : l.mapM f with
      | none =>
        rw [hfa, hl] at h
        cases h
      | some bs =>
        rw [hfa, hl] at h
        simp only [Option.pure_def, Option.bind_eq_bind, Option.some_bind,
          Option.some.injEq] at h
        subst h
        intro e he
        rcases List.mem_cons.mp he with he | he
        · exact ⟨a, List.mem_cons_self a l, by rw [hfa, he]⟩
        · obtain ⟨t, ht, hft⟩ := ih bs hl e he
          exact ⟨t, List.mem_cons_of_mem a ht, hft⟩

/-- The position of a stored entry is a valid index into `csr_col_ind`. -/
theorem csr_row_entries_pos (rp ci : List Int) (base row : Int) (es : List (Int × Int))
    (h : csr_row_entries rp ci base row = some es) :
    ∀ e ∈ es, 0 ≤ e.1 ∧ e.1 < (ci.length : Int) := by
  unfold csr_row_entries at h
  simp only [Option.bind_eq_bind] at h
  obtain ⟨b, _, h⟩ := Option.bind_eq_some.mp h
  obtain ⟨e', _, h⟩ := Option.bind_eq_some.mp h
  intro e he
  obtain ⟨t, _, ht⟩ := mapM_option_mem _ _ _ h e he
  obtain ⟨c, hc, hce⟩ := Option.bind_eq_some.mp ht
  simp only [Option.some.injEq] at hce
  subst hce
  unfold readAt at hc
  by_cases hr : 0 ≤ b + (t : Int) ∧ b + (t : Int) < (ci.length : Int)
  · exact hr
  · rw [if_neg hr] at hc
    cases hc

/-! ## The analysis kernel on a lower triangular matrix -/

theorem isDependency_lower (fill_mode row col : Int)
    (hfill : fill_mode ≠ rocsparse_fill_mode_upper) :
    isDependency fill_mode row col = decide (col < row) := by
  unfold isDependency
  rw [if_neg hfill]

theorem readAt_getD (xs : List Int) (c : Int) (h0 : 0 ≤ c) (h : c.toNat < xs.length) :
    readAt xs c = some (xs.getD c.toNat 0) := by
  rw [readAt_of_toNat xs c h0 h]
  simp [List.getD, List.getElem?_eq_getElem h]

theorem getD_set_ne (xs : List Int) (i j : Nat) (v : Int) (h : i ≠ j) :
    (xs.set i v).getD j 0 = xs.getD j 0 := by
  simp [List.getD, List.getElem?_set_ne h]

theorem getD_set_self (xs : List Int) (i : Nat) (v : Int) (h : i < xs.length) :
    (xs.set i v).getD i 0 = v := by
  simp [List.getD, List.getElem?_set_self h]

/-- The scan of the entries of row `i` by its analysis worker. -/
theorem analysis_entries_fold (fill_mode : Int) (hfill : fill_mode ≠ rocsparse_fill_mode_upper)
    (done : List Int) (i : Nat) (hi : i < done.length) (es : List (Int × Int))
    (hes : ∀ e ∈ es, 0 ≤ e.2 ∧ e.2 ≤ (i : Int))
    (hprev : ∀ j, j < i → 1 ≤ done.getD j 0 ∧ done.getD j 0 ≤ (j : Int) + 1) :
    ∃ r, es.foldlM (analysis_entry fill_mode done (i : Int)) (0, none) = some r ∧
      0 ≤ r.1 ∧ r.1 ≤ (i : Int) ∧
      (∀ e ∈ es, e.2 < (i : Int) → done.getD e.2.toNat 0 ≤ r.1) ∧
      (r.2.isNone = true ↔ ∀ e ∈ es, e.2 ≠ (i : Int)) := by
  have key := foldlM_option_inv (analysis_entry fill_mode done (i : Int))
    (fun pre (acc : Int × Option Int) => 0 ≤ acc.1 ∧ acc.1 ≤ (i : Int) ∧
      (∀ e ∈ pre, e.2 < (i : Int) → done.getD e.2.toNat 0 ≤ acc.1) ∧
      (acc.2.isNone = true ↔ ∀ e ∈ pre, e.2 ≠ (i : Int))) es
    (by
      intro pre e acc he hinv
      obtain ⟨h0, h1, h2, h3⟩ := hinv
      obtain ⟨hc0, hc1⟩ := hes e he
      unfold analysis_entry
      rw [isDependency_lower _ _ _ hfill]
      by_cases hlt : e.2 < (i : Int)
      · have hj : e.2.toNat < i := by omega
        obtain ⟨hd1, hd2⟩ := hprev e.2.toNat hj
        rw [if_pos (by simpa using hlt), readAt_getD done e.2 hc0 (by omega)]
        have hne : ¬ (done.getD e.2.toNat 0 = 0) := by omega
        simp only [Option.some_bind, if_neg hne]
        refine ⟨_, rfl, ?_, ?_, ?_, ?_⟩
        · exact le_trans h0 (le_max_left _ _)
        · apply max_le h1
          omega
        · intro e' he' hlt'
          rcases List.mem_append.mp he' with hm | hm
          · exact le_trans (h2 e' hm hlt') (le_max_left _ _)
          · have : e' = e := by simpa using hm
            subst this
            exact le_max_right _ _
        · rw [h3]
          constructor
          · intro hall e' he'
            rcases List.mem_append.mp he' with hm | hm
            · exact hall e' hm
            · have : e' = e := by simpa using hm
              subst this
              omega
          · intro hall e' he'
            exact hall e' (List.mem_append.mpr (Or.inl he'))
      · have heq : e.2 = (i : Int) := by omega
        rw [if_neg (by simpa using hlt), if_pos heq]
        refine ⟨_, rfl, h0, h1, ?_, ?_⟩
        · intro e' he' hlt'
          rcases List.mem_append.mp he' with hm | hm
          · exact h2 e' hm hlt'
          · have : e' = e := by simpa using hm
            subst this
            omega
        · constructor
          · intro hnone
            simp at hnone
          · intro hall
            exact absurd heq (hall e (List.mem_append.mpr (Or.inr (List.mem_singleton.mpr rfl)))))
    [] (0, none)
    (by
      refine ⟨le_refl 0, by omega, ?_, ?_⟩
      · intro e he
        cases he
      · simp)
  simpa using key

theorem rowHasDiag_eq_false (rp ci : List Int) (base : Int) (i : Nat) (es : List (Int × Int))
    (h : csr_row_entries rp ci base (i : Int) = some es) :
    rowHasDiag rp ci base i = false ↔ ∀ e ∈ es, e.2 ≠ (i : Int) := by
  unfold rowHasDiag
  rw [h]
  simp

/-- The worker of row `i` of the analysis kernel, run when the rows before `i`
are done. -/
theorem analysis_row_spec (fill_mode : Int) (hfill : fill_mode ≠ rocsparse_fill_mode_upper)
    (m : Nat) (rp ci : List Int) (base : Int) (mem : AnalysisMem) (i : Nat) (hi : i < m)
    (hlen : mem.done_array.length = m) (hdlen : mem.csr_diag_ind.length = m)
    (es : List (Int × Int)) (hrow : csr_row_entries rp ci base (i : Int) = some es)
    (hes : ∀ e ∈ es, 0 ≤ e.2 ∧ e.2 ≤ (i : Int))
    (hprev : ∀ j, j < i → 1 ≤ mem.done_array.getD j 0 ∧ mem.done_array.getD j 0 ≤ (j : Int) + 1) :
    ∃ mem' v, analysis_row fill_mode rp ci base mem i = some mem' ∧
      mem'.done_array = mem.done_array.set i v ∧ 1 ≤ v ∧ v ≤ (i : Int) + 1 ∧
      (∀ e ∈ es, e.2 < (i : Int) → mem.done_array.getD e.2.toNat 0 < v) ∧
      mem'.csr_diag_ind.length = m ∧
      mem'.zero_pivot = (if rowHasDiag rp ci base i = false ∧ mem.zero_pivot = rocsparse_int_max
                         then (i : Int) else mem.zero_pivot) := by
  obtain ⟨r, hr, h0, h1, h2, h3⟩ :=
    analysis_entries_fold fill_mode hfill mem.done_array i (by omega) es hes hprev
  refine ⟨{ csr_diag_ind := mem.csr_diag_ind.set i (r.2.getD (-1)),
            done_array := mem.done_array.set i (r.1 + 1),
            zero_pivot := if r.2.isNone ∧ mem.zero_pivot = rocsparse_int_max then (i : Int)
                          else mem.zero_pivot,
            max_nnz := max mem.max_nnz (es.length : Int) },
    r.1 + 1, ?_, rfl, by omega, by omega, ?_, ?_, ?_⟩
  · unfold analysis_row
    rw [hrow]
    simp only [Option.bind_eq_bind, Option.some_bind]
    rw [hr]
    simp only [Option.some_bind]
    rw [writeAt_natCast _ _ _ (by omega : i < mem.done_array.length),
      writeAt_natCast _ _ _ (by omega : i < mem.csr_diag_ind.length)]
    simp only [Option.some_bind]
  · intro e he hlt
    have := h2 e he hlt
    omega
  · simp [hdlen]
  · have hd : (r.2.isNone = true) ↔ rowHasDiag rp ci base i = false := by
      rw [h3, rowHasDiag_eq_false rp ci base i es hrow]
    by_cases hx : rowHasDiag rp ci base i = false
    · have hn : r.2.isNone = true := hd.mpr hx
      simp only [hn, hx, true_and]
    · have hn : ¬ (r.2.isNone = true) := fun h => hx (hd.mp h)
      rw [if_neg (fun h => hn h.1), if_neg (fun h => hx h.1)]

theorem rowWithin_some (lo hi : Int) (r : Option (List (Int × Int))) (h : rowWithin lo hi r) :
    ∃ es, r = some es ∧ ∀ e ∈ es, lo ≤ e.2 ∧ e.2 ≤ hi := by
  cases r with
  | none => exact absurd h (fun h => h)
  | some es => exact ⟨es, rfl, h⟩

/-- The analysis kernel, run over the first `n` rows of a lower triangular
matrix. -/
theorem analysis_kernel_prefix (fill_mode : Int) (hfill : fill_mode ≠ rocsparse_fill_mode_upper)
    (m : Nat) (rp ci : List Int) (base zp0 : Int)
    (hm : (m : Int) ≤ rocsparse_int_max)
    (hlow : LowerTriangular m rp ci base) (n : Nat) (hn : n ≤ m) :
    ∃ mem, (List.range n).foldlM (analysis_row fill_mode rp ci base)
        { csr_diag_ind := List.replicate m 0, done_array := List.replicate m 0,
          zero_pivot := zp0, max_nnz := 0 } = some mem ∧
      AnalysisInv m rp ci base zp0 n mem := by
  induction n with
  | zero =>
    refine ⟨_, rfl, ?_⟩
    refine ⟨by simp, by simp, ?_, ?_, ?_, ?_⟩
    · intro j hj
      omega
    · intro j hj
      omega
    · intro _
      rfl
    · intro k hk
      omega
  | succ n ih =>
    obtain ⟨mem, hmem, hlen, hdlen, hrange, hdep, hz1, hz2⟩ := ih (by omega)
    obtain ⟨es, hrow, hes⟩ := rowWithin_some _ _ _ (hlow n (by omega))
    obtain ⟨mem', v, hstep, hdone, hv1, hv2, hvdep, hdlen', hzp⟩ :=
      analysis_row_spec fill_mode hfill m rp ci base mem n (by omega) hlen hdlen es hrow hes
        hrange
    refine ⟨mem', ?_, ?_⟩
    · rw [List.range_succ, List.foldlM_append, hmem]
      simp only [Option.bind_eq_bind, Option.some_bind, List.foldlM_cons, List.foldlM_nil]
      rw [hstep]
      rfl
    · have hget : ∀ j, j < n → mem'.done_array.getD j 0 = mem.done_array.getD j 0 := by
        intro j hj
        rw [hdone, getD_set_ne _ _ _ _ (by omega)]
      have hgetn : mem'.done_array.getD n 0 = v := by
        rw [hdone, getD_set_self _ _ _ (by omega)]
      refine ⟨by rw [hdone]; simpa using hlen, hdlen', ?_, ?_, ?_, ?_⟩
      · intro j hj
        by_cases hjn : j = n
        · subst hjn
          rw [hgetn]
          exact ⟨hv1, hv2⟩
        · rw [hget j (by omega)]
          exact hrange j (by omega)
      · intro j hj es' hrow' e he hlt
        obtain ⟨es2, hrow2, hes2⟩ := rowWithin_some _ _ _ (hlow j (by omega))
        rw [hrow'] at hrow2
        cases hrow2
        have hc := hes2 e he
        by_cases hjn : j = n
        · subst hjn
          rw [hrow] at hrow'
          cases hrow'
          rw [hgetn, hget e.2.toNat (by omega)]
          exact hvdep e he hlt
        · rw [hget j (by omega), hget e.2.toNat (by omega)]
          exact hdep j (by omega) es' hrow' e he hlt
      · intro hall
        have h1 := hz1 (fun j hj => hall j (by omega))
        have h2 := hall n (by omega)
        rw [hzp, h1]
        simp [h2]
      · intro k hk hkf hbefore hzmax
        by_cases hkn : k = n
        · subst hkn
          have h1 := hz1 hbefore
          rw [hzp, h1]
          simp [hkf, hzmax]
        · have h1 := hz2 k (by omega) hkf hbefore hzmax
          rw [hzp, h1]
          have hne : ¬ ((k : Int) = rocsparse_int_max) := by
            have : (k : Int) < (m : Int) := by omega
            omega
          simp [hne]

/-! ## `rocsparse_csrtr_analysis` on a lower triangular matrix -/

theorem le_paddedRows (m : Int) (hm : 1 ≤ m) : m ≤ paddedRows m := by
  unfold paddedRows
  rw [Int.tdiv_eq_ediv (by omega) (by omega)]
  omega

theorem maxDone_le (D : List Int) (B : Int) (hB : 0 ≤ B) (h : ∀ d ∈ D, d ≤ B) : maxDone D ≤ B := by
  have key : ∀ (l : List Int) (a : Int), a ≤ B → (∀ d ∈ l, d ≤ B) → l.foldl max a ≤ B := by
    intro l
    induction l with
    | nil =>
      intro a ha _
      simpa using ha
    | cons x l ih =>
      intro a ha hl
      rw [List.foldl_cons]
      apply ih
      · exact max_le ha (hl x (List.mem_cons_self x l))
      · intro d hd
        exact hl d (List.mem_cons_of_mem x hd)
  exact key D 0 hB h

theorem take_levelCounts (D : List Int) (P M : Int) (h : M.toNat ≤ P.toNat) :
    (levelCounts D P).take M.toNat = levelCounts D M := by
  unfold levelCounts
  rw [← List.map_take, List.take_range]
  congr 2
  omega

theorem mem_getD_of_mem (D : List Int) (d : Int) (h : d ∈ D) :
    ∃ j, j < D.length ∧ D.getD j 0 = d := by
  obtain ⟨j, hj, hjd⟩ := List.getElem_of_mem h
  exact ⟨j, hj, by rw [getD_eq_getElem D j hj, hjd]⟩

/-- The order of the workers lists every row once. -/
theorem analysis_order_length (fill_mode : Int) (m : Nat) :
    (analysis_order fill_mode m).length = m := by
  unfold analysis_order
  by_cases hu : fill_mode = rocsparse_fill_mode_upper
  · simp [hu]
  · simp [hu]

/-- A grid with a wavefront for every row runs the kernel on all rows. -/
theorem csrsv_analysis_launch_all (workers : Nat) (fill_mode m : Int) (rp ci : List Int)
    (zp base : Int) (h : m.toNat ≤ workers) :
    csrsv_analysis_launch workers fill_mode m rp ci zp base
      = csrsv_analysis_kernel fill_mode m rp ci zp base := by
  unfold csrsv_analysis_launch csrsv_analysis_kernel
  rw [List.take_of_length_le (by rw [analysis_order_length]; exact h)]

/-- As long as `wavefront_size * m` does not exceed `2 ^ 31`, the grid of line 217
has a wavefront for every row. -/
theorem csrsv_wavefronts_cover (wavefront_size m : Int)
    (hwf : wavefront_size = 32 ∨ wavefront_size = 64) (hm : 1 ≤ m)
    (hgrid : wavefront_size * m ≤ 2147483648) : m.toNat ≤ csrsv_wavefronts wavefront_size m := by
  unfold csrsv_wavefronts csrsv_blocks uint32_of_int int32_wrap
  rcases hwf with h | h
  · subst h
    have h1 : (((32 * m + 2147483648) % 4294967296 - 2147483648 - 1 + 2147483648) % 4294967296
        - 2147483648) = 32 * m - 1 := by omega
    rw [h1, Int.tdiv_eq_ediv (by omega) (by norm_num)]
    have h2 : (((32 * m - 1) / 1024 + 1 + 2147483648) % 4294967296 - 2147483648)
        % 4294967296 = (32 * m - 1) / 1024 + 1 := by omega
    rw [h2]
    have h3 : ((32 : Int)).toNat = 32 := rfl
    rw [h3, Nat.le_div_iff_mul_le (by norm_num)]
    omega
  · subst h
    have h1 : (((64 * m + 2147483648) % 4294967296 - 2147483648 - 1 + 2147483648) % 4294967296
        - 2147483648) = 64 * m - 1 := by omega
    rw [h1, Int.tdiv_eq_ediv (by omega) (by norm_num)]
    have h2 : (((64 * m - 1) / 1024 + 1 + 2147483648) % 4294967296 - 2147483648)
        % 4294967296 = (64 * m - 1) / 1024 + 1 := by omega
    rw [h2]
    have h3 : ((64 : Int)).toNat = 64 := rfl
    rw [h3, Nat.le_div_iff_mul_le (by norm_num)]
    omega

/-- The analysis of a lower triangular matrix succeeds; its row map is the level
order of the `done` values the kernel leaves. -/
theorem csrtr_analysis_lower (total_spin : Nat) (handle : rocsparse_handle) (trans m nnz : Int)
    (descr : rocsparse_mat_descr) (rp ci : List Int) (info : rocsparse_csrtr_info)
    (hwf : handle.wavefront_size = 32 ∨ handle.wavefront_size = 64)
    (hfill : descr.fill_mode = rocsparse_fill_mode_lower)
    (hm1 : 1 ≤ m) (hmmax : m ≤ rocsparse_int_max)
    (hgrid : handle.wavefront_size * m ≤ 2147483648)
    (hlow : LowerTriangular m.toNat rp ci descr.base) :
    ∃ mem cr, csrsv_analysis_kernel descr.fill_mode m rp ci rocsparse_int_max descr.base
        = some mem ∧
      AnalysisInv m.toNat rp ci descr.base rocsparse_int_max m.toNat mem ∧
      rocsparse_csrtr_analysis total_spin handle trans m nnz descr rp ci info = some cr ∧
      cr.status = rocsparse_status.success ∧
      cr.info.d_row_map = some (rowMapAfter mem.done_array m.toNat m.toNat) ∧
      cr.info.h_row_map = some (rowMapAfter mem.done_array m.toNat m.toNat) ∧
      cr.info.zero_pivot = some mem.zero_pivot ∧
      cr.info.csr_diag_ind = some mem.csr_diag_ind ∧
      cr.info.max_depth = maxDone mem.done_array ∧
      cr.temp_buffer.done_array.length = (paddedRows m).toNat := by
  have hnu : descr.fill_mode ≠ rocsparse_fill_mode_upper := by
    rw [hfill]
    decide
  obtain ⟨mem, hmem, hinv⟩ := analysis_kernel_prefix descr.fill_mode hnu m.toNat rp ci descr.base
    rocsparse_int_max (by omega) hlow m.toNat (le_refl _)
  have hk : csrsv_analysis_kernel descr.fill_mode m rp ci rocsparse_int_max descr.base
      = some mem := by
    unfold csrsv_analysis_kernel analysis_order
    rw [if_neg hnu]
    exact hmem
  obtain ⟨hlen, hdlen, hrange, _, _, _⟩ := hinv
  have hpos : ∀ d ∈ mem.done_array, 1 ≤ d := by
    intro d hd
    obtain ⟨j, hj, hjd⟩ := mem_getD_of_mem _ _ hd
    rw [← hjd]
    exact (hrange j (by omega)).1
  have hbound : ∀ d ∈ mem.done_array, d ≤ m := by
    intro d hd
    obtain ⟨j, hj, hjd⟩ := mem_getD_of_mem _ _ hd
    rw [← hjd]
    have := (hrange j (by omega)).2
    omega
  have hM : maxDone mem.done_array ≤ m := maxDone_le _ _ (by omega) hbound
  have hP := le_paddedRows m hm1
  have hMP : (maxDone mem.done_array).toNat ≤ (paddedRows m).toNat := by omega
  have hrpl_len : (levelCounts mem.done_array (paddedRows m)).length = (paddedRows m).toNat := by
    simp [levelCounts]
  have htake : (InclusiveSum ((levelCounts mem.done_array (paddedRows m)).take
        (maxDone mem.done_array).toNat)
      ++ (levelCounts mem.done_array (paddedRows m)).drop (maxDone mem.done_array).toNat).take
        (maxDone mem.done_array).toNat
      = InclusiveSum (levelCounts mem.done_array (maxDone mem.done_array)) := by
    rw [take_levelCounts _ _ _ hMP]
    apply List.take_left'
    simp [InclusiveSum, inclusiveSumFrom_length, levelCounts]
  have hdone_take : (mem.done_array
      ++ List.replicate ((paddedRows m).toNat - m.toNat) 0).take m.toNat = mem.done_array :=
    List.take_left' hlen
  have hrm := create_row_map_eq m.toNat (maxDone mem.done_array) mem.done_array
    (InclusiveSum (levelCounts mem.done_array (maxDone mem.done_array))) hlen hpos
    (le_maxDone mem.done_array) rfl
  have hcr : ∃ cr, rocsparse_csrtr_analysis total_spin handle trans m nnz descr rp ci info
        = some cr ∧
      cr.status = rocsparse_status.success ∧
      cr.info.d_row_map = some (rowMapAfter mem.done_array m.toNat m.toNat) ∧
      cr.info.h_row_map = some (rowMapAfter mem.done_array m.toNat m.toNat) ∧
      cr.info.zero_pivot = some mem.zero_pivot ∧
      cr.info.csr_diag_ind = some mem.csr_diag_ind ∧
      cr.info.max_depth = maxDone mem.done_array ∧
      cr.temp_buffer.done_array.length = (paddedRows m).toNat := by
    have hl : csrsv_analysis_launch (csrsv_wavefronts handle.wavefront_size m) descr.fill_mode m
        rp ci rocsparse_int_max descr.base = some mem := by
      rw [csrsv_analysis_launch_all _ _ _ _ _ _ _
        (csrsv_wavefronts_cover handle.wavefront_size m hwf hm1 hgrid)]
      exact hk
    unfold rocsparse_csrtr_analysis
    simp only [if_pos hwf, if_pos (Or.inr hfill : descr.fill_mode = rocsparse_fill_mode_upper
      ∨ descr.fill_mode = rocsparse_fill_mode_lower), hl, Option.map_some', Option.some_bind,
      scratch_after_kernel, hrpl_len, if_pos hMP, htake, hdone_take, hrm]
    refine ⟨_, rfl, rfl, rfl, rfl, rfl, rfl, rfl, ?_⟩
    simp [hlen]
    omega
  obtain ⟨cr, h1, h2⟩ := hcr
  exact ⟨mem, cr, hk, ⟨hlen, hdlen, hrange, by assumption, by assumption, by assumption⟩, h1, h2⟩

/-! ## The solve kernel on a lower triangular matrix -/

theorem readAt_rat_getD (xs : List Rat) (c : Int) (h0 : 0 ≤ c) (h : c < (xs.length : Int)) :
    readAt xs c = some ((readAt xs c).getD 0) := by
  unfold readAt
  rw [if_pos ⟨h0, h⟩]
  have : c.toNat < xs.length := by omega
  simp [List.getElem?_eq_getElem this]

/-- The scan of the entries of row `row` by its solve worker: the running sum
loses the terms of the dependencies and the diagonal value is the one stored
last. -/
theorem solve_entries_fold (fill_mode : Int) (hfill : fill_mode ≠ rocsparse_fill_mode_upper)
    (csr_val : List Rat) (mem : SolveMem) (row : Int) (es : List (Int × Int)) (s0 : Rat)
    (hes : ∀ e ∈ es, 0 ≤ e.2 ∧ e.2 ≤ row)
    (hval : ∀ e ∈ es, 0 ≤ e.1 ∧ e.1 < (csr_val.length : Int))
    (hy : row < (mem.y.length : Int))
    (hdone : ∀ e ∈ es, e.2 < row → ∃ d, readAt mem.done_array e.2 = some d ∧ d ≠ 0) :
    es.foldlM (solve_entry fill_mode csr_val mem row) (s0, none)
      = some (s0 - depSum csr_val mem.y row es, (diagOf csr_val row es).getLast?) := by
  have key := foldlM_option_inv (solve_entry fill_mode csr_val mem row)
    (fun pre (acc : Rat × Option Rat) =>
      acc = (s0 - depSum csr_val mem.y row pre, (diagOf csr_val row pre).getLast?)) es
    (by
      intro pre e acc he hinv
      obtain ⟨hc0, hc1⟩ := hes e he
      obtain ⟨hv0, hv1⟩ := hval e he
      unfold solve_entry
      rw [isDependency_lower _ _ _ hfill, hinv]
      by_cases hlt : e.2 < row
      · obtain ⟨d, hd, hdne⟩ := hdone e he hlt
        have hne : ¬ (e.2 = row) := by omega
        rw [if_pos (by simpa using hlt), hd, readAt_rat_getD csr_val e.1 hv0 hv1,
          readAt_rat_getD mem.y e.2 hc0 (by omega)]
        simp only [Option.some_bind, if_neg hdne, Option.map_some', Option.getD_some]
        refine ⟨_, rfl, ?_⟩
        have hfl : List.filter (fun e => decide (e.2 < row)) [e] = [e] := by simp [hlt]
        have hfd : List.filter (fun e => decide (e.2 = row)) [e] = [] := by simp [hne]
        unfold depSum diagOf
        rw [List.filter_append, List.filter_append, List.map_append, List.sum_append, hfl, hfd]
        simp only [List.map_cons, List.map_nil, List.sum_cons, List.sum_nil, List.append_nil,
          entryTerm]
        congr 1
        ring
      · have heq : e.2 = row := by omega
        rw [if_neg (by simpa using hlt), if_pos heq, readAt_rat_getD csr_val e.1 hv0 hv1]
        simp only [Option.map_some']
        refine ⟨_, rfl, ?_⟩
        have hfl : List.filter (fun e => decide (e.2 < row)) [e] = [] := by simp [hlt]
        have hfd : List.filter (fun e => decide (e.2 = row)) [e] = [e] := by simp [heq]
        unfold depSum diagOf
        rw [List.filter_append, List.filter_append, List.filterMap_append, hfl, hfd]
        simp only [List.append_nil, List.filterMap_cons, List.filterMap_nil]
        rw [readAt_rat_getD csr_val e.1 hv0 hv1]
        simp)
    [] (s0, none)
    (by simp [depSum, diagOf])
  obtain ⟨r, hr, hinv⟩ := key
  rw [hr, hinv]
  simp

theorem sum_map_split {α : Type} (g : α → Rat) (p q : α → Bool) (es : List α)
    (h : ∀ e ∈ es, (p e = true ∧ q e = false) ∨ (p e = false ∧ q e = true)) :
    (es.map g).sum = ((es.filter p).map g).sum + ((es.filter q).map g).sum := by
  induction es with
  | nil => simp
  | cons e es ih =>
    have ih' := ih (fun e' he' => h e' (List.mem_cons_of_mem e he'))
    rcases h e (List.mem_cons_self e es) with ⟨hp, hq⟩ | ⟨hp, hq⟩
    · simp only [List.map_cons, List.sum_cons, List.filter_cons, hp, hq, if_true, ih']
      simp
      ring
    · simp only [List.map_cons, List.sum_cons, List.filter_cons, hp, hq, if_true, ih']
      simp
      ring

theorem readAt_set_ne (y : List Rat) (r : Nat) (v : Rat) (c : Int) (h : c ≠ (r : Int)) :
    readAt (y.set r v) c = readAt y c := by
  unfold readAt
  by_cases hc : 0 ≤ c ∧ c < (y.length : Int)
  · have hc' : 0 ≤ c ∧ c < ((y.set r v).length : Int) := by simpa using hc
    rw [if_pos hc, if_pos hc']
    have : r ≠ c.toNat := by omega
    rw [List.getElem?_set_ne this]
  · have hc' : ¬ (0 ≤ c ∧ c < ((y.set r v).length : Int)) := by simpa using hc
    rw [if_neg hc, if_neg hc']

theorem readAt_set_self (y : List Rat) (r : Nat) (v : Rat) (h : r < y.length) :
    readAt (y.set r v) (r : Int) = some v := by
  rw [readAt_natCast _ r (by simpa using h)]
  simp

/-- Writing `y[r]` does not change the row of the product of a row that does not
store column `r`. -/
theorem rowProduct_set_of_not_mem (rp ci : List Int) (val : List Rat) (base : Int)
    (y : List Rat) (r : Nat) (v : Rat) (i : Nat)
    (h : ∀ es, csr_row_entries rp ci base (i : Int) = some es → ∀ e ∈ es, e.2 ≠ (r : Int)) :
    rowProduct rp ci val base (y.set r v) i = rowProduct rp ci val base y i := by
  unfold rowProduct
  cases hrow : csr_row_entries rp ci base (i : Int) with
  | none => rfl
  | some es =>
    simp only
    congr 1
    apply List.map_congr_left
    intro e he
    unfold entryTerm
    rw [readAt_set_ne y r v e.2 (h es hrow e he)]

/-- The row of the product for the row just written: the terms of the
dependencies are those of the old `y`, the diagonal term is the diagonal value
times the new `y[r]`. -/
theorem rowProduct_set_self (rp ci : List Int) (val : List Rat) (base : Int)
    (y : List Rat) (r : Nat) (v d : Rat) (hr : r < y.length) (es : List (Int × Int))
    (hrow : csr_row_entries rp ci base (r : Int) = some es)
    (hes : ∀ e ∈ es, 0 ≤ e.2 ∧ e.2 ≤ (r : Int))
    (hval : ∀ e ∈ es, 0 ≤ e.1 ∧ e.1 < (val.length : Int))
    (hdiag : diagOf val (r : Int) es = [d]) :
    rowProduct rp ci val base (y.set r v) r = depSum val y (r : Int) es + d * v := by
  unfold rowProduct
  rw [hrow]
  simp only
  rw [sum_map_split (entryTerm val (y.set r v)) (fun e => decide (e.2 < (r : Int)))
    (fun e => decide (e.2 = (r : Int))) es (by
      intro e he
      have := hes e he
      by_cases hlt : e.2 < (r : Int)
      · left
        exact ⟨by simpa using hlt, by simp; omega⟩
      · right
        exact ⟨by simpa using hlt, by simp; omega⟩)]
  have h1 : ((es.filter (fun e => decide (e.2 < (r : Int)))).map (entryTerm val (y.set r v))).sum
      = depSum val y (r : Int) es := by
    unfold depSum
    congr 1
    apply List.map_congr_left
    intro e he
    have hlt : e.2 < (r : Int) := by simpa using (List.mem_filter.mp he).2
    unfold entryTerm
    rw [readAt_set_ne y r v e.2 (by omega)]
  have h2 : ∀ (l : List (Int × Int)), (∀ e ∈ l, e ∈ es) →
      ((l.filter (fun e => decide (e.2 = (r : Int)))).map (entryTerm val (y.set r v))).sum
        = ((diagOf val (r : Int) l).map (fun dv => dv * v)).sum := by
    intro l
    induction l with
    | nil =>
      intro _
      simp [diagOf]
    | cons e l ih =>
      intro hl
      have ih' := ih (fun e' he' => hl e' (List.mem_cons_of_mem e he'))
      have hv := hval e (hl e (List.mem_cons_self e l))
      unfold diagOf at ih' ⊢
      by_cases heq : e.2 = (r : Int)
      · obtain ⟨w, hw⟩ : ∃ w, readAt val e.1 = some w := ⟨_, readAt_rat_getD val e.1 hv.1 hv.2⟩
        have hterm : entryTerm val (y.set r v) e = w * v := by
          unfold entryTerm
          rw [hw, heq, readAt_set_self y r v hr]
          rfl
        simp only [List.filter_cons, heq, decide_True, if_true, List.map_cons, List.sum_cons,
          List.filterMap_cons, hw]
        rw [ih', hterm]
      · simp only [List.filter_cons, heq, decide_False, if_false]
        exact ih'
  rw [h1, h2 es (fun e he => he), hdiag]
  simp

/-- The solve worker of row `r`, run when the rows `r` depends on are done. -/
theorem csrsv_device_row_spec (fill_mode : Int) (hfill : fill_mode ≠ rocsparse_fill_mode_upper)
    (alpha : Rat) (rp ci : List Int) (val x : List Rat) (map : List Int) (offset base : Int)
    (diag_type : Int) (mem : SolveMem) (idx r : Nat) (es : List (Int × Int))
    (hmap : readAt map ((idx : Int) + offset) = some (r : Int))
    (hrow : csr_row_entries rp ci base (r : Int) = some es)
    (hes : ∀ e ∈ es, 0 ≤ e.2 ∧ e.2 ≤ (r : Int))
    (hvlen : val.length = ci.length)
    (hx : r < x.length) (hy : r < mem.y.length) (hd : r < mem.done_array.length)
    (hdone : ∀ e ∈ es, e.2 < (r : Int) → mem.done_array.getD e.2.toNat 0 ≠ 0) :
    ∃ v zp, csrsv_device_row alpha rp ci val x map offset base fill_mode diag_type mem idx
        = some { y := mem.y.set r v, done_array := mem.done_array.set r 1, zero_pivot := zp } ∧
      (mem.zero_pivot ≠ rocsparse_int_max → zp = mem.zero_pivot) ∧
      (∀ d, diag_type ≠ rocsparse_diag_type_unit → diagOf val (r : Int) es = [d] → d ≠ 0 →
        zp = mem.zero_pivot ∧
        depSum val mem.y (r : Int) es + d * v = alpha * (readAt x (r : Int)).getD 0) := by
  have hval : ∀ e ∈ es, 0 ≤ e.1 ∧ e.1 < (val.length : Int) := by
    intro e he
    have := csr_row_entries_pos rp ci base (r : Int) es hrow e he
    rw [hvlen]
    exact this
  have hdone' : ∀ e ∈ es, e.2 < (r : Int) → ∃ d, readAt mem.done_array e.2 = some d ∧ d ≠ 0 := by
    intro e he hlt
    have hc := hes e he
    exact ⟨_, readAt_getD mem.done_array e.2 hc.1 (by omega), hdone e he hlt⟩
  have hfold := solve_entries_fold fill_mode hfill val mem (r : Int) es
    (alpha * (readAt x (r : Int)).getD 0) hes hval (by omega) hdone'
  have hxr : readAt x (r : Int) = some ((readAt x (r : Int)).getD 0) :=
    readAt_rat_getD x (r : Int) (by omega) (by omega)
  have hrun : ∀ v zp,
      v = (if diag_type = rocsparse_diag_type_unit
            then alpha * (readAt x (r : Int)).getD 0 - depSum val mem.y (r : Int) es
            else match (diagOf val (r : Int) es).getLast? with
              | none => alpha * (readAt x (r : Int)).getD 0 - depSum val mem.y (r : Int) es
              | some d =>
                if d = 0 then alpha * (readAt x (r : Int)).getD 0 - depSum val mem.y (r : Int) es
                else (alpha * (readAt x (r : Int)).getD 0 - depSum val mem.y (r : Int) es) / d) →
      zp = (if decide (diag_type ≠ rocsparse_diag_type_unit
              ∧ (diagOf val (r : Int) es).getLast? = some 0) = true
              ∧ mem.zero_pivot = rocsparse_int_max then (r : Int) else mem.zero_pivot) →
      csrsv_device_row alpha rp ci val x map offset base fill_mode diag_type mem idx
        = some { y := mem.y.set r v, done_array := mem.done_array.set r 1, zero_pivot := zp } := by
    intro v zp hv hzp
    unfold csrsv_device_row
    rw [hmap]
    simp only [Option.bind_eq_bind, Option.some_bind]
    rw [hrow]
    simp only [Option.some_bind]
    rw [hxr]
    simp only [Option.some_bind, Option.getD_some]
    rw [hfold]
    simp only [Option.some_bind]
    rw [writeAt_natCast _ _ _ hy, writeAt_natCast _ _ _ hd]
    simp only [Option.some_bind]
    rw [hv, hzp]
  refine ⟨_, _, hrun _ _ rfl rfl, ?_, ?_⟩
  · intro hne
    rw [if_neg (fun h => hne h.2)]
  · intro d hnu hdiag hd0
    have hlast : (diagOf val (r : Int) es).getLast? = some d := by
      rw [hdiag]
      rfl
    have hz : ¬ (decide (diag_type ≠ rocsparse_diag_type_unit
        ∧ (diagOf val (r : Int) es).getLast? = some 0) = true
        ∧ mem.zero_pivot = rocsparse_int_max) := by
      intro h
      have h1 := of_decide_eq_true h.1
      rw [hlast] at h1
      exact hd0 (by simpa using h1.2)
    refine ⟨by rw [if_neg hz], ?_⟩
    rw [if_neg hnu, hlast]
    simp only [if_neg hd0]
    field_simp

theorem diagValues_eq_diagOf (rp ci : List Int) (val : List Rat) (base : Int) (i : Nat)
    (es : List (Int × Int)) (hrow : csr_row_entries rp ci base (i : Int) = some es) :
    diagValues rp ci val base i = diagOf val (i : Int) es := by
  unfold diagValues diagOf
  rw [hrow]

/-- The solve kernel, run over the first `n` positions of a row map in level
order. -/
theorem solve_kernel_prefix (fill_mode : Int) (hfill : fill_mode ≠ rocsparse_fill_mode_upper)
    (m : Nat) (rp ci : List Int) (val : List Rat) (base : Int) (alpha : Rat) (x : List Rat)
    (D : List Int) (L : Nat) (mem0 : SolveMem) (diag_type : Int)
    (hlow : LowerTriangular m rp ci base) (hD : D.length = m)
    (hdep : ∀ j, j < m → ∀ es, csr_row_entries rp ci base (j : Int) = some es →
      ∀ e ∈ es, e.2 < (j : Int) → D.getD e.2.toNat 0 < D.getD j 0)
    (hvlen : val.length = ci.length) (hx : x.length = m) (hy0 : mem0.y.length = m)
    (hL : mem0.done_array.length = L) (hmL : m ≤ L)
    (hnu : diag_type ≠ rocsparse_diag_type_unit) (n : Nat) (hn : n ≤ m) :
    ∃ mem, (List.range n).foldlM
        (csrsv_device_row alpha rp ci val x (rowMapAfter D m m) 0 base fill_mode diag_type) mem0
        = some mem ∧
      SolveInv m rp ci val base alpha x D mem0.zero_pivot L n mem := by
  induction n with
  | zero =>
    refine ⟨mem0, rfl, hy0, hL, ?_, ?_, fun _ => rfl, fun _ => rfl⟩
    · intro i _ h
      omega
    · intro i _ h
      omega
  | succ n ih =>
    obtain ⟨mem, hmem, hylen, hdlen, hdone, heqn, hz1, hz2⟩ := ih (by omega)
    obtain ⟨r, hr, hrpos⟩ := rowPos_surjective D n (by omega)
    have hrm : r < m := by omega
    obtain ⟨es, hrow, hes⟩ := rowWithin_some _ _ _ (hlow r hrm)
    have hmap : readAt (rowMapAfter D m m) ((n : Int) + 0) = some (r : Int) := by
      have h1 := rowMapAfter_getElem? D m m r hD (le_refl m) hrm
      rw [hrpos] at h1
      have hlt : n < (rowMapAfter D m m).length := by
        rw [rowMapAfter_length]
        omega
      rw [Int.add_zero, readAt_natCast _ n hlt]
      rw [List.getElem?_eq_getElem hlt] at h1
      simpa using h1
    have hbefore : ∀ (i : Nat) (es' : List (Int × Int)), i < m →
        csr_row_entries rp ci base (i : Int) = some es' →
        ∀ e ∈ es', e.2 < (i : Int) → rowPos D e.2.toNat < rowPos D i := by
      intro i es' hi hrow' e he hlt
      obtain ⟨es2, hrow2, hes2⟩ := rowWithin_some _ _ _ (hlow i hi)
      rw [hrow'] at hrow2
      cases hrow2
      have hc := hes2 e he
      have hlt2 := hdep i hi es' hrow' e he hlt
      have hj : e.2.toNat < D.length := by omega
      rw [getD_eq_getElem D _ hj, getD_eq_getElem D i (by omega)] at hlt2
      exact rowPos_lt_of_done_lt D i e.2.toNat (by omega) hj hlt2
    have hdeps : ∀ e ∈ es, e.2 < (r : Int) → mem.done_array.getD e.2.toNat 0 ≠ 0 := by
      intro e he hlt
      have hc := hes e he
      have hp := hbefore r es hrm hrow e he hlt
      exact hdone e.2.toNat (by omega) (by omega)
    obtain ⟨v, zp, hstep, hzp1, hzp2⟩ := csrsv_device_row_spec fill_mode hfill alpha rp ci val x
      (rowMapAfter D m m) 0 base diag_type mem n r es hmap hrow hes hvlen (by omega) (by omega)
      (by omega) hdeps
    refine ⟨{ y := mem.y.set r v, done_array := mem.done_array.set r 1, zero_pivot := zp },
      ?_, ?_⟩
    · rw [List.range_succ, List.foldlM_append, hmem]
      simp only [Option.bind_eq_bind, Option.some_bind, List.foldlM_cons, List.foldlM_nil]
      rw [hstep]
      rfl
    · have hother : ∀ i, i < m → rowPos D i < n + 1 → i ≠ r → rowPos D i < n := by
        intro i hi hp hne
        by_contra hge
        have : rowPos D i = rowPos D r := by omega
        exact hne (rowPos_injective D i r (by omega) (by omega) this)
      refine ⟨by simpa using hylen, by simpa using hdlen, ?_, ?_, ?_, ?_⟩
      · intro i hi hp
        by_cases hir : i = r
        · subst hir
          simp only
          rw [getD_set_self _ _ _ (by omega)]
          decide
        · simp only
          rw [getD_set_ne _ _ _ _ (fun h => hir h.symm)]
          exact hdone i hi (hother i hi hp hir)
      · intro i hi hp hdiag
        by_cases hir : i = r
        · subst hir
          obtain ⟨d, hd1, hd2⟩ := hdiag
          rw [diagValues_eq_diagOf rp ci val base i es hrow] at hd1
          have hval : ∀ e ∈ es, 0 ≤ e.1 ∧ e.1 < (val.length : Int) := by
            intro e he
            have := csr_row_entries_pos rp ci base (i : Int) es hrow e he
            rw [hvlen]
            exact this
          simp only
          rw [rowProduct_set_self rp ci val base mem.y i v d (by omega) es hrow hes hval hd1]
          exact (hzp2 d hnu hd1 hd2).2
        · simp only
          have hpi := hother i hi hp hir
          rw [rowProduct_set_of_not_mem rp ci val base mem.y r v i (by
            intro es' hrow' e he heq
            obtain ⟨es2, hrow2, hes2⟩ := rowWithin_some _ _ _ (hlow i hi)
            rw [hrow'] at hrow2
            cases hrow2
            have hc := hes2 e he
            by_cases hlt : e.2 < (i : Int)
            · have hp2 := hbefore i es' hi hrow' e he hlt
              have : e.2.toNat = r := by omega
              rw [this] at hp2
              omega
            · omega)]
          exact heqn i hi hpi hdiag
      · intro hne
        simp only
        rw [hzp1 (by rw [hz1 hne]; exact hne), hz1 hne]
      · intro hall
        simp only
        have h1 := hz2 (fun i hi hp => hall i hi (by omega))
        obtain ⟨d, hd1, hd2⟩ := hall r hrm (by omega)
        rw [diagValues_eq_diagOf rp ci val base r es hrow] at hd1
        rw [(hzp2 d hnu hd1 hd2).1, h1]

/-! ## Analysis followed by solve -/

/-- A force analysis with an empty slot: the store gains one cell, which holds
the result of `rocsparse_csrtr_analysis`. -/
theorem rebuild_analysis_fresh (total_spin : Nat) (handle : rocsparse_handle) (trans m nnz : Int)
    (descr : rocsparse_mat_descr) (rp ci : List Int) (minfo : rocsparse_mat_info)
    (set : rocsparse_mat_info → Option Nat → rocsparse_mat_info) (store : InfoStore)
    (buf : Scratch) (cr : CsrtrResult)
    (hcr : rocsparse_csrtr_analysis total_spin handle trans m nnz descr rp ci empty_csrtr_info
      = some cr) :
    rebuild_analysis total_spin handle trans m nnz descr rp ci minfo none set store buf
      = some { status := cr.status, info := some (set minfo (some store.length)),
               store := store ++ [some { refs := 1, obj := cr.info }],
               temp_buffer := some cr.temp_buffer } := by
  have hlook : InfoStore.lookup
      (store ++ [some { refs := 1, obj := empty_csrtr_info }]) (some store.length)
      = some empty_csrtr_info := by
    simp [InfoStore.lookup]
  have hupd : ∀ o, InfoStore.update
      (store ++ [some { refs := 1, obj := empty_csrtr_info }]) store.length o
      = store ++ [some { refs := 1, obj := o }] := by
    intro o
    simp [InfoStore.update]
  simp only [rebuild_analysis, rocsparse_destroy_csrtr_info, Option.some_bind,
    rocsparse_create_csrtr_info, ne_eq, not_true_eq_false, if_false, hlook, Option.getD_some,
    hupd, hcr, Option.map_some']

/-- The solve entry point on valid arguments with `m > 0`, `nnz > 0`, a fill mode
other than upper and a diagonal type other than unit: the kernel is run on the row
map and the `zero_pivot` of the analysis object in the lower slot. -/
theorem solve_template_lower (handle : rocsparse_handle) (trans m nnz : Int) (alpha : Rat)
    (descr : rocsparse_mat_descr) (val : List Rat) (rp ci : List Int)
    (minfo : rocsparse_mat_info) (store : InfoStore) (x y : List Rat) (policy : Int)
    (buf : Scratch) (a : Nat) (obj : rocsparse_csrtr_info) (map : List Int) (zp : Int)
    (hwf : handle.wavefront_size = 32 ∨ handle.wavefront_size = 64)
    (hbase : descr.base = rocsparse_index_base_zero ∨ descr.base = rocsparse_index_base_one)
    (htype : descr.type = rocsparse_matrix_type_general)
    (hfill : descr.fill_mode ≠ rocsparse_fill_mode_upper)
    (hdt : descr.diag_type ≠ rocsparse_diag_type_unit)
    (hm : 0 < m) (hnnz : 0 < nnz)
    (hbuf : m.toNat ≤ buf.done_array.length)
    (hslot : minfo.csrsv_lower_info = some a)
    (hobj : store.lookup (some a) = some obj)
    (hmap : obj.d_row_map = some map) (hzp : obj.zero_pivot = some zp) :
    rocsparse_csrsv_solve_template (some handle) trans m nnz (some alpha) (some descr) (some val)
        (some rp) (some ci) (some minfo) store (some x) (some y) policy (some buf)
      = (csrsv_device m alpha rp ci val x
          { y := y, done_array := List.replicate m.toNat 0 ++ buf.done_array.drop m.toNat,
            zero_pivot := zp } map 0 descr.base descr.fill_mode descr.diag_type).map
          (fun out =>
            { status := rocsparse_status.success, y := some out.y,
              temp_buffer := some { buf with done_array := out.done_array },
              store := store.update a { obj with zero_pivot := some out.zero_pivot } }) := by
  have h1 : ¬ (descr.base ≠ rocsparse_index_base_zero ∧ descr.base ≠ rocsparse_index_base_one) := by
    rcases hbase with h | h <;> simp [h]
  have h3 : ¬ m < 0 := by omega
  have h4 : ¬ nnz < 0 := by omega
  have h5 : ¬ (m = 0 ∨ nnz = 0) := by omega
  have h6 : ¬ (buf.done_array.length < m.toNat) := by omega
  by_cases hp : handle.pointer_mode = rocsparse_pointer_mode_device
  · simp only [rocsparse_csrsv_solve_template, h1, h3, h4, h5, h6, htype, hfill, hdt, hwf, hslot,
      hobj, hmap, hzp, hp, if_false, if_true, ne_eq, not_true_eq_false, Option.some_bind,
      csrsv_device_pointer, Option.getD_some]
  · simp only [rocsparse_csrsv_solve_template, h1, h3, h4, h5, h6, htype, hfill, hdt, hwf, hslot,
      hobj, hmap, hzp, hp, if_false, if_true, ne_eq, not_true_eq_false, Option.some_bind,
      csrsv_host_pointer, Option.getD_some]

theorem rowHasDiag_of_diagonalStored (rp ci : List Int) (val : List Rat) (base : Int) (i : Nat)
    (h : DiagonalStored rp ci val base i) : rowHasDiag rp ci base i = true := by
  obtain ⟨d, hd, _⟩ := h
  unfold diagValues at hd
  unfold rowHasDiag
  cases hrow : csr_row_entries rp ci base (i : Int) with
  | none =>
    rw [hrow] at hd
    cases hd
  | some es =>
    rw [hrow] at hd
    simp only at hd ⊢
    have hmem : d ∈ List.filterMap (fun e => readAt val e.1)
        (List.filter (fun e => decide (e.2 = (i : Int))) es) := by
      rw [hd]
      exact List.mem_singleton.mpr rfl
    obtain ⟨e, he, _⟩ := List.mem_filterMap.mp hmem
    obtain ⟨he1, he2⟩ := List.mem_filter.mp he
    exact List.any_eq_true.mpr ⟨e, he1, he2⟩

/-- A force analysis of a lower triangular matrix into an empty lower slot,
followed by a solve with non-unit diagonal: both calls succeed; every row with a
diagonal stored once and non-zero satisfies its equation of `L * y = alpha * x`;
`zero_pivot` is the sentinel when all rows are such rows, and is the first row
without a stored diagonal when there is one. -/
theorem analysis_then_solve_lower (total_spin : Nat) (handle : rocsparse_handle)
    (trans policy m nnz : Int) (alpha : Rat) (descr : rocsparse_mat_descr) (val : List Rat)
    (rp ci : List Int) (minfo : rocsparse_mat_info) (store : InfoStore) (x y : List Rat)
    (buf : Scratch)
    (hwf : handle.wavefront_size = 32 ∨ handle.wavefront_size = 64)
    (hbase : descr.base = rocsparse_index_base_zero ∨ descr.base = rocsparse_index_base_one)
    (htype : descr.type = rocsparse_matrix_type_general)
    (hfill : descr.fill_mode = rocsparse_fill_mode_lower)
    (hdt : descr.diag_type = rocsparse_diag_type_non_unit)
    (hm : 0 < m) (hmmax : m ≤ rocsparse_int_max) (hnnz : 0 < nnz)
    (hgrid : handle.wavefront_size * m ≤ 2147483648)
    (hlow : LowerTriangular m.toNat rp ci descr.base)
    (hvlen : val.length = ci.length)
    (hx : x.length = m.toNat) (hy : y.length = m.toNat)
    (hslot : minfo.csrsv_lower_info = none) :
    ∃ r1 r2 y' obj,
      rocsparse_csrsv_analysis_template total_spin (some handle) trans m nnz (some descr)
        (some val) (some rp) (some ci) (some minfo) store rocsparse_analysis_policy_force
        rocsparse_solve_policy_auto (some buf) = some r1 ∧
      r1.status = rocsparse_status.success ∧
      r1.info = some { minfo with csrsv_lower_info := some store.length } ∧
      rocsparse_csrsv_solve_template (some handle) trans m nnz (some alpha) (some descr)
        (some val) (some rp) (some ci) r1.info r1.store (some x) (some y) policy
        r1.temp_buffer = some r2 ∧
      r2.status = rocsparse_status.success ∧
      r2.y = some y' ∧ y'.length = m.toNat ∧
      r2.store.lookup (some store.length) = some obj ∧
      (∀ i, i < m.toNat → DiagonalStored rp ci val descr.base i →
        rowProduct rp ci val descr.base y' i = alpha * (readAt x (i : Int)).getD 0) ∧
      ((∀ i, i < m.toNat → DiagonalStored rp ci val descr.base i) →
        obj.zero_pivot = some rocsparse_int_max) ∧
      (∀ k, k < m.toNat → rowHasDiag rp ci descr.base k = false →
        (∀ j, j < k → rowHasDiag rp ci descr.base j = true) →
        obj.zero_pivot = some (k : Int)) := by
  have hnu : descr.fill_mode ≠ rocsparse_fill_mode_upper := by
    rw [hfill]
    decide
  have hdnu : descr.diag_type ≠ rocsparse_diag_type_unit := by
    rw [hdt]
    decide
  obtain ⟨mem, cr, _, hinv, hcr, hstat, hdmap, _, hzp, _, _, hblen⟩ :=
    csrtr_analysis_lower total_spin handle trans m nnz descr rp ci empty_csrtr_info hwf hfill
      (by omega) hmmax hgrid hlow
  obtain ⟨hDlen, _, _, hdep, hza, hzb⟩ := hinv
  have hne : ¬ (rocsparse_analysis_policy_force = rocsparse_analysis_policy_reuse) := by decide
  have h1 : rocsparse_csrsv_analysis_template total_spin (some handle) trans m nnz (some descr)
      (some val) (some rp) (some ci) (some minfo) store rocsparse_analysis_policy_force
      rocsparse_solve_policy_auto (some buf)
      = some { status := cr.status,
               info := some { minfo with csrsv_lower_info := some store.length },
               store := store ++ [some { refs := 1, obj := cr.info }],
               temp_buffer := some cr.temp_buffer } := by
    rw [template_nonquick total_spin handle trans m nnz descr val rp ci minfo store _ buf hbase
      htype (Or.inr rfl) hm hnnz]
    simp only [if_neg hnu, hne, false_and, if_false, hslot]
    exact rebuild_analysis_fresh total_spin handle trans m nnz descr rp ci minfo _ store buf cr hcr
  have hlook : InfoStore.lookup (store ++ [some { refs := 1, obj := cr.info }])
      (some store.length) = some cr.info := by
    simp [InfoStore.lookup]
  have hupd : ∀ o, InfoStore.update (store ++ [some { refs := 1, obj := cr.info }])
      store.length o = store ++ [some { refs := 1, obj := o }] := by
    intro o
    simp [InfoStore.update]
  have h2 := solve_template_lower handle trans m nnz alpha descr val rp ci
    { minfo with csrsv_lower_info := some store.length }
    (store ++ [some { refs := 1, obj := cr.info }]) x y policy cr.temp_buffer store.length
    cr.info _ mem.zero_pivot hwf hbase htype hnu hdnu hm hnnz
    (by
      rw [hblen]
      have := le_paddedRows m (by omega)
      omega) rfl hlook hdmap hzp
  obtain ⟨out, hout, hylen, _, _, heqn, hz1, hz2⟩ :=
    solve_kernel_prefix descr.fill_mode hnu m.toNat rp ci val descr.base alpha x mem.done_array
      (List.replicate m.toNat 0 ++ cr.temp_buffer.done_array.drop m.toNat).length
      { y := y, done_array := List.replicate m.toNat 0 ++ cr.temp_buffer.done_array.drop m.toNat,
        zero_pivot := mem.zero_pivot }
      descr.diag_type hlow hDlen hdep hvlen hx hy rfl (by simp) hdnu m.toNat (le_refl _)
  have hdev : csrsv_device m alpha rp ci val x
      { y := y, done_array := List.replicate m.toNat 0 ++ cr.temp_buffer.done_array.drop m.toNat,
        zero_pivot := mem.zero_pivot }
      (rowMapAfter mem.done_array m.toNat m.toNat) 0 descr.base descr.fill_mode descr.diag_type
      = some out := hout
  rw [hdev] at h2
  simp only [Option.map_some', hupd] at h2
  have hposlt : ∀ i, i < m.toNat → rowPos mem.done_array i < m.toNat := by
    intro i hi
    have := rowPos_lt_length mem.done_array i (by omega)
    omega
  refine ⟨_, _, out.y, { cr.info with zero_pivot := some out.zero_pivot }, h1, hstat, rfl, h2,
    rfl, rfl, hylen, ?_, ?_, ?_, ?_⟩
  · simp [InfoStore.lookup]
  · intro i hi hds
    exact heqn i hi (hposlt i hi) hds
  · intro hall
    have ha : mem.zero_pivot = rocsparse_int_max :=
      hza (fun j hj => rowHasDiag_of_diagonalStored rp ci val descr.base j (hall j hj))
    have hb : out.zero_pivot = mem.zero_pivot := hz2 (fun i hi _ => hall i hi)
    simp only
    rw [hb, ha]
  · intro k hk hkf hbefore
    have ha : mem.zero_pivot = (k : Int) := hzb k hk hkf hbefore rfl
    have hkne : mem.zero_pivot ≠ rocsparse_int_max := by
      rw [ha]
      have : (k : Int) < m := by omega
      omega
    have hb : out.zero_pivot = mem.zero_pivot := hz1 hkne
    simp only
    rw [hb, ha]

/-! ## Determinism of the analysis -/

/-- The status, row maps, depth, diagonal positions and zero pivot
`rocsparse_csrtr_analysis` leaves do not depend on the number of busy-wait
iterations observed. -/
theorem csrtr_analysis_deterministic (ts1 ts2 : Nat) (handle : rocsparse_handle)
    (trans m nnz : Int) (descr : rocsparse_mat_descr) (rp ci : List Int)
    (info : rocsparse_csrtr_info) (cr1 cr2 : CsrtrResult)
    (h1 : rocsparse_csrtr_analysis ts1 handle trans m nnz descr rp ci info = some cr1)
    (h2 : rocsparse_csrtr_analysis ts2 handle trans m nnz descr rp ci info = some cr2) :
    cr1.status = cr2.status ∧ cr1.info.h_row_map = cr2.info.h_row_map ∧
      cr1.info.d_row_map = cr2.info.d_row_map ∧ cr1.info.max_depth = cr2.info.max_depth ∧
      cr1.info.csr_diag_ind = cr2.info.csr_diag_ind ∧
      cr1.info.zero_pivot = cr2.info.zero_pivot ∧
      cr1.info.rows_per_level = cr2.info.rows_per_level := by
  unfold rocsparse_csrtr_analysis at h1 h2
  by_cases hwf : handle.wavefront_size = 32 ∨ handle.wavefront_size = 64
  · simp only [if_pos hwf] at h1 h2
    by_cases hf : descr.fill_mode = rocsparse_fill_mode_upper
        ∨ descr.fill_mode = rocsparse_fill_mode_lower
    · simp only [if_pos hf] at h1 h2
      cases hk : csrsv_analysis_launch (csrsv_wavefronts handle.wavefront_size m)
          descr.fill_mode m rp ci rocsparse_int_max descr.base with
      | none =>
        rw [hk] at h1
        cases h1
      | some mem =>
        simp only [hk, Option.map_some', Option.some_bind, scratch_after_kernel] at h1 h2
        split at h1
        · rename_i hle
          simp only [if_pos hle] at h2
          obtain ⟨st1, hst1, hr1⟩ := Option.map_eq_some'.mp h1
          obtain ⟨st2, hst2, hr2⟩ := Option.map_eq_some'.mp h2
          rw [hst1] at hst2
          cases hst2
          subst hr1
          subst hr2
          exact ⟨rfl, rfl, rfl, rfl, rfl, rfl, rfl⟩
        · cases h1
    · simp only [if_neg hf, Option.some_bind, scratch_zero] at h1 h2
      split at h1
      · rename_i hle
        simp only [if_pos hle] at h2
        obtain ⟨st1, hst1, hr1⟩ := Option.map_eq_some'.mp h1
        obtain ⟨st2, hst2, hr2⟩ := Option.map_eq_some'.mp h2
        rw [hst1] at hst2
        cases hst2
        subst hr1
        subst hr2
        exact ⟨rfl, rfl, rfl, rfl, rfl, rfl, rfl⟩
      · cases h1
  · simp only [if_neg hwf, Option.some.injEq] at h1 h2
    subst h1
    subst h2
    exact ⟨rfl, rfl, rfl, rfl, rfl, rfl, rfl⟩

theorem analysis_slot_set (descr : rocsparse_mat_descr) (minfo : rocsparse_mat_info)
    (h : Option Nat) : analysis_slot descr (set_analysis_slot descr minfo h) = h := by
  unfold analysis_slot set_analysis_slot
  by_cases hu : descr.fill_mode = rocsparse_fill_mode_upper
  · simp [hu]
  · simp [hu]

/-- The result of an analysis call with policy force that returns: the slot holds
the handle `store.length`, behind which is the result of
`rocsparse_csrtr_analysis` on an empty object. -/
theorem force_result (total_spin : Nat) (handle : rocsparse_handle)
    (trans m nnz : Int) (descr : rocsparse_mat_descr) (csr_val : List Rat)
    (rp ci : List Int) (minfo : rocsparse_mat_info) (store : InfoStore)
    (buf : Scratch) (r : AnalysisResult)
    (hbase : descr.base = rocsparse_index_base_zero ∨ descr.base = rocsparse_index_base_one)
    (htype : descr.type = rocsparse_matrix_type_general)
    (hm : 0 < m) (hnnz : 0 < nnz)
    (hcall : rocsparse_csrsv_analysis_template total_spin (some handle) trans m nnz (some descr)
        (some csr_val) (some rp) (some ci) (some minfo) store
        rocsparse_analysis_policy_force rocsparse_solve_policy_auto (some buf) = some r) :
    ∃ cr, rocsparse_csrtr_analysis total_spin handle trans m nnz descr rp ci empty_csrtr_info
        = some cr ∧ r.status = cr.status ∧
      r.info = some (set_analysis_slot descr minfo (some store.length)) ∧
      r.store.lookup (some store.length) = some cr.info := by
  rw [template_nonquick total_spin handle trans m nnz descr csr_val rp ci minfo
    store _ buf hbase htype (Or.inr rfl) hm hnnz] at hcall
  have hne : ¬ (rocsparse_analysis_policy_force = rocsparse_analysis_policy_reuse) := by decide
  have key : rebuild_analysis total_spin handle trans m nnz descr rp ci minfo
      (analysis_slot descr minfo)
      (fun i h => set_analysis_slot descr i h) store buf = some r := by
    unfold analysis_slot set_analysis_slot
    by_cases hu : descr.fill_mode = rocsparse_fill_mode_upper
    · simpa only [hu, if_true] using hcall
    · simpa only [hu, if_false, hne, false_and] using hcall
  obtain ⟨store1, cr, hd, hc, hr⟩ := rebuild_analysis_spec _ _ _ _ _ _ _ _ _ _ _ _ _ _ key
  obtain ⟨_, hlen, _, _⟩ := destroy_csrtr_info_spec store store1 _ _ hd
  subst hr
  refine ⟨cr, hc, rfl, rfl, ?_⟩
  simp only [InfoStore.lookup]
  rw [← hlen]
  simp

theorem set_getElem_same (y : List Rat) (r : Nat) (hr : r < y.length) : y.set r y[r] = y := by
  apply List.ext_getElem?
  intro k
  by_cases hk : r = k
  · subst hk
    rw [List.getElem?_set_self hr, List.getElem?_eq_getElem hr]
  · rw [List.getElem?_set_ne hk]

/-- The row of the product splits into the terms of the dependencies and the
diagonal term, for a row that stores its diagonal once. -/
theorem rowProduct_eq_depSum_add (rp ci : List Int) (val : List Rat) (base : Int)
    (y : List Rat) (r : Nat) (d : Rat) (hr : r < y.length) (es : List (Int × Int))
    (hrow : csr_row_entries rp ci base (r : Int) = some es)
    (hes : ∀ e ∈ es, 0 ≤ e.2 ∧ e.2 ≤ (r : Int))
    (hval : ∀ e ∈ es, 0 ≤ e.1 ∧ e.1 < (val.length : Int))
    (hdiag : diagOf val (r : Int) es = [d]) :
    rowProduct rp ci val base y r = depSum val y (r : Int) es + d * (readAt y (r : Int)).getD 0 := by
  have h := rowProduct_set_self rp ci val base y r y[r] d hr es hrow hes hval hdiag
  rw [set_getElem_same y r hr] at h
  rw [h, readAt_natCast y r hr]
  simp

/-! ## Lemmas on the workspace size -/

theorem paddedRows_eq (m : Int) (h1 : 1 ≤ m) : paddedRows m = ((m - 1) / 256 + 1) * 256 := by
  unfold paddedRows
  rw [Int.tdiv_eq_ediv (by omega) (by omega)]

/-- For a row count in the range of `rocsparse_int` no product of the padded size
leaves the range of `size_t`. -/
theorem padded_bytes_eq (m : Int) (h1 : 1 ≤ m) (h2 : m ≤ rocsparse_int_max) :
    padded_bytes m = 4 * (paddedRows m).toNat := by
  rw [paddedRows_eq m h1]
  unfold padded_bytes size_t_of_int sizeof_rocsparse_int size_t_range
  unfold rocsparse_int_max at h2
  rw [Int.tdiv_eq_ediv (by omega) (by omega)]
  push_cast
  omega

/-- The padded row count is the least multiple of 256 that is at least `m`. -/
theorem paddedRows_least (m : Int) (h1 : 1 ≤ m) :
    (256 : Int) ∣ paddedRows m ∧ m ≤ paddedRows m ∧
      ∀ q : Int, (256 : Int) ∣ q → m ≤ q → paddedRows m ≤ q := by
  rw [paddedRows_eq m h1]
  refine ⟨Dvd.intro_left _ rfl, by omega, ?_⟩
  intro q hq hmq
  obtain ⟨k, hk⟩ := hq
  subst hk
  omega

/-- The workspace size on valid arguments with `m > 0` and `nnz > 0`. -/
theorem buffer_size_nonquick (scan_size : Int → ScanSizeQuery) (handle : rocsparse_handle)
    (trans m nnz : Int) (descr : rocsparse_mat_descr) (csr_val : List Rat)
    (csr_row_ptr csr_col_ind : List Int) (minfo : rocsparse_mat_info) (old : Nat)
    (hbase : descr.base = rocsparse_index_base_zero ∨ descr.base = rocsparse_index_base_one)
    (htype : descr.type = rocsparse_matrix_type_general)
    (hm : 1 ≤ m) (hmmax : m ≤ rocsparse_int_max) (hnnz : 1 ≤ nnz) :
    rocsparse_csrsv_buffer_size_template scan_size (some handle) trans m nnz (some descr)
        (some csr_val) (some csr_row_ptr) (some csr_col_ind) (some minfo) (some old)
      = match scan_size m with
        | ScanSizeQuery.failed status => (status, some (768 + 2 * 4 * (paddedRows m).toNat))
        | ScanSizeQuery.ok s =>
          (rocsparse_status.success,
            some ((768 + 2 * 4 * (paddedRows m).toNat + s) % size_t_range)) := by
  have h1 : ¬ (descr.base ≠ rocsparse_index_base_zero
      ∧ descr.base ≠ rocsparse_index_base_one) := by
    rcases hbase with h | h <;> simp [h]
  have h3 : ¬ m < 0 := by omega
  have h4 : ¬ nnz < 0 := by omega
  have h5 : ¬ (m = 0 ∨ nnz = 0) := by omega
  have hP : (paddedRows m).toNat ≤ 2147483904 := by
    rw [paddedRows_eq m hm]
    unfold rocsparse_int_max at hmmax
    omega
  simp only [rocsparse_csrsv_buffer_size_template, h1, h3, h4, h5, htype, if_false, ne_eq,
    not_true_eq_false, padded_bytes_eq m hm hmmax]
  cases scan_size m with
  | failed status =>
    simp only [size_t_range]
    congr 2
    omega
  | ok s =>
    simp only [size_t_range]
    congr 2
    omega

/-- The workspace size on valid arguments with `m = 0` or `nnz = 0`. -/
theorem buffer_size_quick (scan_size : Int → ScanSizeQuery) (handle : rocsparse_handle)
    (trans m nnz : Int) (descr : rocsparse_mat_descr) (csr_val : List Rat)
    (csr_row_ptr csr_col_ind : List Int) (minfo : rocsparse_mat_info) (old : Nat)
    (hbase : descr.base = rocsparse_index_base_zero ∨ descr.base = rocsparse_index_base_one)
    (htype : descr.type = rocsparse_matrix_type_general)
    (hm : 0 ≤ m) (hnnz : 0 ≤ nnz) (hzero : m = 0 ∨ nnz = 0) :
    rocsparse_csrsv_buffer_size_template scan_size (some handle) trans m nnz (some descr)
        (some csr_val) (some csr_row_ptr) (some csr_col_ind) (some minfo) (some old)
      = (rocsparse_status.success, some 4) := by
  have h1 : ¬ (descr.base ≠ rocsparse_index_base_zero
      ∧ descr.base ≠ rocsparse_index_base_one) := by
    rcases hbase with h | h <;> simp [h]
  have h3 : ¬ m < 0 := by omega
  have h4 : ¬ nnz < 0 := by omega
  simp only [rocsparse_csrsv_buffer_size_template, h1, h3, h4, hzero, htype, if_false, if_true,
    ne_eq, not_true_eq_false]

/-! ## Lemmas on the slots of the matrix info -/

/-- Writing back the handle a slot holds changes nothing. -/
theorem set_analysis_slot_self (descr : rocsparse_mat_descr) (minfo : rocsparse_mat_info) :
    set_analysis_slot descr minfo (analysis_slot descr minfo) = minfo := by
  unfold analysis_slot set_analysis_slot
  by_cases hu : descr.fill_mode = rocsparse_fill_mode_upper
  · simp [hu]
  · simp [hu]

/-- The sequence "clear, create, perform analysis" when the release of the slot
and the analysis return: the slot holds the handle `store.length`, a handle no
object has had before. -/
theorem rebuild_analysis_released (total_spin : Nat) (handle : rocsparse_handle)
    (trans m nnz : Int) (descr : rocsparse_mat_descr) (rp ci : List Int)
    (minfo : rocsparse_mat_info) (slot : Option Nat)
    (set : rocsparse_mat_info → Option Nat → rocsparse_mat_info) (store store1 : InfoStore)
    (buf : Scratch) (cr : CsrtrResult)
    (hd : rocsparse_destroy_csrtr_info store slot = some (rocsparse_status.success, store1))
    (hcr : rocsparse_csrtr_analysis total_spin handle trans m nnz descr rp ci empty_csrtr_info
      = some cr) :
    rebuild_analysis total_spin handle trans m nnz descr rp ci minfo slot set store buf
      = some { status := cr.status, info := some (set minfo (some store.length)),
               store := store1 ++ [some { refs := 1, obj := cr.info }],
               temp_buffer := some cr.temp_buffer } := by
  obtain ⟨_, hlen, _, _⟩ := destroy_csrtr_info_spec store store1 slot _ hd
  have hlook : InfoStore.lookup
      (store1 ++ [some { refs := 1, obj := empty_csrtr_info }]) (some store1.length)
      = some empty_csrtr_info := by
    simp [InfoStore.lookup]
  have hupd : ∀ o, InfoStore.update
      (store1 ++ [some { refs := 1, obj := empty_csrtr_info }]) store1.length o
      = store1 ++ [some { refs := 1, obj := o }] := by
    intro o
    simp [InfoStore.update]
  simp only [rebuild_analysis, hd, Option.some_bind,
    rocsparse_create_csrtr_info, ne_eq, not_true_eq_false, if_false, hlook, Option.getD_some,
    hupd, hcr, Option.map_some']
  rw [hlen]

/-- An analysis call that returns leaves a matrix info that differs from the one
it was given at most in the slot of the fill mode of the descriptor. -/
theorem analysis_template_slot (total_spin : Nat) (handle : Option rocsparse_handle)
    (trans m nnz : Int) (descr : rocsparse_mat_descr) (csr_val : Option (List Rat))
    (csr_row_ptr csr_col_ind : Option (List Int)) (minfo : rocsparse_mat_info)
    (store : InfoStore) (analysis solve : Int) (temp_buffer : Option Scratch)
    (r : AnalysisResult)
    (h : rocsparse_csrsv_analysis_template total_spin handle trans m nnz (some descr) csr_val
      csr_row_ptr csr_col_ind (some minfo) store analysis solve temp_buffer = some r) :
    ∃ s, r.info = some (set_analysis_slot descr minfo s) := by
  have hret : ∀ (s : rocsparse_status) (st : InfoStore) (b : Option Scratch),
      (some { status := s, info := some minfo, store := st, temp_buffer := b }
        : Option AnalysisResult) = some r →
      ∃ s, r.info = some (set_analysis_slot descr minfo s) := by
    intro s st b hs
    cases hs
    exact ⟨analysis_slot descr minfo, by rw [set_analysis_slot_self]⟩
  have hreb : ∀ (hd : rocsparse_handle) (rp ci : List Int) (buf : Scratch),
      rebuild_analysis total_spin hd trans m nnz descr rp ci minfo (analysis_slot descr minfo)
        (fun i s => set_analysis_slot descr i s) store buf = some r →
      ∃ s, r.info = some (set_analysis_slot descr minfo s) := by
    intro hd rp ci buf hs
    obtain ⟨_, cr, _, _, hr⟩ := rebuild_analysis_spec _ _ _ _ _ _ _ _ _ _ _ _ _ _ hs
    exact ⟨some store.length, by rw [hr]⟩
  unfold rocsparse_csrsv_analysis_template at h
  cases handle with
  | none => exact hret _ _ _ h
  | some hd =>
    cases csr_row_ptr with
    | none =>
      simp only at h
      split_ifs at h <;> exact hret _ _ _ h
    | some rp =>
      cases csr_col_ind with
      | none =>
        simp only at h
        split_ifs at h <;> exact hret _ _ _ h
      | some ci =>
        cases csr_val with
        | none =>
          simp only at h
          split_ifs at h <;> exact hret _ _ _ h
        | some val =>
          cases temp_buffer with
          | none =>
            simp only at h
            split_ifs at h <;> exact hret _ _ _ h
          | some buf =>
            simp only at h
            by_cases c1 : descr.base ≠ rocsparse_index_base_zero
                ∧ descr.base ≠ rocsparse_index_base_one
            · rw [if_pos c1] at h
              exact hret _ _ _ h
            rw [if_neg c1] at h
            by_cases c2 : descr.type ≠ rocsparse_matrix_type_general
            · rw [if_pos c2] at h
              exact hret _ _ _ h
            rw [if_neg c2] at h
            by_cases c3 : analysis ≠ rocsparse_analysis_policy_reuse
                ∧ analysis ≠ rocsparse_analysis_policy_force
            · rw [if_pos c3] at h
              exact hret _ _ _ h
            rw [if_neg c3] at h
            by_cases c4 : solve ≠ rocsparse_solve_policy_auto
            · rw [if_pos c4] at h
              exact hret _ _ _ h
            rw [if_neg c4] at h
            by_cases c5 : m < 0
            · rw [if_pos c5] at h
              exact hret _ _ _ h
            rw [if_neg c5] at h
            by_cases c6 : nnz < 0
            · rw [if_pos c6] at h
              exact hret _ _ _ h
            rw [if_neg c6] at h
            by_cases c7 : m = 0 ∨ nnz = 0
            · rw [if_pos c7] at h
              exact hret _ _ _ h
            rw [if_neg c7] at h
            by_cases hu : descr.fill_mode = rocsparse_fill_mode_upper
            · have hs : analysis_slot descr minfo = minfo.csrsv_upper_info := by
                simp [analysis_slot, hu]
              have hf : (fun (i : rocsparse_mat_info) (s : Option Nat) =>
                  set_analysis_slot descr i s)
                  = fun i s => { i with csrsv_upper_info := s } := by
                funext i s
                simp [set_analysis_slot, hu]
              rw [if_pos hu] at h
              exact hreb hd rp ci buf (by rw [hs, hf]; exact h)
            · have hs : analysis_slot descr minfo = minfo.csrsv_lower_info := by
                simp [analysis_slot, hu]
              have hf : (fun (i : rocsparse_mat_info) (s : Option Nat) =>
                  set_analysis_slot descr i s)
                  = fun i s => { i with csrsv_lower_info := s } := by
                funext i s
                simp [set_analysis_slot, hu]
              rw [if_neg hu] at h
              by_cases c8 : analysis = rocsparse_analysis_policy_reuse
                  ∧ minfo.csrsv_lower_info ≠ none
              · rw [if_pos c8] at h
                exact hret _ _ _ h
              rw [if_neg c8] at h
              by_cases c9 : analysis = rocsparse_analysis_policy_reuse
                  ∧ minfo.csrilu0_info ≠ none
              · rw [if_pos c9] at h
                cases h
                exact ⟨minfo.csrilu0_info, by simp [set_analysis_slot, hu]⟩
              rw [if_neg c9] at h
              exact hreb hd rp ci buf (by rw [hs, hf]; exact h)

/-- The solve entry point reads the matrix info only through the slot of the
fill mode of the descriptor. -/
theorem solve_template_slot (handle : Option rocsparse_handle) (trans m nnz : Int)
    (alpha : Option Rat) (descr : rocsparse_mat_descr) (csr_val : Option (List Rat))
    (csr_row_ptr csr_col_ind : Option (List Int)) (minfo1 minfo2 : rocsparse_mat_info)
    (store : InfoStore) (x y : Option (List Rat)) (policy : Int) (temp_buffer : Option Scratch)
    (h : analysis_slot descr minfo1 = analysis_slot descr minfo2) :
    rocsparse_csrsv_solve_template handle trans m nnz alpha (some descr) csr_val csr_row_ptr
        csr_col_ind (some minfo1) store x y policy temp_buffer
      = rocsparse_csrsv_solve_template handle trans m nnz alpha (some descr) csr_val csr_row_ptr
        csr_col_ind (some minfo2) store x y policy temp_buffer := by
  unfold analysis_slot at h
  cases handle with
  | none => rfl
  | some hd =>
    unfold rocsparse_csrsv_solve_template
    simp only []
    rw [h]

/-- The release of a handle whose object has a single holder frees the cell. -/
theorem destroy_last_holder (store : InfoStore) (a : Nat) (cell : SharedInfo)
    (hcell : store[a]? = some (some cell)) (hrefs : cell.refs ≤ 1) :
    rocsparse_destroy_csrtr_info store (some a)
      = some (rocsparse_status.success, store.set a none) := by
  simp only [rocsparse_destroy_csrtr_info, hcell, hrefs, if_true]

/-! ## Lemmas on the block sum reduction -/

/-- Reading an entry other than the one written. -/
theorem rat_getD_set_ne (xs : List Rat) (i j : Nat) (v : Rat) (h : i ≠ j) :
    (xs.set i v).getD j 0 = xs.getD j 0 := by
  simp [List.getD, List.getElem?_set_ne h]

/-- Reading the entry written. -/
theorem rat_getD_set_self (xs : List Rat) (i : Nat) (v : Rat) (h : i < xs.length) :
    (xs.set i v).getD i 0 = v := by
  simp [List.getD, List.getElem?_set_self h]

/-- An entry inside the array. -/
theorem rat_getElem?_getD (xs : List Rat) (i : Nat) (h : i < xs.length) :
    xs[i]? = some (xs.getD i 0) := by
  simp [List.getD, List.getElem?_eq_getElem h]

/-- What one thread does to the array. -/
theorem sum_reduce_thread_spec (n s : Nat) (x : List Rat) (t : Nat) (hx : n ≤ x.length) :
    ∃ x1, sum_reduce_thread n s x t = some x1 ∧ x1.length = x.length ∧
      ∀ i, x1.getD i 0
        = if i = t ∧ sum_reduce_active n s t then x.getD t 0 + x.getD (t + s) 0
          else x.getD i 0 := by
  unfold sum_reduce_thread
  by_cases ha : sum_reduce_active n s t
  · have h1 : t + s < x.length := by
      unfold sum_reduce_active at ha
      omega
    have h0 : t < x.length := by omega
    rw [if_pos ha, rat_getElem?_getD x t h0, rat_getElem?_getD x (t + s) h1]
    refine ⟨_, rfl, by simp, ?_⟩
    intro i
    by_cases hi : i = t
    · subst hi
      rw [if_pos ⟨rfl, ha⟩, rat_getD_set_self _ _ _ h0]
    · rw [if_neg (fun h => hi h.1), rat_getD_set_ne _ _ _ _ (fun h => hi h.symm)]
  · rw [if_neg ha]
    refine ⟨x, rfl, rfl, ?_⟩
    intro i
    rw [if_neg (fun h => ha h.2)]

/-- The threads of a list without repetition, one after the other: every active
thread of the list has added the element `s` places further on to its own, all
other elements are as before. -/
theorem sum_reduce_threads_spec (n s : Nat) (l : List Nat) (hl : l.Nodup) :
    ∀ (x : List Rat), n ≤ x.length →
      ∃ x', l.foldlM (sum_reduce_thread n s) x = some x' ∧ x'.length = x.length ∧
        ∀ i, x'.getD i 0
          = if i ∈ l ∧ sum_reduce_active n s i then x.getD i 0 + x.getD (i + s) 0
            else x.getD i 0 := by
  induction l with
  | nil =>
    intro x _
    exact ⟨x, rfl, rfl, fun i => by simp⟩
  | cons t l ih =>
    intro x hx
    obtain ⟨x1, h1, hlen1, hval1⟩ := sum_reduce_thread_spec n s x t hx
    obtain ⟨x', h2, hlen2, hval2⟩ := ih (List.nodup_cons.mp hl).2 x1 (by omega)
    have htl : t ∉ l := (List.nodup_cons.mp hl).1
    refine ⟨x', ?_, by omega, ?_⟩
    · rw [List.foldlM_cons, h1]
      exact h2
    · intro i
      rw [hval2 i]
      by_cases hit : i = t
      · subst hit
        have hn : ¬ (i ∈ l ∧ sum_reduce_active n s i) := fun h => htl h.1
        rw [if_neg hn, hval1 i]
        by_cases ha : sum_reduce_active n s i
        · rw [if_pos ⟨rfl, ha⟩, if_pos ⟨List.mem_cons_self _ _, ha⟩]
        · rw [if_neg (fun h => ha h.2), if_neg (fun h => ha h.2)]
      · have e1 : x1.getD i 0 = x.getD i 0 := by
          rw [hval1 i, if_neg (fun h => hit h.1)]
        by_cases hil : i ∈ l ∧ sum_reduce_active n s i
        · have e2 : x1.getD (i + s) 0 = x.getD (i + s) 0 := by
            rw [hval1 (i + s)]
            apply if_neg
            intro h
            have ht := h.2
            unfold sum_reduce_active at ht
            omega
          rw [if_pos hil, if_pos ⟨List.mem_cons_of_mem _ hil.1, hil.2⟩, e1, e2]
        · have hn : ¬ (i ∈ t :: l ∧ sum_reduce_active n s i) := by
            intro h
            rcases List.mem_cons.mp h.1 with h0 | h0
            · exact hit h0
            · exact hil ⟨h0, h.2⟩
          rw [if_neg hil, if_neg hn, e1]

/-- Sum of the entries `0 .. n - 1` of an array. -/
theorem sum_range_getD_take (x : List Rat) (n : Nat) (h : n ≤ x.length) :
    ∑ i in Finset.range n, x.getD i 0 = (x.take n).sum := by
  induction n with
  | zero => simp
  | succ n ih =>
    have hn : n < x.length := by omega
    rw [Finset.sum_range_succ, ih (by omega), List.take_succ, List.sum_append,
      rat_getElem?_getD x n hn]
    simp

/-- A sum whose terms vanish from `k` on. -/
theorem sum_range_ite_lt (f : Nat → Rat) (k s : Nat) (h : k ≤ s) :
    ∑ i in Finset.range s, (if i < k then f i else 0) = ∑ i in Finset.range k, f i := by
  obtain ⟨d, rfl⟩ := Nat.exists_eq_add_of_le h
  rw [Finset.sum_range_add]
  have h1 : ∑ i in Finset.range k, (if i < k then f i else 0) = ∑ i in Finset.range k, f i := by
    apply Finset.sum_congr rfl
    intro i hi
    rw [if_pos (Finset.mem_range.mp hi)]
  have h2 : ∑ i in Finset.range d, (if k + i < k then f (k + i) else 0) = 0 := by
    apply Finset.sum_eq_zero
    intro i _
    rw [if_neg (by omega)]
  rw [h1, h2, add_zero]

/-- One step with its barrier: when the first `min n (2 s)` entries add up to `S`
before, the first `min n s` entries add up to `S` afterwards. -/
theorem sum_reduce_step_spec (n s s2 : Nat) (sched : List Nat) (x : List Rat) (S : Rat)
    (hs2 : s2 = 2 * s) (hperm : sched.Perm (List.range n)) (hx : n ≤ x.length)
    (hsum : ∑ i in Finset.range (min n s2), x.getD i 0 = S) :
    ∃ x', sum_reduce_step n s sched x = some x' ∧ x'.length = x.length ∧
      ∑ i in Finset.range (min n s), x'.getD i 0 = S := by
  subst hs2
  unfold sum_reduce_step
  by_cases hns : n > s
  · rw [if_pos hns]
    have hnd : sched.Nodup := hperm.nodup_iff.mpr (List.nodup_range n)
    obtain ⟨x', h1, hlen, hval⟩ := sum_reduce_threads_spec n s sched hnd x hx
    refine ⟨x', h1, hlen, ?_⟩
    have hmin : min n s = s := by omega
    have hk : min n (2 * s) = s + (min n (2 * s) - s) := by omega
    rw [hmin]
    rw [hk, Finset.sum_range_add] at hsum
    rw [← hsum, ← sum_range_ite_lt (fun i => x.getD (s + i) 0) (min n (2 * s) - s) s (by omega),
      ← Finset.sum_add_distrib]
    apply Finset.sum_congr rfl
    intro i hi
    have his : i < s := Finset.mem_range.mp hi
    rw [hval i]
    by_cases ha : i + s < n
    · have hmem : i ∈ sched := hperm.mem_iff.mpr (List.mem_range.mpr (by omega))
      rw [if_pos ⟨hmem, his, ha⟩, if_pos (by omega), Nat.add_comm i s]
    · rw [if_neg (fun h => ha h.2.2), if_neg (by omega), add_zero]
  · rw [if_neg hns]
    refine ⟨x, rfl, rfl, ?_⟩
    rw [← hsum]
    have e1 : min n s = n := by omega
    have e2 : min n (2 * s) = n := by omega
    rw [e1, e2]

/-- The ten steps: the first entry ends as the sum of the first `n` entries. -/
theorem sum_reduce_spec (n : Nat) (sched : Nat → List Nat) (x : List Rat)
    (hn1 : 1 ≤ n) (hn : n ≤ 1024) (hx : n ≤ x.length)
    (hperm : ∀ s, (sched s).Perm (List.range n)) :
    ∃ x', rocsparse_sum_reduce n sched x = some x' ∧ x'.length = x.length ∧
      x'[0]? = some ((x.take n).sum) := by
  have h0 : ∑ i in Finset.range (min n 1024), x.getD i 0 = (x.take n).sum := by
    rw [Nat.min_eq_left hn]
    exact sum_range_getD_take x n hx
  obtain ⟨x1, e1, l1, h1⟩ := sum_reduce_step_spec n 512 1024 (sched 512) x _ rfl (hperm _) hx h0
  obtain ⟨x2, e2, l2, h2⟩ := sum_reduce_step_spec n 256 512 (sched 256) x1 _ rfl (hperm _)
    (by omega) h1
  obtain ⟨x3, e3, l3, h3⟩ := sum_reduce_step_spec n 128 256 (sched 128) x2 _ rfl (hperm _)
    (by omega) h2
  obtain ⟨x4, e4, l4, h4⟩ := sum_reduce_step_spec n 64 128 (sched 64) x3 _ rfl (hperm _)
    (by omega) h3
  obtain ⟨x5, e5, l5, h5⟩ := sum_reduce_step_spec n 32 64 (sched 32) x4 _ rfl (hperm _)
    (by omega) h4
  obtain ⟨x6, e6, l6, h6⟩ := sum_reduce_step_spec n 16 32 (sched 16) x5 _ rfl (hperm _)
    (by omega) h5
  obtain ⟨x7, e7, l7, h7⟩ := sum_reduce_step_spec n 8 16 (sched 8) x6 _ rfl (hperm _)
    (by omega) h6
  obtain ⟨x8, e8, l8, h8⟩ := sum_reduce_step_spec n 4 8 (sched 4) x7 _ rfl (hperm _)
    (by omega) h7
  obtain ⟨x9, e9, l9, h9⟩ := sum_reduce_step_spec n 2 4 (sched 2) x8 _ rfl (hperm _)
    (by omega) h8
  obtain ⟨x10, e10, l10, h10⟩ := sum_reduce_step_spec n 1 2 (sched 1) x9 _ rfl (hperm _)
    (by omega) h9
  refine ⟨x10, ?_, by omega, ?_⟩
  · simp only [rocsparse_sum_reduce, e1, e2, e3, e4, e5, e6, e7, e8, e9, e10, Option.bind_eq_bind,
      Option.some_bind]
  · rw [Nat.min_eq_right hn1, Finset.sum_range_one] at h10
    rw [rat_getElem?_getD x10 0 (by omega), h10]

/-! ## Lemmas on the argument checks -/

/-- The two statuses `rocsparse_csrtr_analysis` can return. -/
theorem csrtr_analysis_status (total_spin : Nat) (handle : rocsparse_handle) (trans m nnz : Int)
    (descr : rocsparse_mat_descr) (rp ci : List Int) (info : rocsparse_csrtr_info)
    (cr : CsrtrResult)
    (h : rocsparse_csrtr_analysis total_spin handle trans m nnz descr rp ci info = some cr) :
    cr.status = rocsparse_status.success ∨ cr.status = rocsparse_status.arch_mismatch := by
  unfold rocsparse_csrtr_analysis at h
  by_cases hwf : handle.wavefront_size = 32 ∨ handle.wavefront_size = 64
  · simp only [hwf, if_true] at h
    obtain ⟨p, _, hp⟩ := Option.bind_eq_some.mp h
    by_cases hd2 : p.2.max_depth.toNat ≤ p.2.rows_per_level.length
    · rw [if_pos hd2] at hp
      obtain ⟨st, _, hst⟩ := Option.map_eq_some'.mp hp
      left
      rw [← hst]
    · rw [if_neg hd2] at hp
      cases hp
  · simp only [hwf, if_false, Option.some.injEq] at h
    right
    rw [← h]

/-- The condition under which the analysis entry point answers `invalid_value`:
the index base is neither zero nor one, or the base is valid, the matrix type is
general and one of the two policies is not supported. -/
theorem analysis_invalid_value_cond (total_spin : Nat) (handle : rocsparse_handle)
    (trans m nnz : Int) (descr : rocsparse_mat_descr) (csr_val : Option (List Rat))
    (csr_row_ptr csr_col_ind : Option (List Int)) (minfo : rocsparse_mat_info)
    (store : InfoStore) (analysis solve : Int) (temp_buffer : Option Scratch)
    (r : AnalysisResult)
    (h : rocsparse_csrsv_analysis_template total_spin (some handle) trans m nnz (some descr)
      csr_val csr_row_ptr csr_col_ind (some minfo) store analysis solve temp_buffer = some r)
    (hs : r.status = rocsparse_status.invalid_value) :
    (descr.base ≠ rocsparse_index_base_zero ∧ descr.base ≠ rocsparse_index_base_one) ∨
    ((descr.base = rocsparse_index_base_zero ∨ descr.base = rocsparse_index_base_one) ∧
      descr.type = rocsparse_matrix_type_general ∧
      ((analysis ≠ rocsparse_analysis_policy_reuse ∧ analysis ≠ rocsparse_analysis_policy_force)
        ∨ solve ≠ rocsparse_solve_policy_auto)) := by
  by_cases c1 : descr.base ≠ rocsparse_index_base_zero ∧ descr.base ≠ rocsparse_index_base_one
  · exact Or.inl c1
  have hb : descr.base = rocsparse_index_base_zero ∨ descr.base = rocsparse_index_base_one := by
    by_contra hcon
    exact c1 ⟨fun h0 => hcon (Or.inl h0), fun h1 => hcon (Or.inr h1)⟩
  right
  have hret : ∀ (s : rocsparse_status) (i : Option rocsparse_mat_info) (st : InfoStore)
      (b : Option Scratch), s ≠ rocsparse_status.invalid_value →
      (some { status := s, info := i, store := st, temp_buffer := b } : Option AnalysisResult)
        = some r → False := by
    intro s i st b hne he
    cases he
    exact hne hs
  have hreb : ∀ (rp ci : List Int) (slot : Option Nat)
      (set : rocsparse_mat_info → Option Nat → rocsparse_mat_info) (buf : Scratch),
      rebuild_analysis total_spin handle trans m nnz descr rp ci minfo slot set store buf = some r
        → False := by
    intro rp ci slot set buf he
    obtain ⟨_, cr, _, hc, hr⟩ := rebuild_analysis_spec _ _ _ _ _ _ _ _ _ _ _ _ _ _ he
    have hst : r.status = cr.status := by rw [hr]
    rcases csrtr_analysis_status _ _ _ _ _ _ _ _ _ _ hc with h0 | h0
    · rw [hst, h0] at hs
      cases hs
    · rw [hst, h0] at hs
      cases hs
  unfold rocsparse_csrsv_analysis_template at h
  simp only at h
  rw [if_neg c1] at h
  by_cases c2 : descr.type ≠ rocsparse_matrix_type_general
  · rw [if_pos c2] at h
    exact (hret _ _ _ _ (by decide) h).elim
  rw [if_neg c2] at h
  have ht : descr.type = rocsparse_matrix_type_general := by
    by_contra hcon
    exact c2 hcon
  by_cases c3 : analysis ≠ rocsparse_analysis_policy_reuse
      ∧ analysis ≠ rocsparse_analysis_policy_force
  · exact ⟨hb, ht, Or.inl c3⟩
  rw [if_neg c3] at h
  by_cases c4 : solve ≠ rocsparse_solve_policy_auto
  · exact ⟨hb, ht, Or.inr c4⟩
  rw [if_neg c4] at h
  exfalso
  by_cases c5 : m < 0
  · rw [if_pos c5] at h
    exact hret _ _ _ _ (by decide) h
  rw [if_neg c5] at h
  by_cases c6 : nnz < 0
  · rw [if_pos c6] at h
    exact hret _ _ _ _ (by decide) h
  rw [if_neg c6] at h
  cases csr_row_ptr with
  | none => exact hret _ _ _ _ (by decide) h
  | some rp =>
    cases csr_col_ind with
    | none => exact hret _ _ _ _ (by decide) h
    | some ci =>
      cases csr_val with
      | none => exact hret _ _ _ _ (by decide) h
      | some val =>
        cases temp_buffer with
        | none => exact hret _ _ _ _ (by decide) h
        | some buf =>
          simp only at h
          by_cases c7 : m = 0 ∨ nnz = 0
          · rw [if_pos c7] at h
            exact hret _ _ _ _ (by decide) h
          rw [if_neg c7] at h
          by_cases hu : descr.fill_mode = rocsparse_fill_mode_upper
          · rw [if_pos hu] at h
            exact hreb _ _ _ _ _ h
          rw [if_neg hu] at h
          by_cases c8 : analysis = rocsparse_analysis_policy_reuse
              ∧ minfo.csrsv_lower_info ≠ none
          · rw [if_pos c8] at h
            exact hret _ _ _ _ (by decide) h
          rw [if_neg c8] at h
          by_cases c9 : analysis = rocsparse_analysis_policy_reuse
              ∧ minfo.csrilu0_info ≠ none
          · rw [if_pos c9] at h
            exact hret _ _ _ _ (by decide) h
          rw [if_neg c9] at h
          exact hreb _ _ _ _ _ h

/-- The analysis entry point with an index base that is neither zero nor one. -/
theorem analysis_base_invalid (total_spin : Nat) (handle : rocsparse_handle)
    (trans m nnz : Int) (descr : rocsparse_mat_descr) (csr_val : Option (List Rat))
    (csr_row_ptr csr_col_ind : Option (List Int)) (minfo : rocsparse_mat_info)
    (store : InfoStore) (analysis solve : Int) (temp_buffer : Option Scratch)
    (c1 : descr.base ≠ rocsparse_index_base_zero ∧ descr.base ≠ rocsparse_index_base_one) :
    rocsparse_csrsv_analysis_template total_spin (some handle) trans m nnz (some descr)
        csr_val csr_row_ptr csr_col_ind (some minfo) store analysis solve temp_buffer
      = some { status := rocsparse_status.invalid_value, info := some minfo, store := store,
               temp_buffer := temp_buffer } := by
  unfold rocsparse_csrsv_analysis_template
  simp only
  rw [if_pos c1]

/-- The analysis entry point with a valid index base and a matrix type other than
general. -/
theorem analysis_type_unsupported (total_spin : Nat) (handle : rocsparse_handle)
    (trans m nnz : Int) (descr : rocsparse_mat_descr) (csr_val : Option (List Rat))
    (csr_row_ptr csr_col_ind : Option (List Int)) (minfo : rocsparse_mat_info)
    (store : InfoStore) (analysis solve : Int) (temp_buffer : Option Scratch)
    (hbase : descr.base = rocsparse_index_base_zero ∨ descr.base = rocsparse_index_base_one)
    (c2 : descr.type ≠ rocsparse_matrix_type_general) :
    rocsparse_csrsv_analysis_template total_spin (some handle) trans m nnz (some descr)
        csr_val csr_row_ptr csr_col_ind (some minfo) store analysis solve temp_buffer
      = some { status := rocsparse_status.not_implemented, info := some minfo, store := store,
               temp_buffer := temp_buffer } := by
  have c1 : ¬ (descr.base ≠ rocsparse_index_base_zero
      ∧ descr.base ≠ rocsparse_index_base_one) := by
    rcases hbase with h | h <;> simp [h]
  unfold rocsparse_csrsv_analysis_template
  simp only
  rw [if_neg c1, if_pos c2]

/-- The analysis entry point with a valid index base, the matrix type general and
a policy that is not supported. -/
theorem analysis_policy_invalid (total_spin : Nat) (handle : rocsparse_handle)
    (trans m nnz : Int) (descr : rocsparse_mat_descr) (csr_val : Option (List Rat))
    (csr_row_ptr csr_col_ind : Option (List Int)) (minfo : rocsparse_mat_info)
    (store : InfoStore) (analysis solve : Int) (temp_buffer : Option Scratch)
    (hbase : descr.base = rocsparse_index_base_zero ∨ descr.base = rocsparse_index_base_one)
    (htype : descr.type = rocsparse_matrix_type_general)
    (hpol : (analysis ≠ rocsparse_analysis_policy_reuse
        ∧ analysis ≠ rocsparse_analysis_policy_force) ∨ solve ≠ rocsparse_solve_policy_auto) :
    rocsparse_csrsv_analysis_template total_spin (some handle) trans m nnz (some descr)
        csr_val csr_row_ptr csr_col_ind (some minfo) store analysis solve temp_buffer
      = some { status := rocsparse_status.invalid_value, info := some minfo, store := store,
               temp_buffer := temp_buffer } := by
  have c1 : ¬ (descr.base ≠ rocsparse_index_base_zero
      ∧ descr.base ≠ rocsparse_index_base_one) := by
    rcases hbase with h | h <;> simp [h]
  have c2 : ¬ descr.type ≠ rocsparse_matrix_type_general := fun h => h htype
  unfold rocsparse_csrsv_analysis_template
  simp only
  rw [if_neg c1, if_neg c2]
  by_cases c3 : analysis ≠ rocsparse_analysis_policy_reuse
      ∧ analysis ≠ rocsparse_analysis_policy_force
  · rw [if_pos c3]
  · rw [if_neg c3]
    rcases hpol with h | h
    · exact absurd h c3
    · rw [if_pos h]

/-- The analysis entry point with a negative size, the checks before the sizes
being passed. -/
theorem analysis_negative_size (total_spin : Nat) (handle : rocsparse_handle)
    (trans m nnz : Int) (descr : rocsparse_mat_descr) (csr_val : Option (List Rat))
    (csr_row_ptr csr_col_ind : Option (List Int)) (minfo : rocsparse_mat_info)
    (store : InfoStore) (analysis : Int) (temp_buffer : Option Scratch)
    (hbase : descr.base = rocsparse_index_base_zero ∨ descr.base = rocsparse_index_base_one)
    (htype : descr.type = rocsparse_matrix_type_general)
    (hpol : analysis = rocsparse_analysis_policy_reuse
      ∨ analysis = rocsparse_analysis_policy_force)
    (hneg : m < 0 ∨ nnz < 0) :
    rocsparse_csrsv_analysis_template total_spin (some handle) trans m nnz (some descr)
        csr_val csr_row_ptr csr_col_ind (some minfo) store analysis rocsparse_solve_policy_auto
        temp_buffer
      = some { status := rocsparse_status.invalid_size, info := some minfo, store := store,
               temp_buffer := temp_buffer } := by
  have c1 : ¬ (descr.base ≠ rocsparse_index_base_zero
      ∧ descr.base ≠ rocsparse_index_base_one) := by
    rcases hbase with h | h <;> simp [h]
  have c2 : ¬ descr.type ≠ rocsparse_matrix_type_general := fun h => h htype
  have c3 : ¬ (analysis ≠ rocsparse_analysis_policy_reuse
      ∧ analysis ≠ rocsparse_analysis_policy_force) := by
    rcases hpol with h | h <;> simp [h]
  have c4 : ¬ rocsparse_solve_policy_auto ≠ rocsparse_solve_policy_auto := fun h => h rfl
  unfold rocsparse_csrsv_analysis_template
  simp only
  rw [if_neg c1, if_neg c2, if_neg c3, if_neg c4]
  by_cases c5 : m < 0
  · rw [if_pos c5]
  · rw [if_neg c5]
    rcases hneg with h | h
    · exact absurd h c5
    · rw [if_pos h]

/-- The solve entry point up to the size checks, in the order of the source: index
base, matrix type, `m`, `nnz`. -/
theorem solve_template_early (handle : rocsparse_handle) (trans m nnz : Int)
    (alpha : Option Rat) (descr : rocsparse_mat_descr) (csr_val : Option (List Rat))
    (csr_row_ptr csr_col_ind : Option (List Int)) (minfo : rocsparse_mat_info)
    (store : InfoStore) (x y : Option (List Rat)) (policy : Int) (temp_buffer : Option Scratch)
    (s : rocsparse_status)
    (h : (descr.base ≠ rocsparse_index_base_zero ∧ descr.base ≠ rocsparse_index_base_one
          ∧ s = rocsparse_status.invalid_value)
      ∨ ((descr.base = rocsparse_index_base_zero ∨ descr.base = rocsparse_index_base_one)
          ∧ descr.type ≠ rocsparse_matrix_type_general ∧ s = rocsparse_status.not_implemented)
      ∨ ((descr.base = rocsparse_index_base_zero ∨ descr.base = rocsparse_index_base_one)
          ∧ descr.type = rocsparse_matrix_type_general ∧ (m < 0 ∨ nnz < 0)
          ∧ s = rocsparse_status.invalid_size)) :
    rocsparse_csrsv_solve_template (some handle) trans m nnz alpha (some descr) csr_val
        csr_row_ptr csr_col_ind (some minfo) store x y policy temp_buffer
      = some { status := s, y := y, temp_buffer := temp_buffer, store := store } := by
  unfold rocsparse_csrsv_solve_template
  simp only
  rcases h with ⟨h0, h1, hs⟩ | ⟨hbase, c2, hs⟩ | ⟨hbase, htype, hneg, hs⟩
  · rw [if_pos ⟨h0, h1⟩, hs]
  · have c1 : ¬ (descr.base ≠ rocsparse_index_base_zero
        ∧ descr.base ≠ rocsparse_index_base_one) := by
      rcases hbase with h | h <;> simp [h]
    rw [if_neg c1, if_pos c2, hs]
  · have c1 : ¬ (descr.base ≠ rocsparse_index_base_zero
        ∧ descr.base ≠ rocsparse_index_base_one) := by
      rcases hbase with h | h <;> simp [h]
    have c2 : ¬ descr.type ≠ rocsparse_matrix_type_general := fun h => h htype
    rw [if_neg c1, if_neg c2, hs]
    by_cases c5 : m < 0
    · rw [if_pos c5]
    · rw [if_neg c5]
      rcases hneg with h | h
      · exact absurd h c5
      · rw [if_pos h]

/-- The workspace size entry point up to the size checks, in the order of the
source: index base, matrix type, `m`, `nnz`. -/
theorem buffer_size_early (scan_size : Int → ScanSizeQuery) (handle : rocsparse_handle)
    (trans m nnz : Int) (descr : rocsparse_mat_descr) (csr_val : Option (List Rat))
    (csr_row_ptr csr_col_ind : Option (List Int)) (minfo : rocsparse_mat_info)
    (buffer_size : Option Nat) (s : rocsparse_status)
    (h : (descr.base ≠ rocsparse_index_base_zero ∧ descr.base ≠ rocsparse_index_base_one
          ∧ s = rocsparse_status.invalid_value)
      ∨ ((descr.base = rocsparse_index_base_zero ∨ descr.base = rocsparse_index_base_one)
          ∧ descr.type ≠ rocsparse_matrix_type_general ∧ s = rocsparse_status.not_implemented)
      ∨ ((descr.base = rocsparse_index_base_zero ∨ descr.base = rocsparse_index_base_one)
          ∧ descr.type = rocsparse_matrix_type_general ∧ (m < 0 ∨ nnz < 0)
          ∧ s = rocsparse_status.invalid_size)) :
    rocsparse_csrsv_buffer_size_template scan_size (some handle) trans m nnz (some descr)
        csr_val csr_row_ptr csr_col_ind (some minfo) buffer_size
      = (s, buffer_size) := by
  unfold rocsparse_csrsv_buffer_size_template
  simp only
  rcases h with ⟨h0, h1, hs⟩ | ⟨hbase, c2, hs⟩ | ⟨hbase, htype, hneg, hs⟩
  · rw [if_pos ⟨h0, h1⟩, hs]
  · have c1 : ¬ (descr.base ≠ rocsparse_index_base_zero
        ∧ descr.base ≠ rocsparse_index_base_one) := by
      rcases hbase with h | h <;> simp [h]
    rw [if_neg c1, if_pos c2, hs]
  · have c1 : ¬ (descr.base ≠ rocsparse_index_base_zero
        ∧ descr.base ≠ rocsparse_index_base_one) := by
      rcases hbase with h | h <;> simp [h]
    have c2 : ¬ descr.type ≠ rocsparse_matrix_type_general := fun h => h htype
    rw [if_neg c1, if_neg c2, hs]
    by_cases c5 : m < 0
    · rw [if_pos c5]
    · rw [if_neg c5]
      rcases hneg with h | h
      · exact absurd h c5
      · rw [if_pos h]

/-! ## Lemmas on the row map as a permutation -/

/-- A `rows_per_level` array with `max_depth` entries, entry `k` being the number
of rows with a `done` value of at most `k + 1`, is the inclusive scan of the
per-level counts. -/
theorem rows_per_level_eq_scan (D rpl : List Int) (M : Int) (hpos : ∀ d ∈ D, 1 ≤ d)
    (hrlen : rpl.length = M.toNat)
    (hrpl : ∀ k, k < M.toNat →
      rpl[k]? = some ((D.countP (fun d => decide (d ≤ (k : Int) + 1)) : Nat) : Int)) :
    rpl = InclusiveSum (levelCounts D M) := by
  apply List.ext_getElem?
  intro k
  by_cases hk : k < M.toNat
  · rw [hrpl k hk, rows_per_level_getElem? D M hpos k hk]
    congr 2
    unfold levelOffset
    apply List.countP_congr
    intro a _
    simp only [decide_eq_true_eq]
    omega
  · have h1 : rpl.length ≤ k := by omega
    have h2 : (InclusiveSum (levelCounts D M)).length ≤ k := by
      unfold InclusiveSum
      rw [inclusiveSumFrom_length]
      simp only [levelCounts, List.length_map, List.length_range]
      omega
    rw [List.getElem?_eq_none h1, List.getElem?_eq_none h2]

/-- Iteration `n` of the row-map loop: the loop has run the iterations before it
without leaving an array, and the iteration writes `n` at the position `rowPos`. -/
theorem row_map_iteration (D : List Int) (M : Int) (m n : Nat) (hm : D.length = m) (hn : n < m)
    (hpos : ∀ d ∈ D, 1 ≤ d) (hmax : ∀ d ∈ D, d ≤ M) :
    ∃ s0 s1, (List.range n).foldlM (row_map_step D (InclusiveSum (levelCounts D M)))
        (row_map_init m M) = some s0 ∧
      row_map_step D (InclusiveSum (levelCounts D M)) s0 n = some s1 ∧
      s1.h_row_map = s0.h_row_map.set (rowPos D n) (n : Int) := by
  refine ⟨_, _, foldlM_row_map_step D M m n hm (by omega) hpos hmax,
    row_map_step_spec D M m n hm hn hpos hmax, ?_⟩
  exact rowMapAfter_succ D m n

/-- The first `m` entries of the finished row map are the rows `0 .. m - 1` in
some order. -/
theorem rowMapAfter_take_perm (D : List Int) (m : Nat) (hm : D.length = m) :
    ((rowMapAfter D m m).take m).Perm ((List.range m).map (fun (i : Nat) => (i : Int))) := by
  have hnd : ((List.range m).map (fun (i : Nat) => (i : Int))).Nodup := by
    apply List.Nodup.map _ (List.nodup_range m)
    intro a b hab
    have hab2 : (a : Int) = (b : Int) := hab
    exact_mod_cast hab2
  have hsub : (List.range m).map (fun (i : Nat) => (i : Int)) ⊆ (rowMapAfter D m m).take m := by
    intro v hv
    obtain ⟨i, hi, rfl⟩ := List.mem_map.mp hv
    have him : i < m := List.mem_range.mp hi
    have hp : rowPos D i < m := by
      have := rowPos_lt_length D i (by omega)
      omega
    have hget := rowMapAfter_getElem? D m m i hm (le_refl m) him
    have hget2 : ((rowMapAfter D m m).take m)[rowPos D i]? = some (i : Int) := by
      rw [List.getElem?_take_of_lt hp]
      exact hget
    exact List.mem_iff_getElem?.mpr ⟨_, hget2⟩
  have hlen : ((rowMapAfter D m m).take m).length
      ≤ ((List.range m).map (fun (i : Nat) => (i : Int))).length := by
    simp [rowMapAfter_length]
  exact ((List.subperm_of_subset hnd hsub).perm_of_length_le hlen).symm

/-! ## Lemmas on an analysis that fails -/

/-- Releasing a slot that is empty or holds the handle of a live object
succeeds. -/
theorem destroy_csrtr_info_total (store : InfoStore) (slot : Option Nat)
    (hlive : ∀ a, slot = some a → ∃ cell, store[a]? = some (some cell)) :
    ∃ store1, rocsparse_destroy_csrtr_info store slot
      = some (rocsparse_status.success, store1) := by
  cases slot with
  | none => exact ⟨store, rfl⟩
  | some a =>
    obtain ⟨cell, hcell⟩ := hlive a rfl
    unfold rocsparse_destroy_csrtr_info
    simp only [hcell]
    by_cases hr : cell.refs ≤ 1
    · exact ⟨_, by rw [if_pos hr]⟩
    · exact ⟨_, by rw [if_neg hr]⟩

/-- With a wavefront size other than 32 and 64, `rocsparse_csrtr_analysis` has
allocated the buffers of the analysis object and set the scratch buffer to zero
when it returns `arch_mismatch`; no kernel has run. -/
theorem csrtr_analysis_arch_mismatch (total_spin : Nat) (handle : rocsparse_handle)
    (trans m nnz : Int) (descr : rocsparse_mat_descr) (rp ci : List Int)
    (info : rocsparse_csrtr_info)
    (hwf : ¬ (handle.wavefront_size = 32 ∨ handle.wavefront_size = 64)) :
    rocsparse_csrtr_analysis total_spin handle trans m nnz descr rp ci info
      = some { status := rocsparse_status.arch_mismatch,
               info := { info with csr_diag_ind := some (List.replicate m.toNat 0),
                                   zero_pivot := some rocsparse_int_max,
                                   d_row_map := some (List.replicate (m.toNat + 1) 0),
                                   h_row_map := some (List.replicate (m.toNat + 1) 0) },
               temp_buffer := scratch_zero m } := by
  unfold rocsparse_csrtr_analysis
  simp only [hwf, if_false]

/-! ## Lemmas on a grid that does not reach every row -/

/-- A loop in which one iteration fails from every state fails. -/
theorem foldlM_option_none_of_mem {α β : Type} (f : β → α → Option β) (l : List α) (a : α)
    (ha : a ∈ l) (hf : ∀ s, f s a = none) : ∀ init, l.foldlM f init = none := by
  induction l with
  | nil => cases ha
  | cons b l ih =>
    intro init
    rw [List.foldlM_cons]
    rcases List.mem_cons.mp ha with h | h
    · subst h
      rw [hf init]
      rfl
    · cases hb : f init b with
      | none => rfl
      | some s => exact ih h s

/-- The iteration of the row-map loop for a row whose `done` value is still 0
leaves the arrays: its level is -1. -/
theorem row_map_step_done_zero (D rpl : List Int) (st : RowMapState) (i : Nat)
    (h : readAt D (i : Int) = some 0) : row_map_step D rpl st i = none := by
  unfold row_map_step
  have hr : readAt rpl ((0 : Int) - 1 - 1) = none := by
    unfold readAt
    rw [if_neg (by omega)]
  simp only [h, Option.bind_eq_bind, Option.some_bind]
  rw [if_neg (by decide), hr]
  rfl

/-- The row-map loop on a `done` array with an entry 0 among the first `m`. -/
theorem create_row_map_none (m : Nat) (M : Int) (D rpl : List Int) (i : Nat) (hi : i < m)
    (h : readAt D (i : Int) = some 0) : create_row_map m M D rpl = none := by
  unfold create_row_map
  exact foldlM_option_none_of_mem _ _ i (List.mem_range.mpr hi)
    (fun st => row_map_step_done_zero D rpl st i h) _

/-- The worker of a row writes no `done` value but that of its row. -/
theorem analysis_row_done_other (fill_mode : Int) (rp ci : List Int) (base : Int)
    (mem mem1 : AnalysisMem) (row j : Nat)
    (h : analysis_row fill_mode rp ci base mem row = some mem1) (hj : j ≠ row) :
    mem1.done_array.length = mem.done_array.length ∧
      mem1.done_array[j]? = mem.done_array[j]? := by
  unfold analysis_row at h
  simp only [Option.bind_eq_bind, Option.bind_eq_some] at h
  obtain ⟨es, _, r, _, da, hda, cd, _, hmem⟩ := h
  unfold writeAt at hda
  split at hda
  · cases hda
    cases hmem
    simp only [List.length_set, Int.toNat_ofNat]
    exact ⟨trivial, List.getElem?_set_ne (fun h0 => hj h0.symm)⟩
  · cases hda

/-- The workers of a list of rows leave the `done` value of every other row. -/
theorem analysis_rows_done_untouched (fill_mode : Int) (rp ci : List Int) (base : Int)
    (l : List Nat) (j : Nat) (hj : j ∉ l) :
    ∀ (mem mem1 : AnalysisMem),
      l.foldlM (analysis_row fill_mode rp ci base) mem = some mem1 →
      mem1.done_array.length = mem.done_array.length ∧
        mem1.done_array[j]? = mem.done_array[j]? := by
  induction l with
  | nil =>
    intro mem mem1 h
    cases h
    exact ⟨rfl, rfl⟩
  | cons t l ih =>
    intro mem mem1 h
    rw [List.foldlM_cons] at h
    obtain ⟨mem0, h0, h1⟩ := Option.bind_eq_some.mp h
    have hjt : j ≠ t := fun e => hj (e ▸ List.mem_cons_self _ _)
    have hjl : j ∉ l := fun e => hj (List.mem_cons_of_mem _ e)
    obtain ⟨a1, a2⟩ := analysis_row_done_other fill_mode rp ci base mem mem0 t j h0 hjt
    obtain ⟨b1, b2⟩ := ih hjl mem0 mem1 h1
    exact ⟨by rw [b1, a1], by rw [b2, a2]⟩

/-- With fill mode lower and fewer wavefronts than rows, the first row without a
worker keeps the `done` value 0 and the host loop of `rocsparse_csrtr_analysis`
computes the level -1 for it: the analysis leaves its arrays. -/
theorem csrtr_analysis_grid_short (total_spin : Nat) (handle : rocsparse_handle)
    (trans m nnz : Int) (descr : rocsparse_mat_descr) (rp ci : List Int)
    (info : rocsparse_csrtr_info)
    (hwf : handle.wavefront_size = 32 ∨ handle.wavefront_size = 64)
    (hfill : descr.fill_mode = rocsparse_fill_mode_lower)
    (hshort : csrsv_wavefronts handle.wavefront_size m < m.toNat) :
    rocsparse_csrtr_analysis total_spin handle trans m nnz descr rp ci info = none := by
  have hnu : descr.fill_mode ≠ rocsparse_fill_mode_upper := by
    rw [hfill]
    decide
  unfold rocsparse_csrtr_analysis
  simp only [if_pos hwf, if_pos (Or.inr hfill : descr.fill_mode = rocsparse_fill_mode_upper
    ∨ descr.fill_mode = rocsparse_fill_mode_lower)]
  cases hl : csrsv_analysis_launch (csrsv_wavefronts handle.wavefront_size m) descr.fill_mode m
      rp ci rocsparse_int_max descr.base with
  | none => rfl
  | some mem =>
    simp only [Option.map_some', Option.some_bind]
    have hnot : csrsv_wavefronts handle.wavefront_size m
        ∉ (analysis_order descr.fill_mode m.toNat).take
          (csrsv_wavefronts handle.wavefront_size m) := by
      unfold analysis_order
      rw [if_neg hnu, List.take_range]
      intro hmem
      have := List.mem_range.mp hmem
      omega
    unfold csrsv_analysis_launch at hl
    obtain ⟨hlen, hget⟩ := analysis_rows_done_untouched descr.fill_mode rp ci descr.base _ _
      hnot _ mem hl
    simp only [List.length_replicate] at hlen
    have hzero : mem.done_array[csrsv_wavefronts handle.wavefront_size m]? = some 0 := by
      rw [hget]
      simp only [List.getElem?_replicate, if_pos hshort]
    have htake : (mem.done_array
        ++ List.replicate ((paddedRows m).toNat - m.toNat) 0).take m.toNat = mem.done_array :=
      List.take_left' hlen
    have hread : readAt mem.done_array ((csrsv_wavefronts handle.wavefront_size m : Nat) : Int)
        = some 0 := by
      unfold readAt
      rw [if_pos ⟨by omega, by omega⟩, Int.toNat_ofNat]
      exact hzero
    by_cases hle : (scratch_after_kernel m total_spin mem).max_depth.toNat
        ≤ (scratch_after_kernel m total_spin mem).rows_per_level.length
    · rw [if_pos hle]
      simp only [scratch_after_kernel, htake]
      rw [create_row_map_none m.toNat _ mem.done_array _ _ hshort hread]
      rfl
    · rw [if_neg hle]

/-- The sequence "clear, create, perform analysis" when the analysis leaves its
arrays. -/
theorem rebuild_analysis_none (total_spin : Nat) (handle : rocsparse_handle) (trans m nnz : Int)
    (descr : rocsparse_mat_descr) (rp ci : List Int) (minfo : rocsparse_mat_info)
    (slot : Option Nat) (set : rocsparse_mat_info → Option Nat → rocsparse_mat_info)
    (store : InfoStore) (buf : Scratch)
    (h : rocsparse_csrtr_analysis total_spin handle trans m nnz descr rp ci empty_csrtr_info
      = none) :
    rebuild_analysis total_spin handle trans m nnz descr rp ci minfo slot set store buf
      = none := by
  cases hr : rebuild_analysis total_spin handle trans m nnz descr rp ci minfo slot set store
      buf with
  | none => rfl
  | some r =>
    obtain ⟨_, cr, _, hc, _⟩ := rebuild_analysis_spec _ _ _ _ _ _ _ _ _ _ _ _ _ _ hr
    rw [h] at hc
    cases hc

/-- A force analysis with fill mode lower on a grid with fewer wavefronts than
rows: the call leaves its arrays in the host loop of the analysis. -/
theorem analysis_template_grid_short (total_spin : Nat) (handle : rocsparse_handle)
    (trans m nnz : Int) (descr : rocsparse_mat_descr) (val : List Rat) (rp ci : List Int)
    (minfo : rocsparse_mat_info) (store : InfoStore) (buf : Scratch)
    (hwf : handle.wavefront_size = 32 ∨ handle.wavefront_size = 64)
    (hbase : descr.base = rocsparse_index_base_zero ∨ descr.base = rocsparse_index_base_one)
    (htype : descr.type = rocsparse_matrix_type_general)
    (hfill : descr.fill_mode = rocsparse_fill_mode_lower)
    (hm : 0 < m) (hnnz : 0 < nnz)
    (hshort : csrsv_wavefronts handle.wavefront_size m < m.toNat) :
    rocsparse_csrsv_analysis_template total_spin (some handle) trans m nnz (some descr)
        (some val) (some rp) (some ci) (some minfo) store rocsparse_analysis_policy_force
        rocsparse_solve_policy_auto (some buf) = none := by
  have hnu : descr.fill_mode ≠ rocsparse_fill_mode_upper := by
    rw [hfill]
    decide
  have hne : ¬ (rocsparse_analysis_policy_force = rocsparse_analysis_policy_reuse) := by
    decide
  rw [template_nonquick total_spin handle trans m nnz descr val rp ci minfo store _ buf hbase
    htype (Or.inr rfl) hm hnnz]
  rw [if_neg hnu, if_neg (fun h => hne h.1), if_neg (fun h => hne h.1)]
  exact rebuild_analysis_none _ _ _ _ _ _ _ _ _ _ _ _ _
    (csrtr_analysis_grid_short total_spin handle trans m nnz descr rp ci empty_csrtr_info hwf
      hfill hshort)

/-! ## Lemmas on the large example -/

/-- Reading the array `0, 1, ..., n - 1`. -/
theorem readAt_range_map (n k : Nat) (h : k < n) :
    readAt ((List.range n).map (fun (i : Nat) => (i : Int))) (k : Int) = some (k : Int) := by
  unfold readAt
  rw [if_pos ⟨by omega, by simp only [List.length_map, List.length_range]; omega⟩,
    Int.toNat_ofNat, List.getElem?_map, List.getElem?_range h]
  rfl

/-- A row of a matrix with the row pointers `0, 1, ..., m` has one stored entry. -/
theorem csr_row_entries_single (m : Nat) (ci : List Int) (i : Nat) (hi : i < m) (c : Int)
    (hc : readAt ci (i : Int) = some c) :
    csr_row_entries (diag_row_ptr m) ci 0 (i : Int) = some [((i : Int), c)] := by
  unfold csr_row_entries diag_row_ptr
  have h1 := readAt_range_map (m + 1) i (by omega)
  have h2 := readAt_range_map (m + 1) (i + 1) (by omega)
  have h3 : (((i + 1 : Nat) : Int)) = (i : Int) + 1 := by push_cast; rfl
  rw [h3] at h2
  simp only [h1, h2, Option.map_some', Option.bind_eq_bind, Option.some_bind, sub_zero]
  have h4 : ((i : Int) + 1 - (i : Int)).toNat = 1 := by omega
  rw [h4]
  have h5 : List.range 1 = [0] := rfl
  rw [h5]
  simp only [List.mapM, List.mapM.loop, Nat.cast_zero, add_zero, hc, Option.bind_eq_bind,
    Option.some_bind, List.reverse_cons, List.reverse_nil, List.nil_append, Option.pure_def]

/-- A diagonal matrix is lower triangular. -/
theorem diag_lower (m : Nat) : LowerTriangular m (diag_row_ptr m) (diag_col_ind m) 0 := by
  intro i hi
  rw [csr_row_entries_single m (diag_col_ind m) i hi (i : Int) (readAt_range_map m i hi)]
  intro e he
  simp only [List.mem_singleton] at he
  subst he
  exact ⟨by simp, le_refl _⟩

/-- Every row of the diagonal matrix `2 I` stores its diagonal entry, the
value 2. -/
theorem diag_stored (m i : Nat) (hi : i < m) :
    DiagonalStored (diag_row_ptr m) (diag_col_ind m) (diag_val m) 0 i := by
  have hv : readAt (diag_val m) (i : Int) = some 2 := by
    unfold readAt diag_val
    rw [if_pos ⟨by omega, by simp only [List.length_replicate]; omega⟩, Int.toNat_ofNat,
      List.getElem?_replicate, if_pos hi]
  refine ⟨2, ?_, by norm_num⟩
  unfold diagValues
  rw [csr_row_entries_single m (diag_col_ind m) i hi (i : Int) (readAt_range_map m i hi)]
  simp [hv]

/-- Reading the column indices of a diagonal matrix in which the entry of row `k`
has been moved to column 0. -/
theorem readAt_diag_col_ind_set (m k i : Nat) (hk : k < m) (hi : i < m) :
    readAt ((diag_col_ind m).set k 0) (i : Int) = some (if i = k then 0 else (i : Int)) := by
  have hlen : (diag_col_ind m).length = m := by
    unfold diag_col_ind
    simp only [List.length_map, List.length_range]
  unfold readAt
  rw [if_pos ⟨by omega, by rw [List.length_set, hlen]; omega⟩, Int.toNat_ofNat]
  by_cases h : i = k
  · subst h
    rw [List.getElem?_set_self (by rw [hlen]; exact hk), if_pos rfl]
  · rw [List.getElem?_set_ne (fun e => h e.symm), if_neg h]
    unfold diag_col_ind
    rw [List.getElem?_map, List.getElem?_range hi]
    rfl

/-- A diagonal matrix in which the entry of a row `k > 0` has been moved to column 0
is lower triangular, row `k` has no stored diagonal entry and every other row has
one. -/
theorem diag_missing_rows (m k : Nat) (hk : k < m) (hk0 : 0 < k) :
    LowerTriangular m (diag_row_ptr m) ((diag_col_ind m).set k 0) 0 ∧
    rowHasDiag (diag_row_ptr m) ((diag_col_ind m).set k 0) 0 k = false ∧
    ∀ j, j < m → j ≠ k → rowHasDiag (diag_row_ptr m) ((diag_col_ind m).set k 0) 0 j = true := by
  have hrow : ∀ i, i < m →
      csr_row_entries (diag_row_ptr m) ((diag_col_ind m).set k 0) 0 (i : Int)
        = some [((i : Int), if i = k then 0 else (i : Int))] := by
    intro i hi
    exact csr_row_entries_single m _ i hi _ (readAt_diag_col_ind_set m k i hk hi)
  refine ⟨?_, ?_, ?_⟩
  · intro i hi
    rw [hrow i hi]
    intro e he
    simp only [List.mem_singleton] at he
    subst he
    by_cases h : i = k
    · simp [h]
    · simp [h]
  · unfold rowHasDiag
    rw [hrow k hk]
    simp
    omega
  · intro j hj hne
    unfold rowHasDiag
    rw [hrow j hj]
    simp [hne]

/-! ## The level order of the row map -/

/-- C1 (topological validity of `row_map`): for `m ≥ 1` rows, `done` values all
positive, `max_depth` the largest of them and `rows_per_level` the inclusive scan of
the per-level row counts, the host loop of `rocsparse_csrtr_analysis` succeeds,
every row has a position among the first `m` entries of the row map, and whenever
the `done` value of a row `i` exceeds that of a row `j` it depends on, `j` sits at
a strictly smaller position than `i`. -/
theorem row_map_topological (m : Nat) (max_depth : Int) (done_array rows_per_level : List Int)
    (dep : Nat → Nat → Prop)
    (hm : 1 ≤ m) (hlen : done_array.length = m)
    (hdone : ∀ d ∈ done_array, 1 ≤ d)
    (hmax : max_depth = maxDone done_array)
    (hrpl : rows_per_level = InclusiveSum (levelCounts done_array max_depth))
    (hdep : ∀ i j, dep i j → i < m ∧ j < m ∧ done_array.getD j 0 < done_array.getD i 0) :
    ∃ st, create_row_map m max_depth done_array rows_per_level = some st ∧
      (∀ r, r < m → ∃ p, p < m ∧ st.h_row_map[p]? = some (r : Int)) ∧
      (∀ i j, dep i j → ∀ p q, p < m → q < m →
        st.h_row_map[p]? = some (j : Int) → st.h_row_map[q]? = some (i : Int) → p < q) := by
  have _ := hm
  refine ⟨_, create_row_map_eq m max_depth done_array rows_per_level hlen hdone
    (by rw [hmax]; exact le_maxDone done_array) hrpl, ?_, ?_⟩
  · intro r hr
    exact ⟨rowPos done_array r, by
      have := rowPos_lt_length done_array r (by omega)
      omega, rowMapAfter_getElem? done_array m m r hlen (le_refl m) hr⟩
  · intro i j hij p q hp hq hpj hqi
    obtain ⟨hi, hj, hlt⟩ := hdep i j hij
    have h1 := rowMapAfter_position done_array m p j hlen hp hpj
    have h2 := rowMapAfter_position done_array m q i hlen hq hqi
    rw [getD_eq_getElem done_array i (by omega), getD_eq_getElem done_array j (by omega)] at hlt
    have := rowPos_lt_of_done_lt done_array i j (by omega) (by omega) hlt
    omega

/-- Witness of `row_map_topological`: five rows with `done = [1, 2, 1, 3, 2]`,
row 1 depending on row 0, row 3 on row 1 and row 4 on row 2. -/
theorem row_map_topological_witness :
    ∃ st, create_row_map 5 3 [1, 2, 1, 3, 2] [2, 4, 5] = some st ∧
      (∀ r : Nat, r < 5 → ∃ p, p < 5 ∧ st.h_row_map[p]? = some (r : Int)) ∧
      (∀ i j : Nat, (i = 1 ∧ j = 0 ∨ i = 3 ∧ j = 1 ∨ i = 4 ∧ j = 2) → ∀ p q, p < 5 → q < 5 →
        st.h_row_map[p]? = some (j : Int) → st.h_row_map[q]? = some (i : Int) → p < q) :=
  row_map_topological 5 3 [1, 2, 1, 3, 2] [2, 4, 5]
    (fun i j => i = 1 ∧ j = 0 ∨ i = 3 ∧ j = 1 ∨ i = 4 ∧ j = 2)
    (by decide) (by decide) (by decide) (by decide) (by decide)
    (by
      intro i j h
      rcases h with ⟨h1, h2⟩ | ⟨h1, h2⟩ | ⟨h1, h2⟩ <;> subst h1 <;> subst h2 <;> decide)

/-- C2 (level order of `row_map`): for a `done` array with values in
`1 .. max_depth` and `rows_per_level` the inclusive scan of the per-level counts,
the host loop succeeds; row `i` with `level = done[i] - 1` is stored at
position `depth_offset + (number of earlier rows of the same level)`, where
`depth_offset` is `0` for level 0 and `rows_per_level[level - 1]` otherwise; and
every row of a level `k` sits at a smaller position of the row map than every row
of level `k + 1`. -/
theorem row_map_level_order (m : Nat) (max_depth : Int) (done_array rows_per_level : List Int)
    (hlen : done_array.length = m)
    (hrange : ∀ d ∈ done_array, 1 ≤ d ∧ d ≤ max_depth)
    (hrpl : rows_per_level = InclusiveSum (levelCounts done_array max_depth)) :
    ∃ st, create_row_map m max_depth done_array rows_per_level = some st ∧
      (∀ i, i < m → ∃ level depth_offset,
        readAt done_array (i : Int) = some (level + 1) ∧
        (if level = 0 then some 0 else readAt rows_per_level (level - 1)) = some depth_offset ∧
        readAt st.h_row_map (depth_offset + ((rankInLevel done_array i (level + 1) : Nat) : Int))
          = some (i : Int)) ∧
      (∀ (k : Int) (i j p q : Nat), i < m → j < m → p < m → q < m →
        readAt done_array (i : Int) = some (k + 1) →
        readAt done_array (j : Int) = some (k + 1 + 1) →
        st.h_row_map[p]? = some (i : Int) → st.h_row_map[q]? = some (j : Int) → p < q) := by
  have hdone : ∀ d ∈ done_array, 1 ≤ d := fun d hd => (hrange d hd).1
  have hmax : ∀ d ∈ done_array, d ≤ max_depth := fun d hd => (hrange d hd).2
  refine ⟨_, create_row_map_eq m max_depth done_array rows_per_level hlen hdone hmax hrpl, ?_, ?_⟩
  · intro i hi
    have hi' : i < done_array.length := by omega
    refine ⟨done_array[i] - 1, ((levelOffset done_array done_array[i] : Nat) : Int), ?_, ?_, ?_⟩
    · rw [readAt_natCast done_array i hi']
      simp
    · have h1 : 1 ≤ done_array[i] := hdone _ (List.getElem_mem hi')
      have hM : done_array[i] ≤ max_depth := hmax _ (List.getElem_mem hi')
      by_cases hz : done_array[i] - 1 = 0
      · rw [if_pos hz]
        have h0 : levelOffset done_array done_array[i] = 0 := by
          unfold levelOffset
          rw [List.countP_eq_zero]
          intro a ha
          have := hdone a ha
          simp only [decide_eq_true_eq]
          omega
        rw [h0]
        rfl
      · rw [if_neg hz, hrpl]
        have hk : (done_array[i] - 1 - 1).toNat < max_depth.toNat := by omega
        have hl : (done_array[i] - 1 - 1).toNat
            < (InclusiveSum (levelCounts done_array max_depth)).length := by
          simp [InclusiveSum, inclusiveSumFrom_length, levelCounts]
          omega
        rw [readAt_of_toNat _ _ (by omega) hl]
        have h3 := rows_per_level_getElem? done_array max_depth hdone _ hk
        rw [List.getElem?_eq_getElem hl] at h3
        have he : (((done_array[i] - 1 - 1).toNat : Int) + 2) = done_array[i] := by omega
        rw [he] at h3
        simpa using h3
    · have hp : ((levelOffset done_array done_array[i] : Nat) : Int)
          + ((rankInLevel done_array i (done_array[i] - 1 + 1) : Nat) : Int)
          = ((rowPos done_array i : Nat) : Int) := by
        unfold rowPos
        rw [getD_eq_getElem done_array i hi']
        have : done_array[i] - 1 + 1 = done_array[i] := by omega
        rw [this]
        push_cast
        rfl
      rw [hp]
      have hlt : rowPos done_array i < (rowMapAfter done_array m m).length := by
        rw [rowMapAfter_length]
        have := rowPos_lt_length done_array i hi'
        omega
      rw [readAt_natCast _ _ hlt]
      have h4 := rowMapAfter_getElem? done_array m m i hlen (le_refl m) hi
      rw [List.getElem?_eq_getElem hlt] at h4
      simpa using h4
  · intro k i j p q hi hj hp hq hdi hdj hpi hqj
    have hi' : i < done_array.length := by omega
    have hj' : j < done_array.length := by omega
    rw [readAt_natCast done_array i hi'] at hdi
    rw [readAt_natCast done_array j hj'] at hdj
    have hdi' : done_array[i] = k + 1 := by simpa using hdi
    have hdj' : done_array[j] = k + 1 + 1 := by simpa using hdj
    have h1 := rowMapAfter_position done_array m p i hlen hp hpi
    have h2 := rowMapAfter_position done_array m q j hlen hq hqj
    have := rowPos_lt_of_done_lt done_array j i hj' hi' (by omega)
    omega

/-- Witness of `row_map_level_order` on five rows with `done = [1, 2, 1, 3, 2]`. -/
theorem row_map_level_order_witness :
    ∃ st, create_row_map 5 3 [1, 2, 1, 3, 2] [2, 4, 5] = some st ∧
      (∀ i : Nat, i < 5 → ∃ level depth_offset,
        readAt [1, 2, 1, 3, 2] (i : Int) = some (level + 1) ∧
        (if level = 0 then some 0 else readAt [2, 4, 5] (level - 1)) = some depth_offset ∧
        readAt st.h_row_map
            (depth_offset + ((rankInLevel [1, 2, 1, 3, 2] i (level + 1) : Nat) : Int))
          = some (i : Int)) ∧
      (∀ (k : Int) (i j p q : Nat), i < 5 → j < 5 → p < 5 → q < 5 →
        readAt [1, 2, 1, 3, 2] (i : Int) = some (k + 1) →
        readAt [1, 2, 1, 3, 2] (j : Int) = some (k + 1 + 1) →
        st.h_row_map[p]? = some (i : Int) → st.h_row_map[q]? = some (j : Int) → p < q) :=
  row_map_level_order 5 3 [1, 2, 1, 3, 2] [2, 4, 5] (by decide) (by decide) (by decide)

/-- C3 (stability and determinism of the counting sort): for a `done` array with
values in `1 .. max_depth` and `rows_per_level` the inclusive scan of the per-level
counts, the host loop succeeds and, within one level, rows
appear in the row map in increasing row index order; the row map is
`rowMapAfter done_array m m`, a function of the `done` (level) array alone; and two
analysis calls with policy force on the same matrix that both return success,
whatever the matrix infos, stores, scratch buffers and observed spin counts they
start from, store objects with identical row maps (host and device), `max_depth`
and `csr_diag_ind`. -/
theorem row_map_stable_deterministic (m : Nat) (max_depth : Int)
    (done_array rows_per_level : List Int)
    (hlen : done_array.length = m)
    (hrange : ∀ d ∈ done_array, 1 ≤ d ∧ d ≤ max_depth)
    (hrpl : rows_per_level = InclusiveSum (levelCounts done_array max_depth)) :
    ∃ st, create_row_map m max_depth done_array rows_per_level = some st ∧
      (∀ i j p q : Nat, i < j → j < m → p < m → q < m → done_array[i]? = done_array[j]? →
        st.h_row_map[p]? = some (i : Int) → st.h_row_map[q]? = some (j : Int) → p < q) ∧
      st.h_row_map = rowMapAfter done_array m m ∧
      (∀ (ts1 ts2 : Nat) (handle : rocsparse_handle) (trans mm nnz : Int)
          (descr : rocsparse_mat_descr) (csr_val : List Rat) (rp ci : List Int)
          (minfo1 minfo2 : rocsparse_mat_info) (store1 store2 : InfoStore) (buf1 buf2 : Scratch)
          (r1 r2 : AnalysisResult),
        (descr.base = rocsparse_index_base_zero ∨ descr.base = rocsparse_index_base_one) →
        descr.type = rocsparse_matrix_type_general → 0 < mm → 0 < nnz →
        rocsparse_csrsv_analysis_template ts1 (some handle) trans mm nnz (some descr)
          (some csr_val) (some rp) (some ci) (some minfo1) store1
          rocsparse_analysis_policy_force rocsparse_solve_policy_auto (some buf1) = some r1 →
        rocsparse_csrsv_analysis_template ts2 (some handle) trans mm nnz (some descr)
          (some csr_val) (some rp) (some ci) (some minfo2) store2
          rocsparse_analysis_policy_force rocsparse_solve_policy_auto (some buf2) = some r2 →
        r1.status = rocsparse_status.success → r2.status = rocsparse_status.success →
        ∃ o1 o2,
          r1.store.lookup (r1.info.bind (fun i => analysis_slot descr i)) = some o1 ∧
          r2.store.lookup (r2.info.bind (fun i => analysis_slot descr i)) = some o2 ∧
          o1.h_row_map = o2.h_row_map ∧ o1.d_row_map = o2.d_row_map ∧
          o1.max_depth = o2.max_depth ∧ o1.csr_diag_ind = o2.csr_diag_ind) := by
  refine ⟨_, create_row_map_eq m max_depth done_array rows_per_level hlen
    (fun d hd => (hrange d hd).1) (fun d hd => (hrange d hd).2) hrpl, ?_, rfl, ?_⟩
  · intro i j p q hij hj hp hq hd hpi hqj
    have h1 := rowMapAfter_position done_array m p i hlen hp hpi
    have h2 := rowMapAfter_position done_array m q j hlen hq hqj
    have := rowPos_lt_of_index_lt done_array j i (by omega) hij hd
    omega
  · intro ts1 ts2 handle trans mm nnz descr csr_val rp ci minfo1 minfo2 store1 store2 buf1 buf2
      r1 r2 hbase htype hmm hnnz hc1 hc2 _ _
    obtain ⟨cr1, ha1, _, hi1, hl1⟩ := force_result ts1 handle trans mm nnz descr csr_val rp ci
      minfo1 store1 buf1 r1 hbase htype hmm hnnz hc1
    obtain ⟨cr2, ha2, _, hi2, hl2⟩ := force_result ts2 handle trans mm nnz descr csr_val rp ci
      minfo2 store2 buf2 r2 hbase htype hmm hnnz hc2
    obtain ⟨_, e1, e2, e3, e4, _, _⟩ := csrtr_analysis_deterministic ts1 ts2 handle trans mm nnz
      descr rp ci empty_csrtr_info cr1 cr2 ha1 ha2
    refine ⟨cr1.info, cr2.info, ?_, ?_, e1, e2, e3, e4⟩
    · rw [hi1]
      simp only [Option.some_bind, analysis_slot_set]
      exact hl1
    · rw [hi2]
      simp only [Option.some_bind, analysis_slot_set]
      exact hl2

/-- Witness of `row_map_stable_deterministic` on five rows with
`done = [1, 2, 1, 3, 2]`: the row map is `[0, 2, 1, 4, 3, 0]`. -/
theorem row_map_stable_deterministic_witness :
    ∃ st, create_row_map 5 3 [1, 2, 1, 3, 2] [2, 4, 5] = some st ∧
      st.h_row_map = [0, 2, 1, 4, 3, 0] ∧
      (∀ i j p q : Nat, i < j → j < 5 → p < 5 → q < 5 →
        ([1, 2, 1, 3, 2] : List Int)[i]? = ([1, 2, 1, 3, 2] : List Int)[j]? →
        st.h_row_map[p]? = some (i : Int) → st.h_row_map[q]? = some (j : Int) → p < q) := by
  obtain ⟨st, h1, h2, h3, _⟩ := row_map_stable_deterministic 5 3 [1, 2, 1, 3, 2] [2, 4, 5]
    (by decide) (by decide) (by decide)
  exact ⟨st, h1, by rw [h3]; decide, h2⟩

/-! ## The analysis policies -/

/-- C7 (force policy): for either fill mode and every prior matrix info and store,
when an analysis call with policy force, valid arguments, `m > 0` and `nnz > 0`
returns success, the handle previously stored in the slot of the fill mode has
been passed to `rocsparse_destroy_csrtr_info` (its cell is freed when the slot
was its last holder, and has lost one holder otherwise), the slot holds a handle
that did not exist before, the object behind it is the result of
`rocsparse_csrtr_analysis` on a newly created object, the other slots are
unchanged and so are all other cells of the store. -/
theorem force_discards_and_rebuilds (total_spin : Nat) (handle : rocsparse_handle)
    (trans m nnz : Int) (descr : rocsparse_mat_descr) (csr_val : List Rat)
    (csr_row_ptr csr_col_ind : List Int) (minfo : rocsparse_mat_info) (store : InfoStore)
    (buf : Scratch) (r : AnalysisResult)
    (hbase : descr.base = rocsparse_index_base_zero ∨ descr.base = rocsparse_index_base_one)
    (htype : descr.type = rocsparse_matrix_type_general)
    (hm : 0 < m) (hnnz : 0 < nnz)
    (hcall : rocsparse_csrsv_analysis_template total_spin (some handle) trans m nnz (some descr)
        (some csr_val) (some csr_row_ptr) (some csr_col_ind) (some minfo) store
        rocsparse_analysis_policy_force rocsparse_solve_policy_auto (some buf) = some r)
    (hsucc : r.status = rocsparse_status.success) :
    (∀ a, analysis_slot descr minfo = some a → ∃ cell, store[a]? = some (some cell) ∧
      r.store[a]? = some (if cell.refs ≤ 1 then none
                          else some { cell with refs := cell.refs - 1 })) ∧
    r.info = some (set_analysis_slot descr minfo (some store.length)) ∧
    store[store.length]? = none ∧
    (∃ cr, rocsparse_csrtr_analysis total_spin handle trans m nnz descr csr_row_ptr csr_col_ind
        empty_csrtr_info = some cr ∧ cr.status = rocsparse_status.success ∧
      r.store[store.length]? = some (some { refs := 1, obj := cr.info })) ∧
    (∀ b, b < store.length → analysis_slot descr minfo ≠ some b → r.store[b]? = store[b]?) := by
  rw [template_nonquick total_spin handle trans m nnz descr csr_val csr_row_ptr csr_col_ind minfo
    store _ buf hbase htype (Or.inr rfl) hm hnnz] at hcall
  have hne : ¬ (rocsparse_analysis_policy_force = rocsparse_analysis_policy_reuse) := by decide
  have key : rebuild_analysis total_spin handle trans m nnz descr csr_row_ptr csr_col_ind minfo
      (analysis_slot descr minfo)
      (fun i h => set_analysis_slot descr i h) store buf = some r := by
    unfold analysis_slot set_analysis_slot
    by_cases hu : descr.fill_mode = rocsparse_fill_mode_upper
    · simpa only [hu, if_true] using hcall
    · simpa only [hu, if_false, hne, false_and] using hcall
  obtain ⟨store1, cr, hd, hc, hr⟩ := rebuild_analysis_spec _ _ _ _ _ _ _ _ _ _ _ _ _ _ key
  obtain ⟨_, hlen, hcell, _⟩ := destroy_csrtr_info_spec store store1 _ _ hd
  subst hr
  refine ⟨?_, rfl, by simp, ⟨cr, hc, hsucc, ?_⟩, ?_⟩
  · intro a ha
    obtain ⟨cell, hcell1, hcell2⟩ := hcell a ha
    refine ⟨cell, hcell1, ?_⟩
    have hlt : a < store.length := by
      by_contra hge
      rw [List.getElem?_eq_none (by omega)] at hcell1
      cases hcell1
    simp only
    rw [List.getElem?_append_left (by omega), hcell2, List.getElem?_set_self hlt]
  · simp only
    rw [← hlen]
    simp
  · intro b hb hnb
    simp only
    rw [List.getElem?_append_left (by omega)]
    cases hslot : analysis_slot descr minfo with
    | none =>
      have := (destroy_csrtr_info_spec store store1 _ _ hd).2.2.2 hslot
      rw [this]
    | some a =>
      obtain ⟨cell, _, hcell2⟩ := hcell a hslot
      have hab : a ≠ b := by
        intro hab
        apply hnb
        rw [hslot, hab]
      rw [hcell2, List.getElem?_set_ne hab]

/-- Witness of `force_discards_and_rebuilds`: a force analysis of the example
matrix, with an earlier analysis stored in the lower slot. -/
theorem force_discards_and_rebuilds_witness :
    ∃ r, rocsparse_csrsv_analysis_template 0 (some ex_handle) rocsparse_operation_none 4 7
        (some ex_descr_lower) (some ex_val) (some ex_row_ptr) (some ex_col_ind)
        (some ex_info_lower) ex_store_old
        rocsparse_analysis_policy_force rocsparse_solve_policy_auto (some ex_scratch) = some r ∧
      r.status = rocsparse_status.success ∧
      r.info = some (set_analysis_slot ex_descr_lower ex_info_lower (some ex_store_old.length)) ∧
      (∃ cell, ex_store_old[0]? = some (some cell) ∧
        r.store[0]? = some (if cell.refs ≤ 1 then none
                            else some { cell with refs := cell.refs - 1 })) := by
  have hmap : (rocsparse_csrsv_analysis_template 0 (some ex_handle) rocsparse_operation_none 4 7
        (some ex_descr_lower) (some ex_val) (some ex_row_ptr) (some ex_col_ind)
        (some ex_info_lower) ex_store_old
        rocsparse_analysis_policy_force rocsparse_solve_policy_auto (some ex_scratch)).map
        (fun r => r.status) = some rocsparse_status.success := by
    set_option maxRecDepth 100000 in decide
  obtain ⟨r, hcall, hsucc⟩ := Option.map_eq_some'.mp hmap
  have h := force_discards_and_rebuilds 0 ex_handle rocsparse_operation_none 4 7 ex_descr_lower
    ex_val ex_row_ptr ex_col_ind ex_info_lower ex_store_old ex_scratch r (by decide) (by decide)
    (by decide) (by decide) hcall hsucc
  exact ⟨r, hcall, hsucc, h.2.1, h.1 0 (by decide)⟩

/-- C8, counterexample: with fill mode upper the policy is ignored. A force
analysis of the upper triangular example matrix stores handle 0 in the upper slot;
a following call with policy reuse on the unchanged matrix returns success, but
the upper slot then holds another handle and the object of the first analysis has
been freed. -/
theorem reuse_upper_rebuilds :
    ∃ r1 r2,
      rocsparse_csrsv_analysis_template 0 (some ex_handle) rocsparse_operation_none 4 7
        (some ex_descr_upper) (some ex_upper_val) (some ex_upper_row_ptr) (some ex_upper_col_ind)
        (some ex_info_empty) [] rocsparse_analysis_policy_force rocsparse_solve_policy_auto
        (some ex_scratch) = some r1 ∧
      r1.status = rocsparse_status.success ∧ r1.info = some ex_info_upper ∧
      rocsparse_csrsv_analysis_template 0 (some ex_handle) rocsparse_operation_none 4 7
        (some ex_descr_upper) (some ex_upper_val) (some ex_upper_row_ptr) (some ex_upper_col_ind)
        r1.info r1.store rocsparse_analysis_policy_reuse rocsparse_solve_policy_auto
        r1.temp_buffer = some r2 ∧
      r2.status = rocsparse_status.success ∧ r2.info ≠ r1.info ∧
      r1.store[0]? ≠ some none ∧ r2.store[0]? = some none := by
  have h : ((rocsparse_csrsv_analysis_template 0 (some ex_handle) rocsparse_operation_none 4 7
        (some ex_descr_upper) (some ex_upper_val) (some ex_upper_row_ptr) (some ex_upper_col_ind)
        (some ex_info_empty) [] rocsparse_analysis_policy_force rocsparse_solve_policy_auto
        (some ex_scratch)).bind (fun r1 =>
      (rocsparse_csrsv_analysis_template 0 (some ex_handle) rocsparse_operation_none 4 7
        (some ex_descr_upper) (some ex_upper_val) (some ex_upper_row_ptr) (some ex_upper_col_ind)
        r1.info r1.store rocsparse_analysis_policy_reuse rocsparse_solve_policy_auto
        r1.temp_buffer).map (fun r2 =>
          decide (r1.status = rocsparse_status.success ∧ r1.info = some ex_info_upper ∧
            r2.status = rocsparse_status.success ∧ r2.info ≠ r1.info ∧
            r1.store[0]? ≠ some none ∧ r2.store[0]? = some none)))) = some true := by
    set_option maxRecDepth 100000 in decide
  obtain ⟨r1, h1, h2⟩ := Option.bind_eq_some.mp h
  obtain ⟨r2, h3, h4⟩ := Option.map_eq_some'.mp h2
  have h5 := of_decide_eq_true h4
  exact ⟨r1, r2, h1, h5.1, h5.2.1, h3, h5.2.2.1, h5.2.2.2.1, h5.2.2.2.2.1, h5.2.2.2.2.2⟩

/-- C8, amended (reuse policy keeps an existing lower analysis): for a fill mode
other than upper, when the lower slot holds an analysis, an analysis call with
policy reuse and valid arguments returns success and leaves the matrix info, the
store of analysis objects and the scratch buffer unchanged. -/
theorem reuse_keeps_lower (total_spin : Nat) (handle : rocsparse_handle)
    (trans m nnz : Int) (descr : rocsparse_mat_descr) (csr_val : List Rat)
    (csr_row_ptr csr_col_ind : List Int) (minfo : rocsparse_mat_info) (store : InfoStore)
    (buf : Scratch)
    (hbase : descr.base = rocsparse_index_base_zero ∨ descr.base = rocsparse_index_base_one)
    (htype : descr.type = rocsparse_matrix_type_general)
    (hm : 0 ≤ m) (hnnz : 0 ≤ nnz)
    (hfill : descr.fill_mode ≠ rocsparse_fill_mode_upper)
    (hstored : minfo.csrsv_lower_info ≠ none) :
    rocsparse_csrsv_analysis_template total_spin (some handle) trans m nnz (some descr)
        (some csr_val) (some csr_row_ptr) (some csr_col_ind) (some minfo) store
        rocsparse_analysis_policy_reuse rocsparse_solve_policy_auto (some buf)
      = some { status := rocsparse_status.success, info := some minfo, store := store,
               temp_buffer := some buf } := by
  by_cases hq : m = 0 ∨ nnz = 0
  · have h1 : ¬ (descr.base ≠ rocsparse_index_base_zero
        ∧ descr.base ≠ rocsparse_index_base_one) := by
      rcases hbase with h | h <;> simp [h]
    have h3 : ¬ m < 0 := by omega
    have h4 : ¬ nnz < 0 := by omega
    simp only [rocsparse_csrsv_analysis_template, h1, h3, h4, hq, htype, if_false, if_true,
      ne_eq, not_true_eq_false, false_and]
  · rw [template_nonquick total_spin handle trans m nnz descr csr_val csr_row_ptr csr_col_ind
      minfo store _ buf hbase htype (Or.inl rfl) (by omega) (by omega)]
    rw [if_neg hfill, if_pos ⟨rfl, hstored⟩]

/-- Witness of `reuse_keeps_lower`: the example matrix with an analysis in the
lower slot. -/
theorem reuse_keeps_lower_witness :
    rocsparse_csrsv_analysis_template 0 (some ex_handle) rocsparse_operation_none 4 7
        (some ex_descr_lower) (some ex_val) (some ex_row_ptr) (some ex_col_ind)
        (some ex_info_lower) ex_store_old
        rocsparse_analysis_policy_reuse rocsparse_solve_policy_auto (some ex_scratch)
      = some { status := rocsparse_status.success, info := some ex_info_lower,
               store := ex_store_old, temp_buffer := some ex_scratch } :=
  reuse_keeps_lower 0 ex_handle rocsparse_operation_none 4 7 ex_descr_lower ex_val ex_row_ptr
    ex_col_ind ex_info_lower ex_store_old ex_scratch (by decide) (by decide) (by decide)
    (by decide) (by decide) (by decide)

/-- C10 (reuse equals force on an empty cache): for all arguments, valid or not,
and every matrix info that holds no analysis for the requested fill mode (and, for
a fill mode other than upper, no csrilu0 analysis), the analysis call with policy
reuse returns the same status and leaves the same matrix info, store and scratch
buffer as the call with policy force. -/
theorem reuse_eq_force_on_empty (total_spin : Nat) (handle : Option rocsparse_handle)
    (trans m nnz : Int) (descr : rocsparse_mat_descr) (csr_val : Option (List Rat))
    (csr_row_ptr csr_col_ind : Option (List Int)) (minfo : rocsparse_mat_info)
    (store : InfoStore) (solve : Int) (temp_buffer : Option Scratch)
    (hempty : if descr.fill_mode = rocsparse_fill_mode_upper then minfo.csrsv_upper_info = none
              else minfo.csrsv_lower_info = none ∧ minfo.csrilu0_info = none) :
    rocsparse_csrsv_analysis_template total_spin handle trans m nnz (some descr) csr_val
        csr_row_ptr csr_col_ind (some minfo) store rocsparse_analysis_policy_reuse solve
        temp_buffer
      = rocsparse_csrsv_analysis_template total_spin handle trans m nnz (some descr) csr_val
        csr_row_ptr csr_col_ind (some minfo) store rocsparse_analysis_policy_force solve
        temp_buffer := by
  have hr : ¬ (rocsparse_analysis_policy_reuse ≠ rocsparse_analysis_policy_reuse
      ∧ rocsparse_analysis_policy_reuse ≠ rocsparse_analysis_policy_force) := by decide
  have hf : ¬ (rocsparse_analysis_policy_force ≠ rocsparse_analysis_policy_reuse
      ∧ rocsparse_analysis_policy_force ≠ rocsparse_analysis_policy_force) := by decide
  have hne : ¬ (rocsparse_analysis_policy_force = rocsparse_analysis_policy_reuse) := by decide
  unfold rocsparse_csrsv_analysis_template
  cases handle with
  | none => rfl
  | some hd =>
    simp only [hr, hf, if_false]
    by_cases hu : descr.fill_mode = rocsparse_fill_mode_upper
    · simp only [hu, if_true]
    · rw [if_neg hu] at hempty
      simp only [hu, if_false, hempty.1, hempty.2, ne_eq, not_true_eq_false, and_false, hne,
        false_and]

/-- Witness of `reuse_eq_force_on_empty`: the example matrix and the empty matrix
info. -/
theorem reuse_eq_force_on_empty_witness :
    rocsparse_csrsv_analysis_template 0 (some ex_handle) rocsparse_operation_none 4 7
        (some ex_descr_lower) (some ex_val) (some ex_row_ptr) (some ex_col_ind)
        (some ex_info_empty) [] rocsparse_analysis_policy_reuse rocsparse_solve_policy_auto
        (some ex_scratch)
      = rocsparse_csrsv_analysis_template 0 (some ex_handle) rocsparse_operation_none 4 7
        (some ex_descr_lower) (some ex_val) (some ex_row_ptr) (some ex_col_ind)
        (some ex_info_empty) [] rocsparse_analysis_policy_force rocsparse_solve_policy_auto
        (some ex_scratch) :=
  reuse_eq_force_on_empty 0 (some ex_handle) rocsparse_operation_none 4 7 ex_descr_lower
    (some ex_val) (some ex_row_ptr) (some ex_col_ind) ex_info_empty [] rocsparse_solve_policy_auto
    (some ex_scratch) (by decide)

/-! ## The solve entry point -/

/-- C6 (pointer-mode equivalence): the kernel `csrsv_device_pointer`, called with
a pointer to a scalar `a`, performs the computation `csrsv_host_pointer` performs
when called with the value `a`; and `rocsparse_csrsv_solve_template` returns the
same status, `y`, scratch buffer and store for a handle in device pointer mode as
for the same handle in host pointer mode, all other arguments being equal. -/
theorem pointer_mode_equivalence :
    (∀ (m : Int) (a : Rat) (csr_row_ptr csr_col_ind : List Int) (csr_val x : List Rat)
        (mem : SolveMem) (map : List Int) (offset idx_base fill_mode diag_type : Int),
      csrsv_device_pointer m (some a) csr_row_ptr csr_col_ind csr_val x mem map offset idx_base
          fill_mode diag_type
        = csrsv_host_pointer m a csr_row_ptr csr_col_ind csr_val x mem map offset idx_base
          fill_mode diag_type) ∧
    (∀ (wavefront_size trans m nnz : Int) (alpha : Option Rat)
        (descr : Option rocsparse_mat_descr) (csr_val : Option (List Rat))
        (csr_row_ptr csr_col_ind : Option (List Int)) (info : Option rocsparse_mat_info)
        (store : InfoStore) (x y : Option (List Rat)) (policy : Int)
        (temp_buffer : Option Scratch),
      rocsparse_csrsv_solve_template
          (some { wavefront_size := wavefront_size, pointer_mode := rocsparse_pointer_mode_device })
          trans m nnz alpha descr csr_val csr_row_ptr csr_col_ind info store x y policy temp_buffer
        = rocsparse_csrsv_solve_template
          (some { wavefront_size := wavefront_size, pointer_mode := rocsparse_pointer_mode_host })
          trans m nnz alpha descr csr_val csr_row_ptr csr_col_ind info store x y policy
          temp_buffer) := by
  constructor
  · intro m a csr_row_ptr csr_col_ind csr_val x mem map offset idx_base fill_mode diag_type
    rfl
  · intro wavefront_size trans m nnz alpha descr csr_val csr_row_ptr csr_col_ind info store x y
      policy temp_buffer
    cases descr with
    | none => rfl
    | some d =>
      cases info with
      | none => rfl
      | some mi =>
        cases csr_val <;> cases csr_row_ptr <;> cases csr_col_ind <;> cases alpha <;> cases x <;>
          cases y <;> cases temp_buffer <;> rfl

/-- The equations of `L * y = x` for the example matrix
`[[2,0,0,0],[1,3,0,0],[0,1,4,0],[0,0,1,5]]` and `x = [1,1,1,1]` have the one
solution `[1/2, 1/6, 5/24, 19/120]`. -/
theorem example_values (y' : List Rat) (hlen : y'.length = Int.toNat 4)
    (heq : ∀ i, i < Int.toNat 4 →
      DiagonalStored ex_row_ptr ex_col_ind ex_val ex_descr_lower.base i →
      rowProduct ex_row_ptr ex_col_ind ex_val ex_descr_lower.base y' i
        = 1 * (readAt ([1, 1, 1, 1] : List Rat) (i : Int)).getD 0) :
    y' = [1 / 2, 1 / 6, 5 / 24, 19 / 120] := by
  have hds : ∀ i, i < 4 → DiagonalStored ex_row_ptr ex_col_ind ex_val 0 i := by
    intro i hi
    interval_cases i
    · exact ⟨2, rfl, by norm_num⟩
    · exact ⟨3, rfl, by norm_num⟩
    · exact ⟨4, rfl, by norm_num⟩
    · exact ⟨5, rfl, by norm_num⟩
  have e0 := heq 0 (by decide) (hds 0 (by decide))
  have e1 := heq 1 (by decide) (hds 1 (by decide))
  have e2 := heq 2 (by decide) (hds 2 (by decide))
  have e3 := heq 3 (by decide) (hds 3 (by decide))
  match y', hlen with
  | [a, b, c, d], _ =>
    have r0 : csr_row_entries ex_row_ptr ex_col_ind 0 ((0 : Nat) : Int) = some [(0, 0)] := by
      decide
    have r1 : csr_row_entries ex_row_ptr ex_col_ind 0 ((1 : Nat) : Int)
        = some [(1, 0), (2, 1)] := by decide
    have r2 : csr_row_entries ex_row_ptr ex_col_ind 0 ((2 : Nat) : Int)
        = some [(3, 1), (4, 2)] := by decide
    have r3 : csr_row_entries ex_row_ptr ex_col_ind 0 ((3 : Nat) : Int)
        = some [(5, 2), (6, 3)] := by decide
    have hb : ex_descr_lower.base = 0 := rfl
    rw [hb] at e0 e1 e2 e3
    unfold rowProduct at e0 e1 e2 e3
    rw [r0] at e0
    rw [r1] at e1
    rw [r2] at e2
    rw [r3] at e3
    simp [entryTerm, readAt, ex_val] at e0 e1 e2 e3
    have ha : a = 1 / 2 := by linarith
    have hb : b = 1 / 6 := by linarith
    have hc : c = 5 / 24 := by linarith
    have hd : d = 19 / 120 := by linarith
    rw [ha, hb, hc, hd]

/-- The example of the specification: the analysis of
`[[2,0,0,0],[1,3,0,0],[0,1,4,0],[0,0,1,5]]` followed by the solve with
`x = [1,1,1,1]` and `alpha = 1` yields `y = [1/2, 1/6, 5/24, 19/120]`. -/
theorem example_solution :
    ∃ r1 r2,
      rocsparse_csrsv_analysis_template 0 (some ex_handle) rocsparse_operation_none 4 7
        (some ex_descr_lower) (some ex_val) (some ex_row_ptr) (some ex_col_ind)
        (some ex_info_empty) [] rocsparse_analysis_policy_force rocsparse_solve_policy_auto
        (some ex_scratch) = some r1 ∧
      r1.status = rocsparse_status.success ∧
      rocsparse_csrsv_solve_template (some ex_handle) rocsparse_operation_none 4 7 (some 1)
        (some ex_descr_lower) (some ex_val) (some ex_row_ptr) (some ex_col_ind) r1.info r1.store
        (some [1, 1, 1, 1]) (some [0, 0, 0, 0]) rocsparse_solve_policy_auto r1.temp_buffer
        = some r2 ∧
      r2.status = rocsparse_status.success ∧
      r2.y = some [1 / 2, 1 / 6, 5 / 24, 19 / 120] := by
  obtain ⟨r1, r2, y', obj, h1, h2, _, h3, h4, h5, h6, _, h7, _, _⟩ :=
    analysis_then_solve_lower 0 ex_handle rocsparse_operation_none rocsparse_solve_policy_auto 4 7
      1 ex_descr_lower ex_val ex_row_ptr ex_col_ind ex_info_empty [] [1, 1, 1, 1] [0, 0, 0, 0]
      ex_scratch (by decide) (by decide) (by decide) (by decide) (by decide) (by decide)
      (by decide) (by decide) (by decide) (by decide) (by decide) (by decide) (by decide)
      (by decide)
  refine ⟨r1, r2, h1, h2, h3, h4, ?_⟩
  rw [h5]
  exact congrArg some (example_values y' h6 h7)

/-- Numerical correctness of the solve within the reach of the launch grid: for a
lower triangular CSR matrix with `m > 0` rows, `wavefront_size * m ≤ 2^31` (the
grid computation of the analysis, line 217, then provides a wavefront for every
row), every diagonal entry stored (once) and non-zero, non-unit diagonal type,
valid arguments and a device with wavefronts of 32 or 64 lanes, the analysis
(policy force, empty lower slot) and the following solve both return success, and
the `y` produced satisfies `L * y = alpha * x` in exact (rational) arithmetic, row
by row; equivalently `y[i] = (alpha * x[i] - sum_{j<i} L[i][j] * y[j]) / L[i][i]`.
For the matrix `[[2,0,0,0],[1,3,0,0],[0,1,4,0],[0,0,1,5]]`, `x = [1,1,1,1]`,
`alpha = 1`, index base 0 this gives `y = [1/2, 1/6, 5/24, 19/120]`. -/
theorem solve_lower_exact (total_spin : Nat) (handle : rocsparse_handle)
    (trans policy m nnz : Int) (alpha : Rat) (descr : rocsparse_mat_descr) (val : List Rat)
    (rp ci : List Int) (minfo : rocsparse_mat_info) (store : InfoStore) (x y : List Rat)
    (buf : Scratch)
    (hwf : handle.wavefront_size = 32 ∨ handle.wavefront_size = 64)
    (hbase : descr.base = rocsparse_index_base_zero ∨ descr.base = rocsparse_index_base_one)
    (htype : descr.type = rocsparse_matrix_type_general)
    (hfill : descr.fill_mode = rocsparse_fill_mode_lower)
    (hdt : descr.diag_type = rocsparse_diag_type_non_unit)
    (hm : 0 < m) (hmmax : m ≤ rocsparse_int_max) (hnnz : 0 < nnz)
    (hgrid : handle.wavefront_size * m ≤ 2147483648)
    (hlow : LowerTriangular m.toNat rp ci descr.base)
    (hvlen : val.length = ci.length)
    (hx : x.length = m.toNat) (hy : y.length = m.toNat)
    (hslot : minfo.csrsv_lower_info = none)
    (hdiag : ∀ i, i < m.toNat → DiagonalStored rp ci val descr.base i) :
    (∃ r1 r2 y',
      rocsparse_csrsv_analysis_template total_spin (some handle) trans m nnz (some descr)
        (some val) (some rp) (some ci) (some minfo) store rocsparse_analysis_policy_force
        rocsparse_solve_policy_auto (some buf) = some r1 ∧
      r1.status = rocsparse_status.success ∧
      rocsparse_csrsv_solve_template (some handle) trans m nnz (some alpha) (some descr)
        (some val) (some rp) (some ci) r1.info r1.store (some x) (some y) policy
        r1.temp_buffer = some r2 ∧
      r2.status = rocsparse_status.success ∧
      r2.y = some y' ∧ y'.length = m.toNat ∧
      (∀ i, i < m.toNat →
        rowProduct rp ci val descr.base y' i = alpha * (readAt x (i : Int)).getD 0) ∧
      (∀ i, i < m.toNat → ∃ es d,
        csr_row_entries rp ci descr.base (i : Int) = some es ∧
        diagOf val (i : Int) es = [d] ∧ d ≠ 0 ∧
        (readAt y' (i : Int)).getD 0
          = (alpha * (readAt x (i : Int)).getD 0 - depSum val y' (i : Int) es) / d)) ∧
    (∃ r1 r2,
      rocsparse_csrsv_analysis_template 0 (some ex_handle) rocsparse_operation_none 4 7
        (some ex_descr_lower) (some ex_val) (some ex_row_ptr) (some ex_col_ind)
        (some ex_info_empty) [] rocsparse_analysis_policy_force rocsparse_solve_policy_auto
        (some ex_scratch) = some r1 ∧
      r1.status = rocsparse_status.success ∧
      rocsparse_csrsv_solve_template (some ex_handle) rocsparse_operation_none 4 7 (some 1)
        (some ex_descr_lower) (some ex_val) (some ex_row_ptr) (some ex_col_ind) r1.info r1.store
        (some [1, 1, 1, 1]) (some [0, 0, 0, 0]) rocsparse_solve_policy_auto r1.temp_buffer
        = some r2 ∧
      r2.status = rocsparse_status.success ∧
      r2.y = some [1 / 2, 1 / 6, 5 / 24, 19 / 120]) := by
  refine ⟨?_, example_solution⟩
  obtain ⟨r1, r2, y', obj, h1, h2, _, h3, h4, h5, h6, _, h7, _, _⟩ :=
    analysis_then_solve_lower total_spin handle trans policy m nnz alpha descr val rp ci minfo
      store x y buf hwf hbase htype hfill hdt hm hmmax hnnz hgrid hlow hvlen hx hy hslot
  refine ⟨r1, r2, y', h1, h2, h3, h4, h5, h6, fun i hi => h7 i hi (hdiag i hi), ?_⟩
  intro i hi
  obtain ⟨es, hrow, hes⟩ := rowWithin_some _ _ _ (hlow i hi)
  obtain ⟨d, hd1, hd2⟩ := hdiag i hi
  rw [diagValues_eq_diagOf rp ci val descr.base i es hrow] at hd1
  have hval : ∀ e ∈ es, 0 ≤ e.1 ∧ e.1 < (val.length : Int) := by
    intro e he
    have := csr_row_entries_pos rp ci descr.base (i : Int) es hrow e he
    rw [hvlen]
    exact this
  have hsplit := rowProduct_eq_depSum_add rp ci val descr.base y' i d (by omega) es hrow hes hval
    hd1
  have heq := h7 i hi (hdiag i hi)
  rw [hsplit] at heq
  refine ⟨es, d, hrow, hd1, hd2, ?_⟩
  field_simp
  linarith

/-- Witness of `solve_lower_exact`: the theorem at the example matrix of the
specification. -/
theorem solve_lower_exact_witness :
    ∃ r1 r2 y',
      rocsparse_csrsv_analysis_template 0 (some ex_handle) rocsparse_operation_none 4 7
        (some ex_descr_lower) (some ex_val) (some ex_row_ptr) (some ex_col_ind)
        (some ex_info_empty) [] rocsparse_analysis_policy_force rocsparse_solve_policy_auto
        (some ex_scratch) = some r1 ∧
      rocsparse_csrsv_solve_template (some ex_handle) rocsparse_operation_none 4 7 (some 1)
        (some ex_descr_lower) (some ex_val) (some ex_row_ptr) (some ex_col_ind) r1.info r1.store
        (some [1, 1, 1, 1]) (some [0, 0, 0, 0]) rocsparse_solve_policy_auto r1.temp_buffer
        = some r2 ∧
      r2.status = rocsparse_status.success ∧ r2.y = some y' ∧
      (∀ i : Nat, i < 4 → rowProduct ex_row_ptr ex_col_ind ex_val 0 y' i
        = 1 * (readAt ([1, 1, 1, 1] : List Rat) (i : Int)).getD 0) := by
  obtain ⟨⟨r1, r2, y', h1, _, h3, h4, h5, _, h7, _⟩, _⟩ :=
    solve_lower_exact 0 ex_handle rocsparse_operation_none rocsparse_solve_policy_auto 4 7
      1 ex_descr_lower ex_val ex_row_ptr ex_col_ind ex_info_empty [] [1, 1, 1, 1] [0, 0, 0, 0]
      ex_scratch (by decide) (by decide) (by decide) (by decide) (by decide) (by decide)
      (by decide) (by decide) (by decide) (by decide) (by decide) (by decide) (by decide)
      (by decide)
      (by
        intro i hi
        have hi4 : i < 4 := hi
        interval_cases i
        · exact ⟨2, rfl, by norm_num⟩
        · exact ⟨3, rfl, by norm_num⟩
        · exact ⟨4, rfl, by norm_num⟩
        · exact ⟨5, rfl, by norm_num⟩)
  exact ⟨r1, r2, y', h1, h3, h4, h5, h7⟩

/-- Zero-pivot detection within the reach of the launch grid: for a lower
triangular CSR matrix with `m > 0` rows, `wavefront_size * m ≤ 2^31`, non-unit
diagonal type and valid arguments, the analysis (policy force, empty lower slot)
followed by the solve succeeds, and the `zero_pivot` of the analysis object in the
lower slot is then `k` when row `k` is the only row without a stored diagonal
entry, and is the sentinel `rocsparse_int_max` written by the analysis when every
row has a stored non-zero diagonal. -/
theorem zero_pivot_detection (total_spin : Nat) (handle : rocsparse_handle)
    (trans policy m nnz : Int) (alpha : Rat) (descr : rocsparse_mat_descr) (val : List Rat)
    (rp ci : List Int) (minfo : rocsparse_mat_info) (store : InfoStore) (x y : List Rat)
    (buf : Scratch)
    (hwf : handle.wavefront_size = 32 ∨ handle.wavefront_size = 64)
    (hbase : descr.base = rocsparse_index_base_zero ∨ descr.base = rocsparse_index_base_one)
    (htype : descr.type = rocsparse_matrix_type_general)
    (hfill : descr.fill_mode = rocsparse_fill_mode_lower)
    (hdt : descr.diag_type = rocsparse_diag_type_non_unit)
    (hm : 0 < m) (hmmax : m ≤ rocsparse_int_max) (hnnz : 0 < nnz)
    (hgrid : handle.wavefront_size * m ≤ 2147483648)
    (hlow : LowerTriangular m.toNat rp ci descr.base)
    (hvlen : val.length = ci.length)
    (hx : x.length = m.toNat) (hy : y.length = m.toNat)
    (hslot : minfo.csrsv_lower_info = none) :
    ∃ r1 r2 obj,
      rocsparse_csrsv_analysis_template total_spin (some handle) trans m nnz (some descr)
        (some val) (some rp) (some ci) (some minfo) store rocsparse_analysis_policy_force
        rocsparse_solve_policy_auto (some buf) = some r1 ∧
      r1.status = rocsparse_status.success ∧
      rocsparse_csrsv_solve_template (some handle) trans m nnz (some alpha) (some descr)
        (some val) (some rp) (some ci) r1.info r1.store (some x) (some y) policy
        r1.temp_buffer = some r2 ∧
      r2.status = rocsparse_status.success ∧
      r2.store.lookup (r1.info.bind (fun i => i.csrsv_lower_info)) = some obj ∧
      (∀ k, k < m.toNat → rowHasDiag rp ci descr.base k = false →
        (∀ j, j < m.toNat → j ≠ k → rowHasDiag rp ci descr.base j = true) →
        obj.zero_pivot = some (k : Int)) ∧
      ((∀ i, i < m.toNat → DiagonalStored rp ci val descr.base i) →
        obj.zero_pivot = some rocsparse_int_max) := by
  obtain ⟨r1, r2, y', obj, h1, h2, hinfo, h3, h4, _, _, hobj, _, hnone, hk⟩ :=
    analysis_then_solve_lower total_spin handle trans policy m nnz alpha descr val rp ci minfo
      store x y buf hwf hbase htype hfill hdt hm hmmax hnnz hgrid hlow hvlen hx hy hslot
  refine ⟨r1, r2, obj, h1, h2, h3, h4, ?_, ?_, hnone⟩
  · rw [hinfo]
    exact hobj
  · intro k hk1 hk2 hothers
    exact hk k hk1 hk2 (fun j hj => hothers j (by omega) (by omega))

/-- Witness of `zero_pivot_detection`: the matrix
`[[2,0,0,0],[1,3,0,0],[0,1,0,0],[0,0,1,5]]` stored without the diagonal entry of
row 2; after analysis and solve `zero_pivot` is 2. -/
theorem zero_pivot_detection_witness :
    ∃ r1 r2 obj,
      rocsparse_csrsv_analysis_template 0 (some ex_handle) rocsparse_operation_none 4 6
        (some ex_descr_lower) (some ex_missing_val) (some ex_missing_row_ptr)
        (some ex_missing_col_ind) (some ex_info_empty) [] rocsparse_analysis_policy_force
        rocsparse_solve_policy_auto (some ex_scratch) = some r1 ∧
      rocsparse_csrsv_solve_template (some ex_handle) rocsparse_operation_none 4 6 (some 1)
        (some ex_descr_lower) (some ex_missing_val) (some ex_missing_row_ptr)
        (some ex_missing_col_ind) r1.info r1.store (some [1, 1, 1, 1]) (some [0, 0, 0, 0])
        rocsparse_solve_policy_auto r1.temp_buffer = some r2 ∧
      r2.status = rocsparse_status.success ∧
      r2.store.lookup (r1.info.bind (fun i => i.csrsv_lower_info)) = some obj ∧
      obj.zero_pivot = some 2 := by
  obtain ⟨r1, r2, obj, h1, _, h3, h4, h5, h6, _⟩ :=
    zero_pivot_detection 0 ex_handle rocsparse_operation_none rocsparse_solve_policy_auto 4 6
      1 ex_descr_lower ex_missing_val ex_missing_row_ptr ex_missing_col_ind ex_info_empty []
      [1, 1, 1, 1] [0, 0, 0, 0] ex_scratch (by decide) (by decide) (by decide) (by decide)
      (by decide) (by decide) (by decide) (by decide) (by decide) (by decide) (by decide)
      (by decide) (by decide) (by decide)
  refine ⟨r1, r2, obj, h1, h3, h4, h5, ?_⟩
  have := h6 2 (by decide) (by decide) (by
    intro j hj hne
    have hj4 : j < 4 := hj
    interval_cases j
    · decide
    · decide
    · exact absurd rfl hne
    · decide)
  simpa using this

/-! ## Matrices with more rows than the launch grid reaches -/

/-- C4, the code at the failing input: the diagonal matrix `2 I` with `2 ^ 26`
rows, lower triangular with every diagonal entry stored and non-zero, on a device
with wavefronts of 64 lanes. The product `64 * m` is `2 ^ 32`, which is 0 in `int`,
so the grid of line 217 has one block, that is 16 wavefronts; the rows from 16 on
get no worker, their `done` value stays 0, and the host loop of the analysis
computes the level -1 for them and leaves its arrays. The analysis the solve needs
has no defined result, and no `y` with `L * y = alpha * x` is produced. -/
theorem solve_rows_beyond_grid :
    LowerTriangular ex_large_rows ex_large_row_ptr ex_large_col_ind rocsparse_index_base_zero ∧
    (∀ i, i < ex_large_rows →
      DiagonalStored ex_large_row_ptr ex_large_col_ind ex_large_val rocsparse_index_base_zero
        i) ∧
    int32_wrap (ex_handle.wavefront_size * ex_large_m) = 0 ∧
    csrsv_blocks ex_handle.wavefront_size ex_large_m = 1 ∧
    csrsv_wavefronts ex_handle.wavefront_size ex_large_m = 16 ∧
    rocsparse_csrsv_analysis_template 0 (some ex_handle) rocsparse_operation_none ex_large_m
        ex_large_m (some ex_descr_lower) (some ex_large_val) (some ex_large_row_ptr)
        (some ex_large_col_ind) (some ex_info_empty) [] rocsparse_analysis_policy_force
        rocsparse_solve_policy_auto (some (scratch_zero ex_large_m)) = none := by
  refine ⟨?_, ?_, by decide, by decide, by decide, ?_⟩
  · exact diag_lower _
  · intro i hi
    exact diag_stored _ i hi
  exact analysis_template_grid_short 0 ex_handle rocsparse_operation_none ex_large_m ex_large_m
    ex_descr_lower ex_large_val ex_large_row_ptr ex_large_col_ind ex_info_empty []
    (scratch_zero ex_large_m) (by decide) (by decide) (by decide) (by decide) (by decide)
    (by decide) (by decide)

/-- C5, the code at the failing input: the lower triangular matrix with `2 ^ 26`
rows that stores the diagonal entry 2 in every row but row 100, whose only entry is
in column 0, on a device with wavefronts of 64 lanes. The grid of line 217 has one
block, that is 16 wavefronts, so row 100 gets no worker: its missing diagonal is
not seen, the `done` values of the rows from 16 on stay 0, and the host loop of the
analysis computes the level -1 for them and leaves its arrays. Analysis followed by
solve does not report `zero_pivot == 100`. -/
theorem zero_pivot_beyond_grid :
    LowerTriangular ex_large_rows ex_large_row_ptr ex_large_missing_col_ind
      rocsparse_index_base_zero ∧
    rowHasDiag ex_large_row_ptr ex_large_missing_col_ind rocsparse_index_base_zero 100
      = false ∧
    (∀ j, j < ex_large_rows → j ≠ 100 →
      rowHasDiag ex_large_row_ptr ex_large_missing_col_ind rocsparse_index_base_zero j
        = true) ∧
    csrsv_wavefronts ex_handle.wavefront_size ex_large_m = 16 ∧
    (16 : Nat) ≤ 100 ∧
    rocsparse_csrsv_analysis_template 0 (some ex_handle) rocsparse_operation_none ex_large_m
        ex_large_m (some ex_descr_lower) (some ex_large_val) (some ex_large_row_ptr)
        (some ex_large_missing_col_ind) (some ex_info_empty) []
        rocsparse_analysis_policy_force rocsparse_solve_policy_auto
        (some (scratch_zero ex_large_m)) = none := by
  refine ⟨?_, ?_, ?_, by decide, by decide, ?_⟩
  · exact (diag_missing_rows _ 100 (by decide) (by decide)).1
  · exact (diag_missing_rows _ 100 (by decide) (by decide)).2.1
  · exact (diag_missing_rows _ 100 (by decide) (by decide)).2.2
  exact analysis_template_grid_short 0 ex_handle rocsparse_operation_none ex_large_m ex_large_m
    ex_descr_lower ex_large_val ex_large_row_ptr ex_large_missing_col_ind ex_info_empty []
    (scratch_zero ex_large_m) (by decide) (by decide) (by decide) (by decide) (by decide)
    (by decide) (by decide)

/-! ## Ownership of analysis objects and the slots of the fill modes -/

/-- C11 (shared ownership of an aliased analysis), the code at the failing input
and at every input like it: let the csrilu0 slot hold the handle `a` of a live
analysis object with a single holder (as `rocsparse_create_csrtr_info` leaves it)
and the csrsv lower slot be empty. A reuse call with fill mode lower copies the
handle into the lower slot (line 519) and leaves the store as it is. A following
force call on the same lower triangular matrix returns success and stores a new
handle in the lower slot, but its "clear csrsv info" step (line 529) hands the
copied handle to `rocsparse_destroy_csrtr_info`: afterwards the csrilu0 slot
still holds `a`, and the cell behind `a` has been freed, so the csrilu0 slot
refers to no live object. -/
theorem aliased_analysis_freed_by_force (total_spin1 total_spin2 : Nat)
    (handle : rocsparse_handle) (trans m nnz : Int) (descr : rocsparse_mat_descr)
    (val : List Rat) (rp ci : List Int) (minfo : rocsparse_mat_info) (store : InfoStore)
    (buf : Scratch) (a : Nat) (cell : SharedInfo)
    (hwf : handle.wavefront_size = 32 ∨ handle.wavefront_size = 64)
    (hbase : descr.base = rocsparse_index_base_zero ∨ descr.base = rocsparse_index_base_one)
    (htype : descr.type = rocsparse_matrix_type_general)
    (hfill : descr.fill_mode = rocsparse_fill_mode_lower)
    (hm : 0 < m) (hmmax : m ≤ rocsparse_int_max) (hnnz : 0 < nnz)
    (hgrid : handle.wavefront_size * m ≤ 2147483648)
    (hlow : LowerTriangular m.toNat rp ci descr.base)
    (hslot : minfo.csrsv_lower_info = none) (hilu : minfo.csrilu0_info = some a)
    (hcell : store[a]? = some (some cell)) (hrefs : cell.refs ≤ 1) :
    ∃ r1 r2 minfo2,
      rocsparse_csrsv_analysis_template total_spin1 (some handle) trans m nnz (some descr)
        (some val) (some rp) (some ci) (some minfo) store rocsparse_analysis_policy_reuse
        rocsparse_solve_policy_auto (some buf) = some r1 ∧
      r1.status = rocsparse_status.success ∧
      r1.info = some { minfo with csrsv_lower_info := some a } ∧
      r1.store = store ∧
      rocsparse_csrsv_analysis_template total_spin2 (some handle) trans m nnz (some descr)
        (some val) (some rp) (some ci) r1.info r1.store rocsparse_analysis_policy_force
        rocsparse_solve_policy_auto r1.temp_buffer = some r2 ∧
      r2.status = rocsparse_status.success ∧
      r2.info = some minfo2 ∧
      minfo2.csrilu0_info = some a ∧
      minfo2.csrsv_lower_info = some store.length ∧
      r2.store[a]? = some none ∧
      r2.store.lookup minfo2.csrilu0_info = none := by
  have hnu : descr.fill_mode ≠ rocsparse_fill_mode_upper := by
    rw [hfill]
    decide
  have ha : a < store.length := by
    by_contra hge
    rw [List.getElem?_eq_none (by omega)] at hcell
    cases hcell
  obtain ⟨_, cr, _, _, hcr, hstat, _⟩ :=
    csrtr_analysis_lower total_spin2 handle trans m nnz descr rp ci empty_csrtr_info hwf hfill
      (by omega) hmmax hgrid hlow
  have h1 : rocsparse_csrsv_analysis_template total_spin1 (some handle) trans m nnz (some descr)
      (some val) (some rp) (some ci) (some minfo) store rocsparse_analysis_policy_reuse
      rocsparse_solve_policy_auto (some buf)
      = some { status := rocsparse_status.success,
               info := some { minfo with csrsv_lower_info := some a },
               store := store, temp_buffer := some buf } := by
    rw [template_nonquick total_spin1 handle trans m nnz descr val rp ci minfo store _ buf hbase
      htype (Or.inl rfl) hm hnnz]
    rw [if_neg hnu, if_neg (by simp [hslot]), if_pos (by simp [hilu]), hilu]
  have h2 : rocsparse_csrsv_analysis_template total_spin2 (some handle) trans m nnz (some descr)
      (some val) (some rp) (some ci) (some { minfo with csrsv_lower_info := some a })
      store rocsparse_analysis_policy_force rocsparse_solve_policy_auto (some buf)
      = some { status := cr.status,
               info := some { minfo with csrsv_lower_info := some store.length },
               store := store.set a none ++ [some { refs := 1, obj := cr.info }],
               temp_buffer := some cr.temp_buffer } := by
    rw [template_nonquick total_spin2 handle trans m nnz descr val rp ci _ _ _ buf hbase
      htype (Or.inr rfl) hm hnnz]
    have hne : ¬ (rocsparse_analysis_policy_force = rocsparse_analysis_policy_reuse) := by
      decide
    rw [if_neg hnu, if_neg (fun h => hne h.1), if_neg (fun h => hne h.1)]
    rw [rebuild_analysis_released total_spin2 handle trans m nnz descr rp ci _ (some a) _ store
      (store.set a none) buf cr (destroy_last_holder store a cell hcell hrefs) hcr]
  have hfreed : (store.set a none ++ [some { refs := 1, obj := cr.info }])[a]?
      = some none := by
    rw [List.getElem?_append_left (by rw [List.length_set]; exact ha)]
    rw [List.getElem?_set_self ha]
  refine ⟨_, _, _, h1, rfl, rfl, rfl, h2, hstat, rfl, hilu, rfl, hfreed, ?_⟩
  simp only [hilu, InfoStore.lookup, hfreed]

/-- Witness of `aliased_analysis_freed_by_force`: the example matrix, the csrilu0
slot holding the handle 0 of a store with one object that has one holder. After
the reuse call and the force call the csrilu0 slot still holds the handle 0 and
the cell 0 of the store is freed. -/
theorem aliased_analysis_freed_by_force_witness :
    ∃ r1 r2 minfo2,
      rocsparse_csrsv_analysis_template 0 (some ex_handle) rocsparse_operation_none 4 7
        (some ex_descr_lower) (some ex_val) (some ex_row_ptr) (some ex_col_ind)
        (some ex_info_ilu0) ex_store_old rocsparse_analysis_policy_reuse
        rocsparse_solve_policy_auto (some ex_scratch) = some r1 ∧
      r1.status = rocsparse_status.success ∧
      r1.info = some { ex_info_ilu0 with csrsv_lower_info := some 0 } ∧
      r1.store = ex_store_old ∧
      rocsparse_csrsv_analysis_template 0 (some ex_handle) rocsparse_operation_none 4 7
        (some ex_descr_lower) (some ex_val) (some ex_row_ptr) (some ex_col_ind) r1.info r1.store
        rocsparse_analysis_policy_force rocsparse_solve_policy_auto r1.temp_buffer = some r2 ∧
      r2.status = rocsparse_status.success ∧
      r2.info = some minfo2 ∧
      minfo2.csrilu0_info = some 0 ∧
      minfo2.csrsv_lower_info = some ex_store_old.length ∧
      r2.store[0]? = some none ∧
      r2.store.lookup minfo2.csrilu0_info = none :=
  aliased_analysis_freed_by_force 0 0 ex_handle rocsparse_operation_none 4 7 ex_descr_lower
    ex_val ex_row_ptr ex_col_ind ex_info_ilu0 ex_store_old ex_scratch 0
    { refs := 1, obj := ex_old_info } (by decide) (by decide) (by decide) (by decide)
    (by decide) (by decide) (by decide) (by decide) (by decide) (by decide) (by decide)
    (by decide) (by decide)

/-- C12 (fill-mode separation): an analysis call that returns leaves the csrilu0
slot as it was and, with fill mode upper, the lower slot as it was, with any other
fill mode the upper slot as it was. A solve reads the matrix info only through the
upper slot when its fill mode is upper and only through the lower slot otherwise.
Hence a solve whose fill mode is the other one gives, on every store, the same
result with the matrix info the analysis call left as with the matrix info from
before that call: it does not consume the analysis that call built. -/
theorem fill_mode_separation (total_spin : Nat) (handle : Option rocsparse_handle)
    (trans m nnz : Int) (descr : rocsparse_mat_descr) (csr_val : Option (List Rat))
    (csr_row_ptr csr_col_ind : Option (List Int)) (minfo : rocsparse_mat_info)
    (store : InfoStore) (analysis solve : Int) (temp_buffer : Option Scratch)
    (r : AnalysisResult)
    (hcall : rocsparse_csrsv_analysis_template total_spin handle trans m nnz (some descr)
      csr_val csr_row_ptr csr_col_ind (some minfo) store analysis solve temp_buffer = some r) :
    ∃ minfo2, r.info = some minfo2 ∧
      minfo2.csrilu0_info = minfo.csrilu0_info ∧
      (descr.fill_mode = rocsparse_fill_mode_upper →
        minfo2.csrsv_lower_info = minfo.csrsv_lower_info) ∧
      (descr.fill_mode ≠ rocsparse_fill_mode_upper →
        minfo2.csrsv_upper_info = minfo.csrsv_upper_info) ∧
      (∀ (handleS : Option rocsparse_handle) (transS mS nnzS : Int) (alpha : Option Rat)
          (descrS : rocsparse_mat_descr) (valS : Option (List Rat))
          (rpS ciS : Option (List Int)) (infoA infoB : rocsparse_mat_info) (st : InfoStore)
          (x y : Option (List Rat)) (policy : Int) (bufS : Option Scratch),
        (if descrS.fill_mode = rocsparse_fill_mode_upper
          then infoA.csrsv_upper_info = infoB.csrsv_upper_info
          else infoA.csrsv_lower_info = infoB.csrsv_lower_info) →
        rocsparse_csrsv_solve_template handleS transS mS nnzS alpha (some descrS) valS rpS ciS
            (some infoA) st x y policy bufS
          = rocsparse_csrsv_solve_template handleS transS mS nnzS alpha (some descrS) valS rpS
            ciS (some infoB) st x y policy bufS) ∧
      (∀ (handleS : Option rocsparse_handle) (transS mS nnzS : Int) (alpha : Option Rat)
          (descrS : rocsparse_mat_descr) (valS : Option (List Rat))
          (rpS ciS : Option (List Int)) (st : InfoStore)
          (x y : Option (List Rat)) (policy : Int) (bufS : Option Scratch),
        ¬ (descrS.fill_mode = rocsparse_fill_mode_upper
            ↔ descr.fill_mode = rocsparse_fill_mode_upper) →
        rocsparse_csrsv_solve_template handleS transS mS nnzS alpha (some descrS) valS rpS ciS
            (some minfo2) st x y policy bufS
          = rocsparse_csrsv_solve_template handleS transS mS nnzS alpha (some descrS) valS rpS
            ciS (some minfo) st x y policy bufS) := by
  obtain ⟨s, hs⟩ := analysis_template_slot total_spin handle trans m nnz descr csr_val
    csr_row_ptr csr_col_ind minfo store analysis solve temp_buffer r hcall
  refine ⟨set_analysis_slot descr minfo s, hs, ?_, ?_, ?_, ?_, ?_⟩
  · unfold set_analysis_slot
    by_cases hu : descr.fill_mode = rocsparse_fill_mode_upper
    · simp only [hu, if_true]
    · simp only [hu, if_false]
  · intro hu
    simp only [set_analysis_slot, hu, if_true]
  · intro hu
    simp only [set_analysis_slot, hu, if_false]
  · intro handleS transS mS nnzS alpha descrS valS rpS ciS infoA infoB st x y policy bufS hslot
    apply solve_template_slot
    unfold analysis_slot
    by_cases hS : descrS.fill_mode = rocsparse_fill_mode_upper
    · simpa only [hS, if_true] using hslot
    · simpa only [hS, if_false] using hslot
  · intro handleS transS mS nnzS alpha descrS valS rpS ciS st x y policy bufS hother
    apply solve_template_slot
    unfold analysis_slot set_analysis_slot
    by_cases hS : descrS.fill_mode = rocsparse_fill_mode_upper
    · have hu : ¬ descr.fill_mode = rocsparse_fill_mode_upper := fun hu =>
        hother ⟨fun _ => hu, fun _ => hS⟩
      simp only [hS, hu, if_true, if_false]
    · have hu : descr.fill_mode = rocsparse_fill_mode_upper := by
        by_contra hu
        exact hother ⟨fun h => absurd h hS, fun h => absurd h hu⟩
      simp only [hS, hu, if_true, if_false]

/-- Witness of `fill_mode_separation`: a force analysis of the upper triangular
example matrix, the lower slot holding the handle 0 of an earlier analysis. The
lower slot still holds the handle 0 afterwards. -/
theorem fill_mode_separation_witness :
    ∃ r minfo2,
      rocsparse_csrsv_analysis_template 0 (some ex_handle) rocsparse_operation_none 4 7
        (some ex_descr_upper) (some ex_upper_val) (some ex_upper_row_ptr)
        (some ex_upper_col_ind) (some ex_info_lower) ex_store_old
        rocsparse_analysis_policy_force rocsparse_solve_policy_auto (some ex_scratch) = some r ∧
      r.status = rocsparse_status.success ∧
      r.info = some minfo2 ∧
      minfo2.csrilu0_info = ex_info_lower.csrilu0_info ∧
      minfo2.csrsv_lower_info = some 0 := by
  have hmap : (rocsparse_csrsv_analysis_template 0 (some ex_handle) rocsparse_operation_none 4 7
        (some ex_descr_upper) (some ex_upper_val) (some ex_upper_row_ptr)
        (some ex_upper_col_ind) (some ex_info_lower) ex_store_old
        rocsparse_analysis_policy_force rocsparse_solve_policy_auto (some ex_scratch)).map
        (fun r => r.status) = some rocsparse_status.success := by
    set_option maxRecDepth 100000 in decide
  obtain ⟨r, hcall, hsucc⟩ := Option.map_eq_some'.mp hmap
  obtain ⟨minfo2, h1, h2, h3, _⟩ := fill_mode_separation 0 (some ex_handle)
    rocsparse_operation_none 4 7 ex_descr_upper (some ex_upper_val) (some ex_upper_row_ptr)
    (some ex_upper_col_ind) ex_info_lower ex_store_old rocsparse_analysis_policy_force
    rocsparse_solve_policy_auto (some ex_scratch) r hcall
  exact ⟨r, minfo2, hcall, hsucc, h1, h2, h3 (by decide)⟩

/-! ## The workspace size -/

/-- C13 (workspace size formula): for `1 ≤ m` (a `rocsparse_int`), `1 ≤ nnz`,
otherwise valid arguments and the size query of the scan primitive succeeding with
`s` bytes, `rocsparse_csrsv_buffer_size_template` returns success and writes
`768 + 2 * 4 * (((m - 1) / 256 + 1) * 256) + s`, reduced modulo `2 ^ 64` as all
`size_t` arithmetic is (the sum itself whenever it is a `size_t` value); and
`((m - 1) / 256 + 1) * 256` is the least multiple of 256 that is at least `m`. -/
theorem buffer_size_formula (scan_size : Int → ScanSizeQuery) (handle : rocsparse_handle)
    (trans m nnz : Int) (descr : rocsparse_mat_descr) (csr_val : List Rat)
    (csr_row_ptr csr_col_ind : List Int) (minfo : rocsparse_mat_info) (old s : Nat)
    (hbase : descr.base = rocsparse_index_base_zero ∨ descr.base = rocsparse_index_base_one)
    (htype : descr.type = rocsparse_matrix_type_general)
    (hm : 1 ≤ m) (hmmax : m ≤ rocsparse_int_max) (hnnz : 1 ≤ nnz)
    (hscan : scan_size m = ScanSizeQuery.ok s) :
    rocsparse_csrsv_buffer_size_template scan_size (some handle) trans m nnz (some descr)
        (some csr_val) (some csr_row_ptr) (some csr_col_ind) (some minfo) (some old)
      = (rocsparse_status.success,
          some ((768 + 2 * 4 * (((m - 1) / 256 + 1) * 256).toNat + s) % size_t_range)) ∧
    (768 + 2 * 4 * (((m - 1) / 256 + 1) * 256).toNat + s < size_t_range →
      rocsparse_csrsv_buffer_size_template scan_size (some handle) trans m nnz (some descr)
          (some csr_val) (some csr_row_ptr) (some csr_col_ind) (some minfo) (some old)
        = (rocsparse_status.success,
            some (768 + 2 * 4 * (((m - 1) / 256 + 1) * 256).toNat + s))) ∧
    ((256 : Int) ∣ ((m - 1) / 256 + 1) * 256 ∧ m ≤ ((m - 1) / 256 + 1) * 256 ∧
      ∀ q : Int, (256 : Int) ∣ q → m ≤ q → ((m - 1) / 256 + 1) * 256 ≤ q) := by
  have h := buffer_size_nonquick scan_size handle trans m nnz descr csr_val csr_row_ptr
    csr_col_ind minfo old hbase htype hm hmmax hnnz
  rw [hscan] at h
  simp only at h
  rw [paddedRows_eq m hm] at h
  have hl := paddedRows_least m hm
  rw [paddedRows_eq m hm] at hl
  refine ⟨h, ?_, hl⟩
  intro hlt
  rw [h, Nat.mod_eq_of_lt hlt]

/-- Witness of `buffer_size_formula`: four rows, seven non-zeros and a scan that
asks for 767 bytes give `768 + 2 * 4 * 256 + 767 = 3583` bytes. -/
theorem buffer_size_formula_witness :
    rocsparse_csrsv_buffer_size_template ex_scan_size (some ex_handle) rocsparse_operation_none
        4 7 (some ex_descr_lower) (some ex_val) (some ex_row_ptr) (some ex_col_ind)
        (some ex_info_empty) (some 0)
      = (rocsparse_status.success, some 3583) :=
  (buffer_size_formula ex_scan_size ex_handle rocsparse_operation_none 4 7 ex_descr_lower
    ex_val ex_row_ptr ex_col_ind ex_info_empty 0 767 (by decide) (by decide) (by decide)
    (by decide) (by decide) rfl).2.1 (by decide)

/-- C14 (degenerate workspace size): for non-negative `m` and `nnz` with `m = 0`
or `nnz = 0` and otherwise valid arguments, `rocsparse_csrsv_buffer_size_template`
returns success and writes the strictly positive size 4, whatever the scan
primitive would answer: it is not asked. -/
theorem buffer_size_degenerate (scan_size : Int → ScanSizeQuery) (handle : rocsparse_handle)
    (trans m nnz : Int) (descr : rocsparse_mat_descr) (csr_val : List Rat)
    (csr_row_ptr csr_col_ind : List Int) (minfo : rocsparse_mat_info) (old : Nat)
    (hbase : descr.base = rocsparse_index_base_zero ∨ descr.base = rocsparse_index_base_one)
    (htype : descr.type = rocsparse_matrix_type_general)
    (hm : 0 ≤ m) (hnnz : 0 ≤ nnz) (hzero : m = 0 ∨ nnz = 0) :
    rocsparse_csrsv_buffer_size_template scan_size (some handle) trans m nnz (some descr)
        (some csr_val) (some csr_row_ptr) (some csr_col_ind) (some minfo) (some old)
      = (rocsparse_status.success, some 4) ∧ 0 < 4 := by
  exact ⟨buffer_size_quick scan_size handle trans m nnz descr csr_val csr_row_ptr csr_col_ind
    minfo old hbase htype hm hnnz hzero, by decide⟩

/-- Witness of `buffer_size_degenerate`: four rows without stored entries, and a
scan primitive whose query would fail. -/
theorem buffer_size_degenerate_witness :
    rocsparse_csrsv_buffer_size_template
        (fun _ => ScanSizeQuery.failed rocsparse_status.internal_error) (some ex_handle)
        rocsparse_operation_none 4 0 (some ex_descr_lower) (some []) (some [0, 0, 0, 0, 0])
        (some []) (some ex_info_empty) (some 0)
      = (rocsparse_status.success, some 4) ∧ 0 < 4 :=
  buffer_size_degenerate (fun _ => ScanSizeQuery.failed rocsparse_status.internal_error)
    ex_handle rocsparse_operation_none 4 0 ex_descr_lower [] [0, 0, 0, 0, 0] [] ex_info_empty 0
    (by decide) (by decide) (by decide) (by decide) (by decide)

/-- C15, counterexample: for one row the reported size is 4 with no stored entry
and `768 + 2 * 4 * 256 + 767 = 3583` with one stored entry, all other arguments
being equal. -/
theorem buffer_size_depends_on_nnz :
    rocsparse_csrsv_buffer_size_template ex_scan_size (some ex_handle) rocsparse_operation_none
        1 0 (some ex_descr_lower) (some [2]) (some [0, 1]) (some [0]) (some ex_info_empty)
        (some 0) = (rocsparse_status.success, some 4) ∧
    rocsparse_csrsv_buffer_size_template ex_scan_size (some ex_handle) rocsparse_operation_none
        1 1 (some ex_descr_lower) (some [2]) (some [0, 1]) (some [0]) (some ex_info_empty)
        (some 0) = (rocsparse_status.success, some 3583) ∧
    (4 : Nat) ≠ 3583 := by
  refine ⟨?_, ?_, by decide⟩
  · exact buffer_size_quick ex_scan_size ex_handle rocsparse_operation_none 1 0
      ex_descr_lower [2] [0, 1] [0] ex_info_empty 0 (by decide) (by decide) (by decide)
      (by decide) (by decide)
  · have h := buffer_size_nonquick ex_scan_size ex_handle rocsparse_operation_none 1 1
      ex_descr_lower [2] [0, 1] [0] ex_info_empty 0 (by decide) (by decide) (by decide)
      (by decide) (by decide)
    rw [h]
    decide

/-- C15, amended (the workspace size depends on `m` and on whether `nnz` is zero):
for `m ≥ 0` and two non-negative counts `nnz1` and `nnz2` that are both zero or both
positive, or with `m = 0`, `rocsparse_csrsv_buffer_size_template` returns the same
status and size for `(m, nnz1)` and `(m, nnz2)`, all other arguments being equal. -/
theorem buffer_size_same_for_nnz (scan_size : Int → ScanSizeQuery)
    (handle : Option rocsparse_handle) (trans m nnz1 nnz2 : Int)
    (descr : Option rocsparse_mat_descr) (csr_val : Option (List Rat))
    (csr_row_ptr csr_col_ind : Option (List Int)) (info : Option rocsparse_mat_info)
    (buffer_size : Option Nat)
    (hm : 0 ≤ m) (hn1 : 0 ≤ nnz1) (hn2 : 0 ≤ nnz2)
    (hsame : m = 0 ∨ (nnz1 = 0 ↔ nnz2 = 0)) :
    rocsparse_csrsv_buffer_size_template scan_size handle trans m nnz1 descr csr_val csr_row_ptr
        csr_col_ind info buffer_size
      = rocsparse_csrsv_buffer_size_template scan_size handle trans m nnz2 descr csr_val
        csr_row_ptr csr_col_ind info buffer_size := by
  have _ := hm
  have h1 : ¬ nnz1 < 0 := by omega
  have h2 : ¬ nnz2 < 0 := by omega
  have hq : (m = 0 ∨ nnz1 = 0) ↔ (m = 0 ∨ nnz2 = 0) := by
    rcases hsame with h | h
    · simp [h]
    · rw [h]
  simp only [rocsparse_csrsv_buffer_size_template, h1, h2, hq, if_false]

/-- Witness of `buffer_size_same_for_nnz`: four rows with seven and with three
stored entries. -/
theorem buffer_size_same_for_nnz_witness :
    rocsparse_csrsv_buffer_size_template ex_scan_size (some ex_handle) rocsparse_operation_none
        4 7 (some ex_descr_lower) (some ex_val) (some ex_row_ptr) (some ex_col_ind)
        (some ex_info_empty) (some 0)
      = rocsparse_csrsv_buffer_size_template ex_scan_size (some ex_handle)
        rocsparse_operation_none 4 3 (some ex_descr_lower) (some ex_val) (some ex_row_ptr)
        (some ex_col_ind) (some ex_info_empty) (some 0) :=
  buffer_size_same_for_nnz ex_scan_size (some ex_handle) rocsparse_operation_none 4 7 3
    (some ex_descr_lower) (some ex_val) (some ex_row_ptr) (some ex_col_ind) (some ex_info_empty)
    (some 0) (by decide) (by decide) (by decide) (by decide)

/-- C16 (workspace sufficiency): for `1 ≤ m` (a `rocsparse_int`) and
`P = ((m - 1) / 256 + 1) * 256`, the regions the analysis carves from the scratch
buffer start at the bytes 0 (`max_depth`), 256 (`total_spin`), 512 (`max_nnz`), 768
(`done`), `768 + 4 P` (`rows_per_level`) and `768 + 8 P` (scratch of the scan);
they follow one another without overlap, the two arrays hold `m` entries each
(`m ≤ P`), the zeroed part is `768 + 8 P` bytes, and the scratch of a scan over
`max_depth ≤ m` elements ends within the size `rocsparse_csrsv_buffer_size_template`
reports for the same `m` whenever that scan asks for no more bytes than the scan
over `m` elements. The solve addresses the done array at the same offset 768 and
sets to zero the `4 m` bytes from there, which lie inside the done region. -/
theorem scratch_layout_sufficient (m : Int) (hm : 1 ≤ m) (hmmax : m ≤ rocsparse_int_max) :
    (csrtr_analysis_layout m).d_max_depth = 0 ∧
    (csrtr_analysis_layout m).d_total_spin = 256 ∧
    (csrtr_analysis_layout m).d_max_nnz = 512 ∧
    (csrtr_analysis_layout m).d_done_array = 768 ∧
    (csrtr_analysis_layout m).d_rows_per_level = 768 + 4 * (((m - 1) / 256 + 1) * 256).toNat ∧
    (csrtr_analysis_layout m).hipcub_buffer = 768 + 8 * (((m - 1) / 256 + 1) * 256).toNat ∧
    (csrtr_analysis_layout m).memset_bytes = 768 + 8 * (((m - 1) / 256 + 1) * 256).toNat ∧
    (csrtr_analysis_layout m).d_max_depth + sizeof_rocsparse_int
      ≤ (csrtr_analysis_layout m).d_total_spin ∧
    (csrtr_analysis_layout m).d_total_spin + sizeof_unsigned_long_long
      ≤ (csrtr_analysis_layout m).d_max_nnz ∧
    (csrtr_analysis_layout m).d_max_nnz + sizeof_rocsparse_int
      ≤ (csrtr_analysis_layout m).d_done_array ∧
    (csrtr_analysis_layout m).d_done_array + sizeof_rocsparse_int * m.toNat
      ≤ (csrtr_analysis_layout m).d_rows_per_level ∧
    (csrtr_analysis_layout m).d_rows_per_level + sizeof_rocsparse_int * m.toNat
      ≤ (csrtr_analysis_layout m).hipcub_buffer ∧
    m ≤ ((m - 1) / 256 + 1) * 256 ∧
    (∀ (scan_size : Int → ScanSizeQuery) (handle : rocsparse_handle) (trans nnz : Int)
        (descr : rocsparse_mat_descr) (csr_val : List Rat) (csr_row_ptr csr_col_ind : List Int)
        (minfo : rocsparse_mat_info) (old s s' : Nat) (max_depth : Int),
      (descr.base = rocsparse_index_base_zero ∨ descr.base = rocsparse_index_base_one) →
      descr.type = rocsparse_matrix_type_general → 1 ≤ nnz →
      scan_size m = ScanSizeQuery.ok s →
      768 + 8 * (((m - 1) / 256 + 1) * 256).toNat + s < size_t_range →
      max_depth ≤ m → scan_size max_depth = ScanSizeQuery.ok s' → s' ≤ s →
      ∃ size, rocsparse_csrsv_buffer_size_template scan_size (some handle) trans m nnz
          (some descr) (some csr_val) (some csr_row_ptr) (some csr_col_ind) (some minfo)
          (some old) = (rocsparse_status.success, some size) ∧
        (csrtr_analysis_layout m).memset_bytes ≤ size ∧
        (csrtr_analysis_layout m).hipcub_buffer + s' ≤ size) ∧
    (csrsv_solve_layout m).d_done_array = (csrtr_analysis_layout m).d_done_array ∧
    (csrsv_solve_layout m).memset_bytes = sizeof_rocsparse_int * m.toNat ∧
    (csrsv_solve_layout m).d_done_array + (csrsv_solve_layout m).memset_bytes
      ≤ (csrtr_analysis_layout m).d_rows_per_level := by
  have hpb := padded_bytes_eq m hm hmmax
  rw [paddedRows_eq m hm] at hpb
  have hP : (((m - 1) / 256 + 1) * 256).toNat ≤ 2147483904 := by
    unfold rocsparse_int_max at hmmax
    omega
  have hmP : m ≤ ((m - 1) / 256 + 1) * 256 := by omega
  have hsolve : (csrsv_solve_layout m).memset_bytes = sizeof_rocsparse_int * m.toNat := by
    unfold csrsv_solve_layout size_t_of_int sizeof_rocsparse_int size_t_range
    unfold rocsparse_int_max at hmmax
    simp only
    push_cast
    omega
  refine ⟨rfl, rfl, rfl, rfl, ?_, ?_, ?_, ?_, ?_, ?_, ?_, ?_, hmP, ?_, rfl, hsolve, ?_⟩
  · simp only [csrtr_analysis_layout, hpb]
  · simp only [csrtr_analysis_layout, hpb]
    omega
  · simp only [csrtr_analysis_layout, hpb, size_t_range]
    omega
  · simp only [csrtr_analysis_layout, sizeof_rocsparse_int]
    omega
  · simp only [csrtr_analysis_layout, sizeof_unsigned_long_long]
    omega
  · simp only [csrtr_analysis_layout, sizeof_rocsparse_int]
    omega
  · simp only [csrtr_analysis_layout, hpb, sizeof_rocsparse_int]
    omega
  · simp only [csrtr_analysis_layout, hpb, sizeof_rocsparse_int]
    omega
  · intro scan_size handle trans nnz descr csr_val csr_row_ptr csr_col_ind minfo old s s'
      max_depth hbase htype hnnz hscan hfit _ _ hle
    have h := buffer_size_nonquick scan_size handle trans m nnz descr csr_val csr_row_ptr
      csr_col_ind minfo old hbase htype hm hmmax hnnz
    rw [hscan] at h
    simp only at h
    rw [paddedRows_eq m hm] at h
    refine ⟨_, h, ?_, ?_⟩
    · simp only [csrtr_analysis_layout, hpb, size_t_range] at hfit ⊢
      omega
    · simp only [csrtr_analysis_layout, hpb, size_t_range] at hfit ⊢
      omega
  · rw [hsolve]
    simp only [csrtr_analysis_layout, csrsv_solve_layout, hpb, sizeof_rocsparse_int]
    omega

/-- Witness of `scratch_layout_sufficient`: 300 rows, padded to 512 entries. -/
theorem scratch_layout_sufficient_witness :
    (csrtr_analysis_layout 300).d_done_array = 768 ∧
    (csrtr_analysis_layout 300).d_rows_per_level = 768 + 4 * 512 ∧
    (csrtr_analysis_layout 300).hipcub_buffer = 768 + 8 * 512 ∧
    (csrsv_solve_layout 300).d_done_array + (csrsv_solve_layout 300).memset_bytes
      ≤ (csrtr_analysis_layout 300).d_rows_per_level := by
  have h := scratch_layout_sufficient 300 (by decide) (by decide)
  exact ⟨h.2.2.2.1, h.2.2.2.2.1, h.2.2.2.2.2.1, h.2.2.2.2.2.2.2.2.2.2.2.2.2.2.2.2⟩

/-! ## Quick returns and argument checks -/

/-- C17 (quick return of analysis): for valid arguments (non-null handle,
descriptor, info and pointers, valid index base, general matrix type, policy reuse
or force, solve policy auto) with non-negative sizes and `m = 0` or `nnz = 0`,
`rocsparse_csrsv_analysis_template` returns success for every fill mode, and
leaves the matrix info (both csrsv slots and the csrilu0 slot), the store of
analysis objects and the scratch buffer unchanged: no kernel is launched. -/
theorem analysis_quick_return (total_spin : Nat) (handle : rocsparse_handle)
    (trans m nnz : Int) (descr : rocsparse_mat_descr) (csr_val : List Rat)
    (csr_row_ptr csr_col_ind : List Int) (minfo : rocsparse_mat_info) (store : InfoStore)
    (analysis : Int) (buf : Scratch)
    (hbase : descr.base = rocsparse_index_base_zero ∨ descr.base = rocsparse_index_base_one)
    (htype : descr.type = rocsparse_matrix_type_general)
    (hpol : analysis = rocsparse_analysis_policy_reuse
      ∨ analysis = rocsparse_analysis_policy_force)
    (hm : 0 ≤ m) (hnnz : 0 ≤ nnz) (hzero : m = 0 ∨ nnz = 0) :
    rocsparse_csrsv_analysis_template total_spin (some handle) trans m nnz (some descr)
        (some csr_val) (some csr_row_ptr) (some csr_col_ind) (some minfo) store analysis
        rocsparse_solve_policy_auto (some buf)
      = some { status := rocsparse_status.success, info := some minfo, store := store,
               temp_buffer := some buf } := by
  have h1 : ¬ (descr.base ≠ rocsparse_index_base_zero
      ∧ descr.base ≠ rocsparse_index_base_one) := by
    rcases hbase with h | h <;> simp [h]
  have h2 : ¬ (analysis ≠ rocsparse_analysis_policy_reuse
      ∧ analysis ≠ rocsparse_analysis_policy_force) := by
    rcases hpol with h | h <;> simp [h]
  have h3 : ¬ m < 0 := by omega
  have h4 : ¬ nnz < 0 := by omega
  simp only [rocsparse_csrsv_analysis_template, h1, h2, h3, h4, hzero, htype, if_false, if_true,
    ne_eq, not_true_eq_false]

/-- Witness of `analysis_quick_return`: a force analysis with upper fill mode of
four rows without stored entries, an analysis being stored in the upper slot. -/
theorem analysis_quick_return_witness :
    rocsparse_csrsv_analysis_template 0 (some ex_handle) rocsparse_operation_none 4 0
        (some ex_descr_upper) (some []) (some [0, 0, 0, 0, 0]) (some []) (some ex_info_upper)
        ex_store_old rocsparse_analysis_policy_force rocsparse_solve_policy_auto
        (some ex_scratch)
      = some { status := rocsparse_status.success, info := some ex_info_upper,
               store := ex_store_old, temp_buffer := some ex_scratch } :=
  analysis_quick_return 0 ex_handle rocsparse_operation_none 4 0 ex_descr_upper []
    [0, 0, 0, 0, 0] [] ex_info_upper ex_store_old rocsparse_analysis_policy_force ex_scratch
    (by decide) (by decide) (by decide) (by decide) (by decide) (by decide)

/-- C18 (quick return of solve): for valid arguments with non-negative sizes and
`m = 0` or `nnz = 0`, `rocsparse_csrsv_solve_template` returns success and leaves
`y`, the scratch buffer and the store of analysis objects (hence every stored
`zero_pivot`) untouched, whatever the slots of the matrix info hold. -/
theorem solve_quick_return (handle : rocsparse_handle) (trans m nnz : Int) (alpha : Rat)
    (descr : rocsparse_mat_descr) (csr_val : List Rat) (csr_row_ptr csr_col_ind : List Int)
    (minfo : rocsparse_mat_info) (store : InfoStore) (x y : List Rat) (policy : Int)
    (buf : Scratch)
    (hbase : descr.base = rocsparse_index_base_zero ∨ descr.base = rocsparse_index_base_one)
    (htype : descr.type = rocsparse_matrix_type_general)
    (hm : 0 ≤ m) (hnnz : 0 ≤ nnz) (hzero : m = 0 ∨ nnz = 0) :
    rocsparse_csrsv_solve_template (some handle) trans m nnz (some alpha) (some descr)
        (some csr_val) (some csr_row_ptr) (some csr_col_ind) (some minfo) store (some x)
        (some y) policy (some buf)
      = some { status := rocsparse_status.success, y := some y, temp_buffer := some buf,
               store := store } := by
  have h1 : ¬ (descr.base ≠ rocsparse_index_base_zero
      ∧ descr.base ≠ rocsparse_index_base_one) := by
    rcases hbase with h | h <;> simp [h]
  have h3 : ¬ m < 0 := by omega
  have h4 : ¬ nnz < 0 := by omega
  simp only [rocsparse_csrsv_solve_template, h1, h3, h4, hzero, htype, if_false, if_true,
    ne_eq, not_true_eq_false]

/-- Witness of `solve_quick_return`: a solve of four rows without stored entries,
no analysis being stored. -/
theorem solve_quick_return_witness :
    rocsparse_csrsv_solve_template (some ex_handle) rocsparse_operation_none 4 0 (some 1)
        (some ex_descr_lower) (some []) (some [0, 0, 0, 0, 0]) (some []) (some ex_info_empty) []
        (some [1, 1, 1, 1]) (some [7, 7, 7, 7]) rocsparse_solve_policy_auto (some ex_scratch)
      = some { status := rocsparse_status.success, y := some [7, 7, 7, 7],
               temp_buffer := some ex_scratch, store := [] } :=
  solve_quick_return ex_handle rocsparse_operation_none 4 0 1 ex_descr_lower []
    [0, 0, 0, 0, 0] [] ex_info_empty [] [1, 1, 1, 1] [7, 7, 7, 7] rocsparse_solve_policy_auto
    ex_scratch (by decide) (by decide) (by decide) (by decide) (by decide)

/-- C19, counterexample: with the operation `transpose` and otherwise valid
arguments, the analysis of the example matrix and the following solve both return
success, not `not_implemented`. -/
theorem transpose_not_rejected :
    ∃ r1 r2,
      rocsparse_csrsv_analysis_template 0 (some ex_handle) rocsparse_operation_transpose 4 7
        (some ex_descr_lower) (some ex_val) (some ex_row_ptr) (some ex_col_ind)
        (some ex_info_empty) [] rocsparse_analysis_policy_force rocsparse_solve_policy_auto
        (some ex_scratch) = some r1 ∧
      r1.status = rocsparse_status.success ∧
      rocsparse_csrsv_solve_template (some ex_handle) rocsparse_operation_transpose 4 7 (some 1)
        (some ex_descr_lower) (some ex_val) (some ex_row_ptr) (some ex_col_ind) r1.info r1.store
        (some [1, 1, 1, 1]) (some [0, 0, 0, 0]) rocsparse_solve_policy_auto r1.temp_buffer
        = some r2 ∧
      r2.status = rocsparse_status.success ∧
      rocsparse_operation_transpose ≠ rocsparse_operation_none ∧
      rocsparse_status.success ≠ rocsparse_status.not_implemented := by
  obtain ⟨r1, r2, _, _, h1, h2, _, h3, h4, _⟩ :=
    analysis_then_solve_lower 0 ex_handle rocsparse_operation_transpose
      rocsparse_solve_policy_auto 4 7 1 ex_descr_lower ex_val ex_row_ptr ex_col_ind
      ex_info_empty [] [1, 1, 1, 1] [0, 0, 0, 0] ex_scratch (by decide) (by decide) (by decide)
      (by decide) (by decide) (by decide) (by decide) (by decide) (by decide) (by decide)
      (by decide) (by decide) (by decide) (by decide)
  exact ⟨r1, r2, h1, h2, h3, h4, by decide, by decide⟩

/-- C19, amended (the transpose operation is not examined): for every two values
of the operation, `rocsparse_csrsv_analysis_template` and
`rocsparse_csrsv_solve_template` return the same result, all other arguments being
equal; in particular an operation other than `none` is treated as `none`. -/
theorem transpose_not_examined (trans1 trans2 : Int) :
    (∀ (total_spin : Nat) (handle : Option rocsparse_handle) (m nnz : Int)
        (descr : Option rocsparse_mat_descr) (csr_val : Option (List Rat))
        (csr_row_ptr csr_col_ind : Option (List Int)) (info : Option rocsparse_mat_info)
        (store : InfoStore) (analysis solve : Int) (temp_buffer : Option Scratch),
      rocsparse_csrsv_analysis_template total_spin handle trans1 m nnz descr csr_val csr_row_ptr
          csr_col_ind info store analysis solve temp_buffer
        = rocsparse_csrsv_analysis_template total_spin handle trans2 m nnz descr csr_val
          csr_row_ptr csr_col_ind info store analysis solve temp_buffer) ∧
    (∀ (handle : Option rocsparse_handle) (m nnz : Int) (alpha : Option Rat)
        (descr : Option rocsparse_mat_descr) (csr_val : Option (List Rat))
        (csr_row_ptr csr_col_ind : Option (List Int)) (info : Option rocsparse_mat_info)
        (store : InfoStore) (x y : Option (List Rat)) (policy : Int)
        (temp_buffer : Option Scratch),
      rocsparse_csrsv_solve_template handle trans1 m nnz alpha descr csr_val csr_row_ptr
          csr_col_ind info store x y policy temp_buffer
        = rocsparse_csrsv_solve_template handle trans2 m nnz alpha descr csr_val csr_row_ptr
          csr_col_ind info store x y policy temp_buffer) := by
  constructor
  · intros
    rfl
  · intros
    rfl

/-- C20, the code at the failing input: with solve policy 1, a value other than
`rocsparse_solve_policy_auto`, the analysis entry point returns `invalid_value`,
while the solve entry point, after an analysis with policy auto, runs the solve and
returns success. -/
theorem solve_ignores_solve_policy :
    (rocsparse_csrsv_analysis_template 0 (some ex_handle) rocsparse_operation_none 4 7
        (some ex_descr_lower) (some ex_val) (some ex_row_ptr) (some ex_col_ind)
        (some ex_info_empty) [] rocsparse_analysis_policy_force 1 (some ex_scratch)).map
      (fun r => r.status) = some rocsparse_status.invalid_value ∧
    (1 : Int) ≠ rocsparse_solve_policy_auto ∧
    ∃ r1 r2,
      rocsparse_csrsv_analysis_template 0 (some ex_handle) rocsparse_operation_none 4 7
        (some ex_descr_lower) (some ex_val) (some ex_row_ptr) (some ex_col_ind)
        (some ex_info_empty) [] rocsparse_analysis_policy_force rocsparse_solve_policy_auto
        (some ex_scratch) = some r1 ∧
      rocsparse_csrsv_solve_template (some ex_handle) rocsparse_operation_none 4 7 (some 1)
        (some ex_descr_lower) (some ex_val) (some ex_row_ptr) (some ex_col_ind) r1.info r1.store
        (some [1, 1, 1, 1]) (some [0, 0, 0, 0]) 1 r1.temp_buffer = some r2 ∧
      r2.status = rocsparse_status.success ∧
      r2.y = some [1 / 2, 1 / 6, 5 / 24, 19 / 120] := by
  refine ⟨by decide, by decide, ?_⟩
  obtain ⟨r1, r2, y', _, h1, _, _, h3, h4, h5, h6, _, h7, _, _⟩ :=
    analysis_then_solve_lower 0 ex_handle rocsparse_operation_none 1 4 7
      1 ex_descr_lower ex_val ex_row_ptr ex_col_ind ex_info_empty [] [1, 1, 1, 1] [0, 0, 0, 0]
      ex_scratch (by decide) (by decide) (by decide) (by decide) (by decide) (by decide)
      (by decide) (by decide) (by decide) (by decide) (by decide) (by decide) (by decide)
      (by decide)
  refine ⟨r1, r2, h1, h3, h4, ?_⟩
  rw [h5]
  exact congrArg some (example_values y' h6 h7)

/-! ## The argument checks of the entry points -/

/-- C21 (characterisation of `invalid_value` in analysis): with handle, descriptor
and info non-null, whatever the sizes and the remaining pointers are: when the index
base is neither zero nor one, or the base is valid, the matrix type is general and
the analysis policy is neither reuse nor force or the solve policy is not auto,
`rocsparse_csrsv_analysis_template` returns `invalid_value` and changes nothing;
and whenever it returns the status `invalid_value`, that condition holds. -/
theorem analysis_invalid_value_iff (total_spin : Nat) (handle : rocsparse_handle)
    (trans m nnz : Int) (descr : rocsparse_mat_descr) (csr_val : Option (List Rat))
    (csr_row_ptr csr_col_ind : Option (List Int)) (minfo : rocsparse_mat_info)
    (store : InfoStore) (analysis solve : Int) (temp_buffer : Option Scratch) :
    (((descr.base ≠ rocsparse_index_base_zero ∧ descr.base ≠ rocsparse_index_base_one) ∨
      ((descr.base = rocsparse_index_base_zero ∨ descr.base = rocsparse_index_base_one) ∧
        descr.type = rocsparse_matrix_type_general ∧
        ((analysis ≠ rocsparse_analysis_policy_reuse
            ∧ analysis ≠ rocsparse_analysis_policy_force)
          ∨ solve ≠ rocsparse_solve_policy_auto))) →
      rocsparse_csrsv_analysis_template total_spin (some handle) trans m nnz (some descr)
          csr_val csr_row_ptr csr_col_ind (some minfo) store analysis solve temp_buffer
        = some { status := rocsparse_status.invalid_value, info := some minfo, store := store,
                 temp_buffer := temp_buffer }) ∧
    (∀ r, rocsparse_csrsv_analysis_template total_spin (some handle) trans m nnz (some descr)
          csr_val csr_row_ptr csr_col_ind (some minfo) store analysis solve temp_buffer
        = some r →
      (r.status = rocsparse_status.invalid_value ↔
        ((descr.base ≠ rocsparse_index_base_zero ∧ descr.base ≠ rocsparse_index_base_one) ∨
          ((descr.base = rocsparse_index_base_zero ∨ descr.base = rocsparse_index_base_one) ∧
            descr.type = rocsparse_matrix_type_general ∧
            ((analysis ≠ rocsparse_analysis_policy_reuse
                ∧ analysis ≠ rocsparse_analysis_policy_force)
              ∨ solve ≠ rocsparse_solve_policy_auto))))) := by
  have hfwd : ((descr.base ≠ rocsparse_index_base_zero
        ∧ descr.base ≠ rocsparse_index_base_one) ∨
      ((descr.base = rocsparse_index_base_zero ∨ descr.base = rocsparse_index_base_one) ∧
        descr.type = rocsparse_matrix_type_general ∧
        ((analysis ≠ rocsparse_analysis_policy_reuse
            ∧ analysis ≠ rocsparse_analysis_policy_force)
          ∨ solve ≠ rocsparse_solve_policy_auto))) →
      rocsparse_csrsv_analysis_template total_spin (some handle) trans m nnz (some descr)
          csr_val csr_row_ptr csr_col_ind (some minfo) store analysis solve temp_buffer
        = some { status := rocsparse_status.invalid_value, info := some minfo, store := store,
                 temp_buffer := temp_buffer } := by
    intro hc
    rcases hc with c1 | ⟨hbase, htype, hpol⟩
    · exact analysis_base_invalid total_spin handle trans m nnz descr csr_val csr_row_ptr
        csr_col_ind minfo store analysis solve temp_buffer c1
    · exact analysis_policy_invalid total_spin handle trans m nnz descr csr_val csr_row_ptr
        csr_col_ind minfo store analysis solve temp_buffer hbase htype hpol
  refine ⟨hfwd, ?_⟩
  intro r hr
  constructor
  · intro hs
    exact analysis_invalid_value_cond total_spin handle trans m nnz descr csr_val csr_row_ptr
      csr_col_ind minfo store analysis solve temp_buffer r hr hs
  · intro hc
    rw [hfwd hc] at hr
    cases hr
    rfl

/-- Witness of `analysis_invalid_value_iff`: the index base 2, a negative `m` and
only null pointers give `invalid_value`; the analysis of the example matrix with
supported policies returns a status other than `invalid_value`. -/
theorem analysis_invalid_value_iff_witness :
    rocsparse_csrsv_analysis_template 0 (some ex_handle) rocsparse_operation_none (-1) 7
        (some { ex_descr_lower with base := 2 }) none none none (some ex_info_empty) []
        rocsparse_analysis_policy_force rocsparse_solve_policy_auto none
      = some { status := rocsparse_status.invalid_value, info := some ex_info_empty, store := [],
               temp_buffer := none } ∧
    ∃ r, rocsparse_csrsv_analysis_template 0 (some ex_handle) rocsparse_operation_none 4 7
        (some ex_descr_lower) (some ex_val) (some ex_row_ptr) (some ex_col_ind)
        (some ex_info_empty) [] rocsparse_analysis_policy_force rocsparse_solve_policy_auto
        (some ex_scratch) = some r ∧ r.status ≠ rocsparse_status.invalid_value := by
  refine ⟨(analysis_invalid_value_iff 0 ex_handle rocsparse_operation_none (-1) 7
    { ex_descr_lower with base := 2 } none none none ex_info_empty []
    rocsparse_analysis_policy_force rocsparse_solve_policy_auto none).1
    (Or.inl (by decide)), ?_⟩
  have hmap : (rocsparse_csrsv_analysis_template 0 (some ex_handle) rocsparse_operation_none 4 7
        (some ex_descr_lower) (some ex_val) (some ex_row_ptr) (some ex_col_ind)
        (some ex_info_empty) [] rocsparse_analysis_policy_force rocsparse_solve_policy_auto
        (some ex_scratch)).map (fun r => r.status) = some rocsparse_status.success := by
    set_option maxRecDepth 100000 in decide
  obtain ⟨r, hcall, hsucc⟩ := Option.map_eq_some'.mp hmap
  refine ⟨r, hcall, ?_⟩
  intro hs
  have hc := ((analysis_invalid_value_iff 0 ex_handle rocsparse_operation_none 4 7
    ex_descr_lower (some ex_val) (some ex_row_ptr) (some ex_col_ind) ex_info_empty []
    rocsparse_analysis_policy_force rocsparse_solve_policy_auto (some ex_scratch)).2 r hcall).mp hs
  revert hc
  decide

/-- C22 (unsupported matrix type): in each of the three entry points, with handle,
descriptor and info non-null, whatever the sizes, the policies and the remaining
pointers are: with a valid index base a matrix type other than general gives
`not_implemented`, and with an index base that is neither zero nor one the result
is `invalid_value`, whatever the matrix type is. Nothing is changed. -/
theorem unsupported_matrix_type (scan_size : Int → ScanSizeQuery) (total_spin : Nat)
    (handle : rocsparse_handle) (trans m nnz : Int) (alpha : Option Rat)
    (descr : rocsparse_mat_descr) (csr_val : Option (List Rat))
    (csr_row_ptr csr_col_ind : Option (List Int)) (minfo : rocsparse_mat_info)
    (store : InfoStore) (x y : Option (List Rat)) (analysis solve policy : Int)
    (temp_buffer : Option Scratch) (buffer_size : Option Nat) :
    ((descr.base = rocsparse_index_base_zero ∨ descr.base = rocsparse_index_base_one) →
      descr.type ≠ rocsparse_matrix_type_general →
      rocsparse_csrsv_buffer_size_template scan_size (some handle) trans m nnz (some descr)
          csr_val csr_row_ptr csr_col_ind (some minfo) buffer_size
        = (rocsparse_status.not_implemented, buffer_size) ∧
      rocsparse_csrsv_analysis_template total_spin (some handle) trans m nnz (some descr)
          csr_val csr_row_ptr csr_col_ind (some minfo) store analysis solve temp_buffer
        = some { status := rocsparse_status.not_implemented, info := some minfo,
                 store := store, temp_buffer := temp_buffer } ∧
      rocsparse_csrsv_solve_template (some handle) trans m nnz alpha (some descr) csr_val
          csr_row_ptr csr_col_ind (some minfo) store x y policy temp_buffer
        = some { status := rocsparse_status.not_implemented, y := y,
                 temp_buffer := temp_buffer, store := store }) ∧
    ((descr.base ≠ rocsparse_index_base_zero ∧ descr.base ≠ rocsparse_index_base_one) →
      rocsparse_csrsv_buffer_size_template scan_size (some handle) trans m nnz (some descr)
          csr_val csr_row_ptr csr_col_ind (some minfo) buffer_size
        = (rocsparse_status.invalid_value, buffer_size) ∧
      rocsparse_csrsv_analysis_template total_spin (some handle) trans m nnz (some descr)
          csr_val csr_row_ptr csr_col_ind (some minfo) store analysis solve temp_buffer
        = some { status := rocsparse_status.invalid_value, info := some minfo,
                 store := store, temp_buffer := temp_buffer } ∧
      rocsparse_csrsv_solve_template (some handle) trans m nnz alpha (some descr) csr_val
          csr_row_ptr csr_col_ind (some minfo) store x y policy temp_buffer
        = some { status := rocsparse_status.invalid_value, y := y,
                 temp_buffer := temp_buffer, store := store }) := by
  constructor
  · intro hbase htype
    exact ⟨buffer_size_early scan_size handle trans m nnz descr csr_val csr_row_ptr csr_col_ind
        minfo buffer_size _ (Or.inr (Or.inl ⟨hbase, htype, rfl⟩)),
      analysis_type_unsupported total_spin handle trans m nnz descr csr_val csr_row_ptr
        csr_col_ind minfo store analysis solve temp_buffer hbase htype,
      solve_template_early handle trans m nnz alpha descr csr_val csr_row_ptr csr_col_ind minfo
        store x y policy temp_buffer _ (Or.inr (Or.inl ⟨hbase, htype, rfl⟩))⟩
  · intro hb
    exact ⟨buffer_size_early scan_size handle trans m nnz descr csr_val csr_row_ptr csr_col_ind
        minfo buffer_size _ (Or.inl ⟨hb.1, hb.2, rfl⟩),
      analysis_base_invalid total_spin handle trans m nnz descr csr_val csr_row_ptr
        csr_col_ind minfo store analysis solve temp_buffer hb,
      solve_template_early handle trans m nnz alpha descr csr_val csr_row_ptr csr_col_ind minfo
        store x y policy temp_buffer _ (Or.inl ⟨hb.1, hb.2, rfl⟩)⟩

/-- Witness of `unsupported_matrix_type`: the matrix type 1 with the index base 0,
a negative `m`, an unsupported policy and only null pointers. -/
theorem unsupported_matrix_type_witness :
    rocsparse_csrsv_buffer_size_template ex_scan_size (some ex_handle) rocsparse_operation_none
        (-1) 7 (some { ex_descr_lower with type := 1 }) none none none (some ex_info_empty) none
      = (rocsparse_status.not_implemented, none) ∧
    rocsparse_csrsv_analysis_template 0 (some ex_handle) rocsparse_operation_none (-1) 7
        (some { ex_descr_lower with type := 1 }) none none none (some ex_info_empty) [] 5 5 none
      = some { status := rocsparse_status.not_implemented, info := some ex_info_empty,
               store := [], temp_buffer := none } ∧
    rocsparse_csrsv_solve_template (some ex_handle) rocsparse_operation_none (-1) 7 none
        (some { ex_descr_lower with type := 1 }) none none none (some ex_info_empty) [] none none
        5 none
      = some { status := rocsparse_status.not_implemented, y := none, temp_buffer := none,
               store := [] } :=
  (unsupported_matrix_type ex_scan_size 0 ex_handle rocsparse_operation_none (-1) 7 none
    { ex_descr_lower with type := 1 } none none none ex_info_empty [] none none 5 5 5 none
    none).1 (by decide) (by decide)

/-- C23 (negative sizes): in each of the three entry points, with handle,
descriptor and info non-null, a valid index base, the matrix type general and, for
the analysis, supported policies, `m < 0` or `nnz < 0` gives `invalid_size`,
whichever of the array, scalar and buffer pointers are null: the sizes are checked
before those pointers. Nothing is changed. -/
theorem negative_size_rejected (scan_size : Int → ScanSizeQuery) (total_spin : Nat)
    (handle : rocsparse_handle) (trans m nnz : Int) (alpha : Option Rat)
    (descr : rocsparse_mat_descr) (csr_val : Option (List Rat))
    (csr_row_ptr csr_col_ind : Option (List Int)) (minfo : rocsparse_mat_info)
    (store : InfoStore) (x y : Option (List Rat)) (analysis policy : Int)
    (temp_buffer : Option Scratch) (buffer_size : Option Nat)
    (hbase : descr.base = rocsparse_index_base_zero ∨ descr.base = rocsparse_index_base_one)
    (htype : descr.type = rocsparse_matrix_type_general)
    (hpol : analysis = rocsparse_analysis_policy_reuse
      ∨ analysis = rocsparse_analysis_policy_force)
    (hneg : m < 0 ∨ nnz < 0) :
    rocsparse_csrsv_buffer_size_template scan_size (some handle) trans m nnz (some descr)
        csr_val csr_row_ptr csr_col_ind (some minfo) buffer_size
      = (rocsparse_status.invalid_size, buffer_size) ∧
    rocsparse_csrsv_analysis_template total_spin (some handle) trans m nnz (some descr)
        csr_val csr_row_ptr csr_col_ind (some minfo) store analysis rocsparse_solve_policy_auto
        temp_buffer
      = some { status := rocsparse_status.invalid_size, info := some minfo, store := store,
               temp_buffer := temp_buffer } ∧
    rocsparse_csrsv_solve_template (some handle) trans m nnz alpha (some descr) csr_val
        csr_row_ptr csr_col_ind (some minfo) store x y policy temp_buffer
      = some { status := rocsparse_status.invalid_size, y := y, temp_buffer := temp_buffer,
               store := store } :=
  ⟨buffer_size_early scan_size handle trans m nnz descr csr_val csr_row_ptr csr_col_ind
      minfo buffer_size _ (Or.inr (Or.inr ⟨hbase, htype, hneg, rfl⟩)),
    analysis_negative_size total_spin handle trans m nnz descr csr_val csr_row_ptr
      csr_col_ind minfo store analysis temp_buffer hbase htype hpol hneg,
    solve_template_early handle trans m nnz alpha descr csr_val csr_row_ptr csr_col_ind minfo
      store x y policy temp_buffer _ (Or.inr (Or.inr ⟨hbase, htype, hneg, rfl⟩))⟩

/-- Witness of `negative_size_rejected`: `nnz = -1` with only null pointers. -/
theorem negative_size_rejected_witness :
    rocsparse_csrsv_buffer_size_template ex_scan_size (some ex_handle) rocsparse_operation_none
        4 (-1) (some ex_descr_lower) none none none (some ex_info_empty) none
      = (rocsparse_status.invalid_size, none) ∧
    rocsparse_csrsv_analysis_template 0 (some ex_handle) rocsparse_operation_none 4 (-1)
        (some ex_descr_lower) none none none (some ex_info_empty) []
        rocsparse_analysis_policy_reuse rocsparse_solve_policy_auto none
      = some { status := rocsparse_status.invalid_size, info := some ex_info_empty, store := [],
               temp_buffer := none } ∧
    rocsparse_csrsv_solve_template (some ex_handle) rocsparse_operation_none 4 (-1) none
        (some ex_descr_lower) none none none (some ex_info_empty) [] none none
        rocsparse_solve_policy_auto none
      = some { status := rocsparse_status.invalid_size, y := none, temp_buffer := none,
               store := [] } :=
  negative_size_rejected ex_scan_size 0 ex_handle rocsparse_operation_none 4 (-1) none
    ex_descr_lower none none none ex_info_empty [] none none rocsparse_analysis_policy_reuse
    rocsparse_solve_policy_auto none none (by decide) (by decide) (by decide) (by decide)

/-- C24 (null pointers in solve): with a non-null handle, a null descriptor or a
null info gives `invalid_pointer`; with descriptor and info non-null, a valid index
base, the matrix type general and non-negative sizes, a null pointer among
`csr_val`, `csr_row_ptr`, `csr_col_ind`, `alpha`, `x`, `y` and `temp_buffer` gives
`invalid_pointer`, also when `m = 0` or `nnz = 0`: the pointers are checked before
the quick return. Nothing is changed. -/
theorem solve_null_pointers (handle : rocsparse_handle) (trans m nnz : Int)
    (alpha : Option Rat) (descr : Option rocsparse_mat_descr) (csr_val : Option (List Rat))
    (csr_row_ptr csr_col_ind : Option (List Int)) (info : Option rocsparse_mat_info)
    (store : InfoStore) (x y : Option (List Rat)) (policy : Int)
    (temp_buffer : Option Scratch) :
    ((descr = none ∨ info = none) →
      rocsparse_csrsv_solve_template (some handle) trans m nnz alpha descr csr_val csr_row_ptr
          csr_col_ind info store x y policy temp_buffer
        = some { status := rocsparse_status.invalid_pointer, y := y,
                 temp_buffer := temp_buffer, store := store }) ∧
    (∀ d minfo, descr = some d → info = some minfo →
      (d.base = rocsparse_index_base_zero ∨ d.base = rocsparse_index_base_one) →
      d.type = rocsparse_matrix_type_general → 0 ≤ m → 0 ≤ nnz →
      (csr_val = none ∨ csr_row_ptr = none ∨ csr_col_ind = none ∨ alpha = none ∨ x = none
        ∨ y = none ∨ temp_buffer = none) →
      rocsparse_csrsv_solve_template (some handle) trans m nnz alpha descr csr_val csr_row_ptr
          csr_col_ind info store x y policy temp_buffer
        = some { status := rocsparse_status.invalid_pointer, y := y,
                 temp_buffer := temp_buffer, store := store }) := by
  constructor
  · intro h
    rcases h with h | h
    · subst h
      rfl
    · subst h
      cases descr <;> rfl
  · intro d minfo hd hi hbase htype hm hnnz hnull
    subst hd
    subst hi
    have c1 : ¬ (d.base ≠ rocsparse_index_base_zero ∧ d.base ≠ rocsparse_index_base_one) := by
      rcases hbase with h | h <;> simp [h]
    have c2 : ¬ d.type ≠ rocsparse_matrix_type_general := fun h => h htype
    have c3 : ¬ m < 0 := by omega
    have c4 : ¬ nnz < 0 := by omega
    unfold rocsparse_csrsv_solve_template
    simp only
    rw [if_neg c1, if_neg c2, if_neg c3, if_neg c4]
    cases csr_val with
    | none => rfl
    | some v =>
      cases csr_row_ptr with
      | none => rfl
      | some rp =>
        cases csr_col_ind with
        | none => rfl
        | some ci =>
          cases alpha with
          | none => rfl
          | some a =>
            cases x with
            | none => rfl
            | some xv =>
              cases y with
              | none => rfl
              | some yv =>
                cases temp_buffer with
                | none => rfl
                | some buf => simp at hnull

/-- Witness of `solve_null_pointers`: a null `temp_buffer` with `nnz = 0`, all
other arguments being valid. -/
theorem solve_null_pointers_witness :
    rocsparse_csrsv_solve_template (some ex_handle) rocsparse_operation_none 4 0 (some 1)
        (some ex_descr_lower) (some []) (some [0, 0, 0, 0, 0]) (some []) (some ex_info_empty) []
        (some [1, 1, 1, 1]) (some [7, 7, 7, 7]) rocsparse_solve_policy_auto none
      = some { status := rocsparse_status.invalid_pointer, y := some [7, 7, 7, 7],
               temp_buffer := none, store := [] } :=
  (solve_null_pointers ex_handle rocsparse_operation_none 4 0 (some 1) (some ex_descr_lower)
    (some []) (some [0, 0, 0, 0, 0]) (some []) (some ex_info_empty) [] (some [1, 1, 1, 1])
    (some [7, 7, 7, 7]) rocsparse_solve_policy_auto none).2 ex_descr_lower
    ex_info_empty rfl rfl (by decide) (by decide) (by decide) (by decide)
    (Or.inr (Or.inr (Or.inr (Or.inr (Or.inr (Or.inr rfl))))))

/-! ## The reset at the start of a solve -/

/-- C25 (per-solve reset): for valid arguments with `m > 0`, `nnz > 0`, a scratch
buffer whose `done` array has at least `m` entries and a live analysis with a row
map and a `zero_pivot` stored for the fill mode, `rocsparse_csrsv_solve_template`
launches the kernel on the memory `solve_reset_mem`: the first `m` entries of the
`done` array are zero, the entries behind them are kept, and `zero_pivot` is the
maximum `rocsparse_int` when the diagonal type is unit and the stored value
otherwise. When the wavefront size is neither 32 nor 64 no kernel runs and the call
returns `arch_mismatch` with exactly that reset done. -/
theorem solve_resets_before_kernel (handle : rocsparse_handle) (trans m nnz : Int)
    (alpha : Rat) (descr : rocsparse_mat_descr) (val : List Rat) (rp ci : List Int)
    (minfo : rocsparse_mat_info) (store : InfoStore) (x y : List Rat) (policy : Int)
    (buf : Scratch) (a : Nat) (cell : SharedInfo) (map : List Int) (zp : Int)
    (hbase : descr.base = rocsparse_index_base_zero ∨ descr.base = rocsparse_index_base_one)
    (htype : descr.type = rocsparse_matrix_type_general)
    (hm : 0 < m) (hnnz : 0 < nnz)
    (hbuf : m.toNat ≤ buf.done_array.length)
    (hslot : analysis_slot descr minfo = some a)
    (hcell : store[a]? = some (some cell))
    (hmap : cell.obj.d_row_map = some map) (hzp : cell.obj.zero_pivot = some zp) :
    rocsparse_csrsv_solve_template (some handle) trans m nnz (some alpha) (some descr) (some val)
        (some rp) (some ci) (some minfo) store (some x) (some y) policy (some buf)
      = (if handle.wavefront_size = 32 ∨ handle.wavefront_size = 64 then
          (csrsv_device m alpha rp ci val x (solve_reset_mem m descr.diag_type y buf zp) map 0
              descr.base descr.fill_mode descr.diag_type).map
            (fun out =>
              { status := rocsparse_status.success, y := some out.y,
                temp_buffer := some { buf with done_array := out.done_array },
                store := store.set a (some { cell with
                  obj := { cell.obj with zero_pivot := some out.zero_pivot } }) })
        else
          some { status := rocsparse_status.arch_mismatch, y := some y,
                 temp_buffer := some { buf with
                   done_array := (solve_reset_mem m descr.diag_type y buf zp).done_array },
                 store := if descr.diag_type = rocsparse_diag_type_unit then
                     store.set a (some { cell with
                       obj := { cell.obj with zero_pivot := some rocsparse_int_max } })
                   else store }) ∧
    (∀ i, i < m.toNat → (solve_reset_mem m descr.diag_type y buf zp).done_array[i]? = some 0) ∧
    (∀ i, m.toNat ≤ i →
      (solve_reset_mem m descr.diag_type y buf zp).done_array[i]? = buf.done_array[i]?) ∧
    (descr.diag_type = rocsparse_diag_type_unit →
      (solve_reset_mem m descr.diag_type y buf zp).zero_pivot = rocsparse_int_max) ∧
    (descr.diag_type ≠ rocsparse_diag_type_unit →
      (solve_reset_mem m descr.diag_type y buf zp).zero_pivot = zp) := by
  have h1 : ¬ (descr.base ≠ rocsparse_index_base_zero ∧ descr.base ≠ rocsparse_index_base_one) := by
    rcases hbase with h | h <;> simp [h]
  have h3 : ¬ m < 0 := by omega
  have h4 : ¬ nnz < 0 := by omega
  have h5 : ¬ (m = 0 ∨ nnz = 0) := by omega
  have h6 : ¬ (buf.done_array.length < m.toNat) := by omega
  have hs : (if descr.fill_mode = rocsparse_fill_mode_upper then minfo.csrsv_upper_info
      else minfo.csrsv_lower_info) = some a := hslot
  have ha : a < store.length := by
    by_contra hge
    rw [List.getElem?_eq_none (by omega)] at hcell
    cases hcell
  have hlook : store.lookup (some a) = some cell.obj := by
    simp only [InfoStore.lookup, hcell]
  have hupd : ∀ o, store.update a o = store.set a (some { cell with obj := o }) := by
    intro o
    simp only [InfoStore.update, hcell]
  have hlook2 : ∀ o, InfoStore.lookup (store.set a (some { cell with obj := o })) (some a)
      = some o := by
    intro o
    simp only [InfoStore.lookup, List.getElem?_set_self ha]
  have hupd2 : ∀ o o2, InfoStore.update (store.set a (some { cell with obj := o })) a o2
      = store.set a (some { cell with obj := o2 }) := by
    intro o o2
    simp only [InfoStore.update, List.getElem?_set_self ha, List.set_set]
  refine ⟨?_, ?_, ?_, ?_, ?_⟩
  · by_cases hu : descr.diag_type = rocsparse_diag_type_unit
    · by_cases hwf : handle.wavefront_size = 32 ∨ handle.wavefront_size = 64
      · by_cases hp : handle.pointer_mode = rocsparse_pointer_mode_device
        · simp only [rocsparse_csrsv_solve_template, h1, h3, h4, h5, h6, htype, hs, hu, hwf,
            hlook, hmap, hzp, hp, hupd, hlook2, hupd2, if_false, if_true, ne_eq,
            not_true_eq_false, Option.some_bind, Option.map_some', csrsv_device_pointer,
            Option.getD_some, solve_reset_mem]
        · simp only [rocsparse_csrsv_solve_template, h1, h3, h4, h5, h6, htype, hs, hu, hwf,
            hlook, hmap, hzp, hp, hupd, hlook2, hupd2, if_false, if_true, ne_eq,
            not_true_eq_false, Option.some_bind, Option.map_some', csrsv_host_pointer,
            Option.getD_some, solve_reset_mem]
      · simp only [rocsparse_csrsv_solve_template, h1, h3, h4, h5, h6, htype, hs, hu, hwf,
          hlook, hmap, hzp, hupd, if_false, if_true, ne_eq,
          not_true_eq_false, Option.some_bind, Option.map_some',
          Option.getD_some, solve_reset_mem]
    · by_cases hwf : handle.wavefront_size = 32 ∨ handle.wavefront_size = 64
      · by_cases hp : handle.pointer_mode = rocsparse_pointer_mode_device
        · simp only [rocsparse_csrsv_solve_template, h1, h3, h4, h5, h6, htype, hs, hu, hwf,
            hlook, hmap, hzp, hp, hupd, if_false, if_true, ne_eq,
            not_true_eq_false, Option.some_bind, Option.map_some', csrsv_device_pointer,
            Option.getD_some, solve_reset_mem]
        · simp only [rocsparse_csrsv_solve_template, h1, h3, h4, h5, h6, htype, hs, hu, hwf,
            hlook, hmap, hzp, hp, hupd, if_false, if_true, ne_eq,
            not_true_eq_false, Option.some_bind, Option.map_some', csrsv_host_pointer,
            Option.getD_some, solve_reset_mem]
      · simp only [rocsparse_csrsv_solve_template, h1, h3, h4, h5, h6, htype, hs, hu, hwf,
          hlook, hmap, hzp, hupd, if_false, if_true, ne_eq,
          not_true_eq_false, Option.some_bind, Option.map_some',
          Option.getD_some, solve_reset_mem]
  · intro i hi
    simp only [solve_reset_mem]
    rw [List.getElem?_append_left (by simpa using hi)]
    simp [hi]
  · intro i hi
    simp only [solve_reset_mem]
    rw [List.getElem?_append_right (by simpa using hi)]
    simp only [List.length_replicate, List.getElem?_drop]
    congr 1
    omega
  · intro hu
    simp only [solve_reset_mem, hu, if_true]
  · intro hu
    simp only [solve_reset_mem, hu, if_false]

/-- Witness of `solve_resets_before_kernel`: a solve with unit diagonal on one row,
after an earlier solve has left `done` flags set and row 0 recorded as zero pivot:
the kernel starts on the flags 0, 1, 1 and on the maximum as `zero_pivot`. -/
theorem solve_resets_before_kernel_witness :
    (solve_reset_mem 1 ex_descr_unit.diag_type [0] ex_scratch_used 0).done_array[0]? = some 0 ∧
    (solve_reset_mem 1 ex_descr_unit.diag_type [0] ex_scratch_used 0).done_array[1]?
      = ex_scratch_used.done_array[1]? ∧
    (solve_reset_mem 1 ex_descr_unit.diag_type [0] ex_scratch_used 0).zero_pivot
      = rocsparse_int_max ∧
    rocsparse_csrsv_solve_template (some ex_handle) rocsparse_operation_none 1 1 (some 1)
        (some ex_descr_unit) (some [2]) (some [0, 1]) (some [0]) (some ex_info_lower)
        ex_store_pivot (some [1]) (some [0]) rocsparse_solve_policy_auto (some ex_scratch_used)
      = (csrsv_device 1 1 [0, 1] [0] [2] [1]
          (solve_reset_mem 1 ex_descr_unit.diag_type [0] ex_scratch_used 0) [0, 0] 0
          ex_descr_unit.base ex_descr_unit.fill_mode ex_descr_unit.diag_type).map
          (fun out =>
            { status := rocsparse_status.success, y := some out.y,
              temp_buffer := some { ex_scratch_used with done_array := out.done_array },
              store := ex_store_pivot.set 0 (some { refs := 1,
                                                    obj := { ex_pivot_info with
                                                      zero_pivot := some out.zero_pivot } }) }) := by
  have h := solve_resets_before_kernel ex_handle rocsparse_operation_none 1 1 1 ex_descr_unit
    [2] [0, 1] [0] ex_info_lower ex_store_pivot [1] [0] rocsparse_solve_policy_auto
    ex_scratch_used 0 { refs := 1, obj := ex_pivot_info } [0, 0] 0 (by decide) (by decide)
    (by decide) (by decide) (by decide) (by decide) (by decide) (by decide) (by decide)
  exact ⟨h.2.1 0 (by decide), h.2.2.1 1 (by decide), h.2.2.2.1 (by decide),
    h.1.trans (if_pos (by decide))⟩

/-! ## The row map as a permutation -/

/-- C26 (the row map is a permutation built without out-of-range access): for
`m ≥ 1` rows with every `done` value in `1 .. max_depth` and `rows_per_level` an
array of `max_depth` entries, entry `k` being the number of rows with a `done`
value of at most `k + 1` (nothing more is needed of `max_depth`, so also when it is
the largest `done` value), the host loop of `rocsparse_csrtr_analysis` runs to its
end without an access outside `done_array`, `rows_per_level`, `counter` or
`h_row_map`; iteration `i` writes `i` at the position `rowPos done_array i`, these
positions are below `m`, pairwise different and cover `0 .. m - 1`, so that each of
them is written exactly once; the first `m` entries of `h_row_map` are a permutation
of `0 .. m - 1` and the entry `h_row_map[m]` keeps its initial 0. -/
theorem row_map_permutation (m : Nat) (max_depth : Int) (done_array rows_per_level : List Int)
    (hm : 1 ≤ m) (hlen : done_array.length = m)
    (hdone : ∀ d ∈ done_array, 1 ≤ d ∧ d ≤ max_depth)
    (hrlen : rows_per_level.length = max_depth.toNat)
    (hrpl : ∀ k, k < max_depth.toNat →
      rows_per_level[k]?
        = some ((done_array.countP (fun d => decide (d ≤ (k : Int) + 1)) : Nat) : Int)) :
    ∃ st, create_row_map m max_depth done_array rows_per_level = some st ∧
      (∀ i, i < m → ∃ s0 s1,
        (List.range i).foldlM (row_map_step done_array rows_per_level)
          (row_map_init m max_depth) = some s0 ∧
        row_map_step done_array rows_per_level s0 i = some s1 ∧
        s1.h_row_map = s0.h_row_map.set (rowPos done_array i) (i : Int) ∧
        rowPos done_array i < m) ∧
      (∀ i j, i < m → j < m → rowPos done_array i = rowPos done_array j → i = j) ∧
      (∀ p, p < m → ∃ i, i < m ∧ rowPos done_array i = p) ∧
      st.h_row_map.length = m + 1 ∧
      (st.h_row_map.take m).Perm ((List.range m).map (fun (i : Nat) => (i : Int))) ∧
      st.h_row_map[m]? = some 0 := by
  have _ := hm
  have hpos : ∀ d ∈ done_array, 1 ≤ d := fun d hd => (hdone d hd).1
  have hmax : ∀ d ∈ done_array, d ≤ max_depth := fun d hd => (hdone d hd).2
  have hscan := rows_per_level_eq_scan done_array rows_per_level max_depth hpos hrlen hrpl
  refine ⟨_, create_row_map_eq m max_depth done_array rows_per_level hlen hpos hmax hscan,
    ?_, ?_, ?_, ?_, ?_, ?_⟩
  · intro i hi
    obtain ⟨s0, s1, h0, h1, h2⟩ := row_map_iteration done_array max_depth m i hlen hi hpos hmax
    rw [← hscan] at h0 h1
    refine ⟨s0, s1, h0, h1, h2, ?_⟩
    have := rowPos_lt_length done_array i (by omega)
    omega
  · intro i j hi hj hij
    exact rowPos_injective done_array i j (by omega) (by omega) hij
  · intro p hp
    obtain ⟨i, hi, hpi⟩ := rowPos_surjective done_array p (by omega)
    exact ⟨i, by omega, hpi⟩
  · exact rowMapAfter_length done_array m m
  · exact rowMapAfter_take_perm done_array m hlen
  · exact rowMapAfter_last done_array m m hlen (le_refl m)

/-- Witness of `row_map_permutation`: four rows with the `done` values 1, 2, 1, 3
give the row map 0, 2, 1, 3 and the extra entry 0. -/
theorem row_map_permutation_witness :
    ∃ st, create_row_map 4 3 [1, 2, 1, 3] [2, 3, 4] = some st ∧
      st.h_row_map.length = 4 + 1 ∧
      (st.h_row_map.take 4).Perm ((List.range 4).map (fun (i : Nat) => (i : Int))) ∧
      st.h_row_map[4]? = some 0 := by
  obtain ⟨st, h1, _, _, _, h2, h3, h4⟩ := row_map_permutation 4 3 [1, 2, 1, 3] [2, 3, 4]
    (by decide) (by decide) (by decide) (by decide) (by decide)
  exact ⟨st, h1, h2, h3, h4⟩

/-! ## An analysis that fails -/

/-- C27 (a failed analysis is not rolled back): with a wavefront size other than
32 and 64, fill mode lower, valid arguments, `m > 0`, `nnz > 0` and the lower slot
empty or holding a live analysis, an analysis call with policy force returns
`arch_mismatch`; the lower slot then holds a new handle, behind which is a live
object that no analysis has filled (its row map is all zero, `max_depth` is 0).
A following analysis call with policy reuse on that state returns success and
changes nothing: no analysis is performed. -/
theorem failed_analysis_not_rolled_back (total_spin1 total_spin2 : Nat)
    (handle : rocsparse_handle) (trans m nnz : Int) (descr : rocsparse_mat_descr)
    (val : List Rat) (rp ci : List Int) (minfo : rocsparse_mat_info) (store : InfoStore)
    (buf : Scratch)
    (hwf : handle.wavefront_size ≠ 32 ∧ handle.wavefront_size ≠ 64)
    (hbase : descr.base = rocsparse_index_base_zero ∨ descr.base = rocsparse_index_base_one)
    (htype : descr.type = rocsparse_matrix_type_general)
    (hfill : descr.fill_mode = rocsparse_fill_mode_lower)
    (hm : 0 < m) (hnnz : 0 < nnz)
    (hlive : ∀ a, minfo.csrsv_lower_info = some a → ∃ cell, store[a]? = some (some cell)) :
    ∃ r1 obj,
      rocsparse_csrsv_analysis_template total_spin1 (some handle) trans m nnz (some descr)
        (some val) (some rp) (some ci) (some minfo) store rocsparse_analysis_policy_force
        rocsparse_solve_policy_auto (some buf) = some r1 ∧
      r1.status = rocsparse_status.arch_mismatch ∧
      r1.info = some { minfo with csrsv_lower_info := some store.length } ∧
      r1.store.length = store.length + 1 ∧
      r1.store.lookup (some store.length) = some obj ∧
      obj.h_row_map = some (List.replicate (m.toNat + 1) 0) ∧
      obj.max_depth = 0 ∧
      rocsparse_csrsv_analysis_template total_spin2 (some handle) trans m nnz (some descr)
        (some val) (some rp) (some ci) r1.info r1.store rocsparse_analysis_policy_reuse
        rocsparse_solve_policy_auto r1.temp_buffer
        = some { status := rocsparse_status.success, info := r1.info, store := r1.store,
                 temp_buffer := r1.temp_buffer } := by
  have hnu : descr.fill_mode ≠ rocsparse_fill_mode_upper := by
    rw [hfill]
    decide
  have hwf2 : ¬ (handle.wavefront_size = 32 ∨ handle.wavefront_size = 64) := by
    intro h
    rcases h with h | h
    · exact hwf.1 h
    · exact hwf.2 h
  obtain ⟨store1, hd⟩ := destroy_csrtr_info_total store minfo.csrsv_lower_info hlive
  obtain ⟨_, hlen1, _, _⟩ := destroy_csrtr_info_spec store store1 _ _ hd
  have hcr := csrtr_analysis_arch_mismatch total_spin1 handle trans m nnz descr rp ci
    empty_csrtr_info hwf2
  have hne : ¬ (rocsparse_analysis_policy_force = rocsparse_analysis_policy_reuse) := by
    decide
  have h1 := template_nonquick total_spin1 handle trans m nnz descr val rp ci minfo store
    rocsparse_analysis_policy_force buf hbase htype (Or.inr rfl) hm hnnz
  rw [if_neg hnu, if_neg (fun h => hne h.1), if_neg (fun h => hne h.1),
    rebuild_analysis_released total_spin1 handle trans m nnz descr rp ci minfo _ _ store
      store1 buf _ hd hcr] at h1
  refine ⟨_, { empty_csrtr_info with csr_diag_ind := some (List.replicate m.toNat 0),
                                     zero_pivot := some rocsparse_int_max,
                                     d_row_map := some (List.replicate (m.toNat + 1) 0),
                                     h_row_map := some (List.replicate (m.toNat + 1) 0) },
    h1, rfl, rfl, ?_, ?_, rfl, rfl, ?_⟩
  · simp only [List.length_append, List.length_singleton, hlen1]
  · simp only [InfoStore.lookup]
    rw [← hlen1]
    simp
  · simp only
    rw [template_nonquick total_spin2 handle trans m nnz descr val rp ci _ _ _ (scratch_zero m)
      hbase htype (Or.inl rfl) hm hnnz]
    rw [if_neg hnu, if_pos ⟨rfl, by simp⟩]

/-- Witness of `failed_analysis_not_rolled_back`: the example matrix with a handle
of wavefront size 16 and a matrix info without analyses. -/
theorem failed_analysis_not_rolled_back_witness :
    ∃ r1 obj,
      rocsparse_csrsv_analysis_template 0 (some { ex_handle with wavefront_size := 16 })
        rocsparse_operation_none 4 7 (some ex_descr_lower)
        (some ex_val) (some ex_row_ptr) (some ex_col_ind) (some ex_info_empty) []
        rocsparse_analysis_policy_force rocsparse_solve_policy_auto (some ex_scratch) = some r1 ∧
      r1.status = rocsparse_status.arch_mismatch ∧
      r1.info = some { ex_info_empty with csrsv_lower_info := some 0 } ∧
      r1.store.length = 0 + 1 ∧
      r1.store.lookup (some 0) = some obj ∧
      obj.h_row_map = some (List.replicate ((4 : Int).toNat + 1) 0) ∧
      obj.max_depth = 0 ∧
      rocsparse_csrsv_analysis_template 0 (some { ex_handle with wavefront_size := 16 })
        rocsparse_operation_none 4 7 (some ex_descr_lower)
        (some ex_val) (some ex_row_ptr) (some ex_col_ind) r1.info r1.store
        rocsparse_analysis_policy_reuse rocsparse_solve_policy_auto r1.temp_buffer
        = some { status := rocsparse_status.success, info := r1.info, store := r1.store,
                 temp_buffer := r1.temp_buffer } :=
  failed_analysis_not_rolled_back 0 0 { ex_handle with wavefront_size := 16 }
    rocsparse_operation_none 4 7 ex_descr_lower ex_val ex_row_ptr ex_col_ind ex_info_empty []
    ex_scratch (by decide) (by decide) (by decide) (by decide) (by decide) (by decide)
    (by
      intro a h
      simp [ex_info_empty] at h)

/-! ## The block sum reduction -/

/-- C28 (block sum reduction): for `1 ≤ n ≤ 1024`, an array `x` of at least `n`
elements and the threads `0 .. n - 1` executing each of the ten guarded steps of
`rocsparse_sum_reduce<n>` in any order, every thread finishing a step before the
next step starts, no access leaves the array and `x[0]` ends as the sum of the
initial `x[0] .. x[n - 1]` in exact arithmetic, whether or not `n` is a power of
two. In every step, an element that a thread reads or writes is written by no other
thread. -/
theorem sum_reduce_correct (n : Nat) (sched : Nat → List Nat) (x : List Rat)
    (hn1 : 1 ≤ n) (hn : n ≤ 1024) (hx : n ≤ x.length)
    (hperm : ∀ s, (sched s).Perm (List.range n)) :
    (∃ x', rocsparse_sum_reduce n sched x = some x' ∧ x'.length = x.length ∧
      x'[0]? = some ((x.take n).sum)) ∧
    (∀ s t t', t ≠ t' →
      (∀ i ∈ sum_reduce_reads n s t, i ∉ sum_reduce_writes n s t') ∧
      (∀ i ∈ sum_reduce_writes n s t, i ∉ sum_reduce_writes n s t')) := by
  refine ⟨sum_reduce_spec n sched x hn1 hn hx hperm, ?_⟩
  intro s t t' htt
  unfold sum_reduce_reads sum_reduce_writes
  by_cases ha : sum_reduce_active n s t
  · by_cases hb : sum_reduce_active n s t'
    · simp only [ha, hb, if_true]
      unfold sum_reduce_active at ha hb
      constructor
      · intro i hi
        simp only [List.mem_cons, List.mem_singleton, List.not_mem_nil, or_false] at hi ⊢
        omega
      · intro i hi
        simp only [List.mem_singleton] at hi ⊢
        omega
    · simp only [hb, if_false]
      exact ⟨fun i _ => List.not_mem_nil i, fun i _ => List.not_mem_nil i⟩
  · simp only [ha, if_false]
    constructor
    · intro i hi
      exact absurd hi (List.not_mem_nil i)
    · intro i hi
      exact absurd hi (List.not_mem_nil i)

/-- Witness of `sum_reduce_correct`: three threads, run in the order 2, 0, 1 in
every step, on the array 1, 2, 3, 4: the first entry ends as the sum of the first
three entries. -/
theorem sum_reduce_correct_witness :
    ∃ x', rocsparse_sum_reduce 3 (fun _ => [2, 0, 1]) [1, 2, 3, 4] = some x' ∧
      x'.length = ([1, 2, 3, 4] : List Rat).length ∧
      x'[0]? = some ((([1, 2, 3, 4] : List Rat).take 3).sum) :=
  (sum_reduce_correct 3 (fun _ => [2, 0, 1]) [1, 2, 3, 4] (by decide) (by decide) (by decide)
    (fun _ => (by decide : ([2, 0, 1] : List Nat).Perm (List.range 3)))).1

end RocSparse
